import Mathlib

/-!
# ffplay: queues, clocks, decoder, seeking and video refresh

A shallow embedding of the queue layer, the clocks, the decoder loop, the seek
block of the read loop and the video refresh of `src/ffplay.cpp`.

* Machine integers are `Int`; every arithmetic step of the source goes through
  `wrap32` / `wrap64` (two's complement `int` / `int64_t`).
* The linked list of `MyAVPacketList` nodes lives in an explicit heap
  (`Heap`): a node pointer is an address, `none` is `nullptr`.  Following a
  pointer that is not a live node has no defined result (`none` / `fault`).
* Mutexes and condition variables are not modelled: every function is the
  sequential effect of one call.  A call that would sleep in
  `pthread_cond_wait` yields `wait`.
* A `double` is a `Double`: NaN, an infinity or an exact rational, so rounding
  is not modelled.  The literals `0.04` and `0.1` that `compute_target_delay`
  compares with are their binary64 values.  Readings of the wall clock and
  the results of library calls (`avformat_seek_file`, the codec) are explicit
  arguments.
* The `printf` diagnostics (and the static counters `audio_packets`,
  `video_packets`, `subtitle_packets` that only feed them) are left out.
-/

namespace FFplay

/-! ## Machine integers -/

/-- Value of an integer stored in an `int` (32 bit, two's complement). -/
def wrap32 (x : Int) : Int := (x + 2147483648) % 4294967296 - 2147483648

/-- Value of an integer stored in an `int64_t`. -/
def wrap64 (x : Int) : Int :=
  (x + 9223372036854775808) % 18446744073709551616 - 9223372036854775808

/-- Value of an integer converted to `size_t` (64 bit, unsigned). -/
def to_size_t (x : Int) : Int := x % 18446744073709551616

/-- The constant `INT_MAX`. -/
def INT_MAX : Int := 2147483647

/-! ## Packets and packet queue nodes -/

/-- The `data` pointer of an `AVPacket`: null, the address of the static
`flush_pkt` (set by `flush_pkt.data = (uint8_t *) &flush_pkt`), or the address
of a payload buffer. -/
inductive DataPtr where
  | nullptr
  | flush_pkt
  | buffer (addr : Nat)
deriving DecidableEq, Repr

/-- The fields of the external `AVPacket` that the queue layer reads. -/
structure AVPacket where
  data : DataPtr
  size : Int
  duration : Int
  stream_index : Int
deriving DecidableEq, Repr

/-- Contents of the static `flush_pkt` after `av_init_packet(&flush_pkt)` and
`flush_pkt.data = (uint8_t *) &flush_pkt` (a zero-initialised static). -/
def flush_pkt : AVPacket :=
  { data := DataPtr.flush_pkt, size := 0, duration := 0, stream_index := 0 }

/-- An `AVPacket *` argument: `&flush_pkt`, or a pointer to another packet
whose contents are `p`. -/
inductive PktArg where
  | flush_pkt
  | packet (p : AVPacket)
deriving DecidableEq, Repr

/-- The packet `*pkt`. -/
def PktArg.deref : PktArg → AVPacket
  | PktArg.flush_pkt => FFplay.flush_pkt
  | PktArg.packet p => p

/-- A node of the queue: `struct MyAVPacketList`. -/
structure MyAVPacketList where
  pkt : AVPacket
  next : Option Nat
  serial : Int
deriving DecidableEq, Repr

/-- The allocated `MyAVPacketList` nodes, by address. -/
abbrev Heap := Nat → Option MyAVPacketList

/-- Write node `n` at address `a`. -/
def Heap.store (h : Heap) (a : Nat) (n : MyAVPacketList) : Heap :=
  fun b => if b = a then some n else h b

/-- Release the node at address `a` (`av_free` / `av_freep`). -/
def Heap.free (h : Heap) (a : Nat) : Heap :=
  fun b => if b = a then none else h b

/-- The heap with no node allocated. -/
def Heap.empty : Heap := fun _ => none

/-- The fields of `struct PacketQueue` (mutex and condition variable apart). -/
structure PacketQueue where
  first_pkt : Option Nat
  last_pkt : Option Nat
  nb_packets : Int
  size : Int
  duration : Int
  abort_request : Int
  serial : Int
deriving DecidableEq, Repr

/-- The statement `q->size += pkt1->pkt.size + sizeof(*pkt1)`: the right-hand
side is computed in `size_t`, the sum is converted back to `int`. -/
def size_add (sizeof_pkt1 : Nat) (qsize pktsize : Int) : Int :=
  wrap32 (to_size_t (to_size_t qsize + to_size_t (to_size_t pktsize + sizeof_pkt1)))

/-- The statement `q->size -= pkt1->pkt.size + sizeof(*pkt1)`. -/
def size_sub (sizeof_pkt1 : Nat) (qsize pktsize : Int) : Int :=
  wrap32 (to_size_t (to_size_t qsize - to_size_t (to_size_t pktsize + sizeof_pkt1)))

/-! ## Packet queue operations -/

/-- The function `packet_queue_put_private`.  `sizeof_pkt1` is
`sizeof(MyAVPacketList)`; `av_malloc` is the value the allocator returns
(`none` for a failed allocation).  Result: heap, queue and return value;
`none` when `q->last_pkt` is not a live node. -/
def packet_queue_put_private (sizeof_pkt1 : Nat) (h : Heap) (q : PacketQueue)
    (pkt : PktArg) (av_malloc : Option Nat) : Option (Heap × PacketQueue × Int) :=
  if q.abort_request ≠ 0 then
    some (h, q, -1)
  else
    match av_malloc with
    | none => some (h, q, -1)
    | some pkt1 =>
      let serial := if pkt = PktArg.flush_pkt then wrap32 (q.serial + 1) else q.serial
      let node : MyAVPacketList := { pkt := pkt.deref, next := none, serial := serial }
      let h1 := h.store pkt1 node
      let counted : PacketQueue :=
        { q with
          last_pkt := some pkt1
          serial := serial
          nb_packets := wrap32 (q.nb_packets + 1)
          size := size_add sizeof_pkt1 q.size node.pkt.size
          duration := wrap64 (q.duration + node.pkt.duration) }
      match q.last_pkt with
      | none => some (h1, { counted with first_pkt := some pkt1 }, 0)
      | some last =>
        match h1 last with
        | none => none
        | some ln => some (h1.store last { ln with next := some pkt1 }, counted, 0)

/-- The function `packet_queue_put`: `packet_queue_put_private` under the
queue mutex.  (The `seek_by_bytes` block only prints; on failure the caller's
packet is released with `av_packet_unref`, and that packet is not part of the
queue.) -/
def packet_queue_put (sizeof_pkt1 : Nat) (h : Heap) (q : PacketQueue)
    (pkt : PktArg) (av_malloc : Option Nat) : Option (Heap × PacketQueue × Int) :=
  packet_queue_put_private sizeof_pkt1 h q pkt av_malloc

/-- The function `packet_queue_init`: `memset` to zero, then
`abort_request = 1`; it returns 0. -/
def packet_queue_init : PacketQueue :=
  { first_pkt := none, last_pkt := none, nb_packets := 0, size := 0, duration := 0,
    abort_request := 1, serial := 0 }

/-- The loop of `packet_queue_flush`: walk the list from `pkt`, releasing every
node.  `none` when a pointer is not a live node, or the fuel runs out. -/
def flush_loop : Nat → Heap → Option Nat → Option Heap
  | _, h, none => some h
  | 0, _, some _ => none
  | fuel + 1, h, some pkt =>
    match h pkt with
    | none => none
    | some node => flush_loop fuel (h.free pkt) node.next

/-- The function `packet_queue_flush`. -/
def packet_queue_flush (fuel : Nat) (h : Heap) (q : PacketQueue) :
    Option (Heap × PacketQueue) :=
  match flush_loop fuel h q.first_pkt with
  | none => none
  | some h1 =>
    some (h1, { q with first_pkt := none, last_pkt := none, nb_packets := 0, size := 0,
                       duration := 0 })

/-- The function `packet_queue_abort`. -/
def packet_queue_abort (q : PacketQueue) : PacketQueue :=
  { q with abort_request := 1 }

/-- The function `packet_queue_start`: clear `abort_request`, then put the
flush sentinel (the return value of the put is dropped). -/
def packet_queue_start (sizeof_pkt1 : Nat) (h : Heap) (q : PacketQueue)
    (av_malloc : Option Nat) : Option (Heap × PacketQueue) :=
  match packet_queue_put_private sizeof_pkt1 h { q with abort_request := 0 }
      PktArg.flush_pkt av_malloc with
  | none => none
  | some (h1, q1, _) => some (h1, q1)

/-- What a call of `packet_queue_get` leaves behind: heap, queue, the two
out-parameters `*pkt` and `*serial`, and the return value. -/
structure GetOut where
  heap : Heap
  q : PacketQueue
  pkt : AVPacket
  serial : Option Int
  ret : Int

/-- Outcome of a call that can sleep on a condition variable. -/
inductive Res (α : Type) where
  | ok (a : α)
  | wait
  | fault

/-- The function `packet_queue_get`.  `pkt` is the old content of `*pkt`;
`serial` is `none` for a null `serial` pointer and otherwise holds the old
`*serial`.  `wait`: the queue is empty, not aborted and `block` is set, the
call sleeps in `pthread_cond_wait`.  `fault`: `q->first_pkt` is not a live
node.  (The `seek_by_bytes` block after the loop only prints.) -/
def packet_queue_get (sizeof_pkt1 : Nat) (h : Heap) (q : PacketQueue) (pkt : AVPacket)
    (block : Int) (serial : Option Int) : Res GetOut :=
  if q.abort_request ≠ 0 then
    Res.ok { heap := h, q := q, pkt := pkt, serial := serial, ret := -1 }
  else
    match q.first_pkt with
    | some a =>
      match h a with
      | none => Res.fault
      | some pkt1 =>
        let q1 : PacketQueue :=
          { q with
            first_pkt := pkt1.next
            last_pkt := if pkt1.next = none then none else q.last_pkt
            nb_packets := wrap32 (q.nb_packets - 1)
            size := size_sub sizeof_pkt1 q.size pkt1.pkt.size
            duration := wrap64 (q.duration - pkt1.pkt.duration) }
        Res.ok { heap := h.free a, q := q1, pkt := pkt1.pkt,
                 serial := serial.map (fun _ => pkt1.serial), ret := 1 }
    | none =>
      if block = 0 then
        Res.ok { heap := h, q := q, pkt := pkt, serial := serial, ret := 0 }
      else
        Res.wait

/-! ## The queue as a list -/

/-- `Linked h p l`: from pointer `p` the heap holds the chain of nodes whose
addresses, packets and serials are listed in `l`, the last `next` being
`nullptr`. -/
def Linked (h : Heap) : Option Nat → List (Nat × AVPacket × Int) → Prop
  | p, [] => p = none
  | p, (a, pk, s) :: rest =>
    p = some a ∧ ∃ n, h a = some n ∧ n.pkt = pk ∧ n.serial = s ∧ Linked h n.next rest

/-- The addresses of a listed chain. -/
def addrs (l : List (Nat × AVPacket × Int)) : List Nat := l.map (fun x => x.1)

/-- `Queued h q l`: the queue `q` holds exactly the nodes `l`, in order:
`first_pkt` starts the chain, `last_pkt` is its last node, no node occurs
twice. -/
def Queued (h : Heap) (q : PacketQueue) (l : List (Nat × AVPacket × Int)) : Prop :=
  Linked h q.first_pkt l ∧ (addrs l).Nodup ∧ q.last_pkt = (addrs l).getLast?

/-- Sum of `pkt.size + sizeof(MyAVPacketList)` over the queued nodes. -/
def total_size (sizeof_pkt1 : Nat) (l : List (Nat × AVPacket × Int)) : Int :=
  (l.map (fun x => x.2.1.size + (sizeof_pkt1 : Int))).sum

/-- Sum of `pkt.duration` over the queued nodes. -/
def total_duration (l : List (Nat × AVPacket × Int)) : Int :=
  (l.map (fun x => x.2.1.duration)).sum

/-- `Counted sizeof_pkt1 q l`: the three counters of `q` are the machine
values of the node count, byte total and duration total of `l`. -/
def Counted (sizeof_pkt1 : Nat) (q : PacketQueue) (l : List (Nat × AVPacket × Int)) : Prop :=
  q.nb_packets = wrap32 (l.length : Int) ∧
  q.size = wrap32 (total_size sizeof_pkt1 l) ∧
  q.duration = wrap64 (total_duration l)

/-- `packet_queue_put` of each packet of the list in turn, each with the
address its allocation returns; collects the return values. -/
def put_all (sizeof_pkt1 : Nat) :
    Heap → PacketQueue → List (PktArg × Option Nat) → Option (Heap × PacketQueue × List Int)
  | h, q, [] => some (h, q, [])
  | h, q, (pkt, m) :: rest =>
    match packet_queue_put sizeof_pkt1 h q pkt m with
    | none => none
    | some (h1, q1, ret) =>
      match put_all sizeof_pkt1 h1 q1 rest with
      | none => none
      | some (h2, q2, rets) => some (h2, q2, ret :: rets)

/-- `n` successive calls `packet_queue_get(q, &pkt, block, &serial)` on the
same two variables; collects return value, `pkt` and `serial` after each call.
`none` as soon as a call waits or faults. -/
def get_all (sizeof_pkt1 : Nat) (block : Int) :
    Nat → Heap → PacketQueue → AVPacket → Int →
      Option (Heap × PacketQueue × List (Int × AVPacket × Int))
  | 0, h, q, _, _ => some (h, q, [])
  | n + 1, h, q, pkt, serial =>
    match packet_queue_get sizeof_pkt1 h q pkt block (some serial) with
    | Res.ok out =>
      match get_all sizeof_pkt1 block n out.heap out.q out.pkt (out.serial.getD serial) with
      | none => none
      | some (h2, q2, outs) =>
        some (h2, q2, (out.ret, out.pkt, out.serial.getD serial) :: outs)
    | Res.wait => none
    | Res.fault => none

/-- The nodes that putting the list leaves on a queue whose serial is `s`:
each packet at the address its allocation returned, tagged with the serial of
the queue at that moment (a flush sentinel first increments the serial). -/
def put_nodes : Int → List (PktArg × Nat) → List (Nat × AVPacket × Int)
  | _, [] => []
  | s, (pkt, a) :: rest =>
    (a, pkt.deref, if pkt = PktArg.flush_pkt then wrap32 (s + 1) else s) ::
      put_nodes (if pkt = PktArg.flush_pkt then wrap32 (s + 1) else s) rest

/-- States of one packet queue reachable from `packet_queue_init` by
`packet_queue_start`, `packet_queue_put` (packets of non-negative size and
duration), `packet_queue_get`, `packet_queue_flush` and `packet_queue_abort`.
The heap at initialisation is arbitrary; an allocation returns `nullptr` or an
address that holds no live node. -/
inductive PQReachable (sizeof_pkt1 : Nat) : Heap → PacketQueue → Prop where
  | init (h : Heap) : PQReachable sizeof_pkt1 h packet_queue_init
  | start {h q h1 q1} (m : Option Nat) :
      PQReachable sizeof_pkt1 h q → (∀ a, m = some a → h a = none) →
      packet_queue_start sizeof_pkt1 h q m = some (h1, q1) →
      PQReachable sizeof_pkt1 h1 q1
  | put {h q h1 q1 ret} (pkt : PktArg) (m : Option Nat) :
      PQReachable sizeof_pkt1 h q → (∀ a, m = some a → h a = none) →
      0 ≤ pkt.deref.size → 0 ≤ pkt.deref.duration →
      packet_queue_put sizeof_pkt1 h q pkt m = some (h1, q1, ret) →
      PQReachable sizeof_pkt1 h1 q1
  | get {h q out} (pkt : AVPacket) (block : Int) (serial : Option Int) :
      PQReachable sizeof_pkt1 h q →
      packet_queue_get sizeof_pkt1 h q pkt block serial = Res.ok out →
      PQReachable sizeof_pkt1 out.heap out.q
  | flush {h q h1 q1} (fuel : Nat) :
      PQReachable sizeof_pkt1 h q →
      packet_queue_flush fuel h q = some (h1, q1) →
      PQReachable sizeof_pkt1 h1 q1
  | abort {h q} :
      PQReachable sizeof_pkt1 h q → PQReachable sizeof_pkt1 h (packet_queue_abort q)

/-! ## Doubles -/

/-- A `double`: NaN, a number, or an infinity (`inf false` is `+inf`,
`inf true` is `-inf`).  Numbers are exact rationals: rounding, overflow to an
infinity and the sign of zero are not modelled. -/
inductive Double where
  | nan
  | val (x : ℚ)
  | inf (negative : Bool)
deriving DecidableEq

/-- The sum `a + b`; NaN when an operand is NaN and for `inf + -inf`. -/
def Double.add : Double → Double → Double
  | Double.val a, Double.val b => Double.val (a + b)
  | Double.inf s, Double.val _ => Double.inf s
  | Double.val _, Double.inf t => Double.inf t
  | Double.inf s, Double.inf t => if s = t then Double.inf s else Double.nan
  | _, _ => Double.nan

/-- The difference `a - b`; NaN when an operand is NaN and for `inf - inf`. -/
def Double.sub : Double → Double → Double
  | Double.val a, Double.val b => Double.val (a - b)
  | Double.inf s, Double.val _ => Double.inf s
  | Double.val _, Double.inf t => Double.inf (!t)
  | Double.inf s, Double.inf t => if s = t then Double.nan else Double.inf s
  | _, _ => Double.nan

/-- The product `a * b`; NaN when an operand is NaN and for `inf * 0`. -/
def Double.mul : Double → Double → Double
  | Double.val a, Double.val b => Double.val (a * b)
  | Double.inf s, Double.val b => if b = 0 then Double.nan else Double.inf (xor s (decide (b < 0)))
  | Double.val a, Double.inf t => if a = 0 then Double.nan else Double.inf (xor (decide (a < 0)) t)
  | Double.inf s, Double.inf t => Double.inf (xor s t)
  | _, _ => Double.nan

/-- The negation `-a`. -/
def Double.neg : Double → Double
  | Double.val a => Double.val (-a)
  | Double.inf s => Double.inf (!s)
  | Double.nan => Double.nan

/-- The function `fabs`. -/
def Double.fabs : Double → Double
  | Double.val a => Double.val |a|
  | Double.inf _ => Double.inf false
  | Double.nan => Double.nan

/-- The comparison `a < b` (also `b > a`); false when an operand is NaN. -/
def Double.lt : Double → Double → Bool
  | Double.val a, Double.val b => decide (a < b)
  | Double.inf s, Double.val _ => s
  | Double.val _, Double.inf t => !t
  | Double.inf s, Double.inf t => s && !t
  | _, _ => false

/-- The comparison `a <= b` (also `b >= a`); false when an operand is NaN. -/
def Double.le : Double → Double → Bool
  | Double.val a, Double.val b => decide (a ≤ b)
  | Double.inf s, Double.val _ => s
  | Double.val _, Double.inf t => !t
  | Double.inf s, Double.inf t => s || !t
  | _, _ => false

/-- The macro `isnan`. -/
def Double.isnan : Double → Bool
  | Double.nan => true
  | Double.val _ => false
  | Double.inf _ => false

/-- An `int` converted to `double`. -/
def Double.ofInt (n : Int) : Double := Double.val (n : ℚ)

/-- The cast `(int) x`: the number truncated toward zero.  Where the cast is
undefined (NaN, an infinity, or a value outside the range of `int`) the result
is taken to be `INT_MIN`. -/
def Double.toInt : Double → Int
  | Double.nan => -2147483648
  | Double.inf _ => -2147483648
  | Double.val x =>
    if -2147483648 ≤ Int.tdiv x.num x.den ∧ Int.tdiv x.num x.den ≤ 2147483647 then
      Int.tdiv x.num x.den
    else -2147483648

/-- The quotient `a / b`; NaN when an operand is NaN, for `0 / 0` and for
`inf / inf`.  A zero divisor is `+0.0`, as it is at every division of the
program (the divisor is a converted integer, a non-zero constant, or a result
of `fabs`): a positive number over zero is `+inf`, a negative one `-inf`. -/
def Double.div : Double → Double → Double
  | Double.val a, Double.val b =>
    if b = 0 then (if a = 0 then Double.nan else Double.inf (decide (a < 0)))
    else Double.val (a / b)
  | Double.val _, Double.inf _ => Double.val 0
  | Double.inf s, Double.val b => Double.inf (xor s (decide (b < 0)))
  | Double.inf _, Double.inf _ => Double.nan
  | _, _ => Double.nan

instance : Add Double := ⟨Double.add⟩

instance : Sub Double := ⟨Double.sub⟩

instance : Mul Double := ⟨Double.mul⟩

instance : Neg Double := ⟨Double.neg⟩

instance : Div Double := ⟨Double.div⟩

/-- The macro `FFMAX(a, b)` on doubles, `((a) > (b) ? (a) : (b))`. -/
def FFMAX_double (a b : Double) : Double := if b.lt a then a else b

/-- The macro `FFMIN(a, b)` on doubles, `((a) > (b) ? (b) : (a))`. -/
def FFMIN_double (a b : Double) : Double := if b.lt a then b else a

/-! ## Frame queue -/

/-- The constant `VIDEO_PICTURE_QUEUE_SIZE`. -/
def VIDEO_PICTURE_QUEUE_SIZE : Int := 3

/-- The constant `SAMPLE_QUEUE_SIZE`. -/
def SAMPLE_QUEUE_SIZE : Int := 9

/-- The constant `SUBPICTURE_QUEUE_SIZE`. -/
def SUBPICTURE_QUEUE_SIZE : Int := 16

/-- The libavutil macro `FFMAX(a, b)`, `((a) > (b) ? (a) : (b))`. -/
def FFMAX (a b : Int) : Int := if a > b then a else b

/-- The libavutil macro `FFMIN(a, b)`, `((a) > (b) ? (b) : (a))`. -/
def FFMIN (a b : Int) : Int := if a > b then b else a

/-- The constant `FRAME_QUEUE_SIZE`. -/
def FRAME_QUEUE_SIZE : Int :=
  FFMAX SAMPLE_QUEUE_SIZE (FFMAX VIDEO_PICTURE_QUEUE_SIZE SUBPICTURE_QUEUE_SIZE)

/-- The operator `a % b` on `int` (remainder of the truncated division);
`none` where it is undefined: `b = 0`, and `INT_MIN % -1`. -/
def c_rem (a b : Int) : Option Int :=
  if b = 0 ∨ (a = -2147483648 ∧ b = -1) then none else some (Int.tmod a b)

/-- The fields of `struct Frame` that the queue layer touches.  `α` stands for
the external `AVFrame`, `σ` for the external `AVSubtitle`; `frame` is the
pointee of `AVFrame *frame`, `none` for `nullptr`.  (The aspect ratio `sar`
plays no part here.) -/
structure Frame (α σ : Type) where
  frame : Option α
  sub : σ
  serial : Int
  pts : Double
  duration : Double
  pos : Int
  width : Int
  height : Int
  format : Int
  uploaded : Int
  flip_v : Int

/-- A `Frame` after `memset(…, 0, …)`; `sub0` is the zeroed `AVSubtitle`. -/
def Frame.zero {α σ : Type} (sub0 : σ) : Frame α σ :=
  { frame := none, sub := sub0, serial := 0, pts := Double.val 0, duration := Double.val 0,
    pos := 0, width := 0, height := 0, format := 0, uploaded := 0, flip_v := 0 }

/-- The fields of `struct FrameQueue` (mutex and condition variable apart).
`queue` is the array `Frame queue[FRAME_QUEUE_SIZE]`.  The pointer `pktq` is
not a field here: the functions that read `f->pktq->abort_request` take the
packet queue as an argument. -/
structure FrameQueue (α σ : Type) where
  queue : List (Frame α σ)
  rindex : Int
  windex : Int
  size : Int
  max_size : Int
  keep_last : Int
  rindex_shown : Int

/-- The function `frame_queue_unref_item`; `av_frame_unref` and
`avsubtitle_free` are the external functions it calls (a null `frame` is left
as it is). -/
def frame_queue_unref_item {α σ : Type} (av_frame_unref : α → α) (avsubtitle_free : σ → σ)
    (vp : Frame α σ) : Frame α σ :=
  { vp with frame := vp.frame.map av_frame_unref, sub := avsubtitle_free vp.sub }

/-- The allocation loop of `frame_queue_init`, `n` iterations from index `i`:
`av_frame_alloc i` is what the call for slot `i` returns.  Result: the array
and the value returned (`AVERROR(ENOMEM)` is -12). -/
def frame_queue_init_loop {α σ : Type} (av_frame_alloc : Nat → Option α) :
    Nat → Nat → List (Frame α σ) → List (Frame α σ) × Int
  | 0, _, queue => (queue, 0)
  | n + 1, i, queue =>
    let queue1 := queue.modify (fun vp => { vp with frame := av_frame_alloc i }) i
    if (av_frame_alloc i).isNone then (queue1, -12)
    else frame_queue_init_loop av_frame_alloc n (i + 1) queue1

/-- The function `frame_queue_init`: the queue it leaves and its return value. -/
def frame_queue_init {α σ : Type} (sub0 : σ) (av_frame_alloc : Nat → Option α)
    (max_size keep_last : Int) : FrameQueue α σ × Int :=
  let m := FFMIN max_size FRAME_QUEUE_SIZE
  let r := frame_queue_init_loop av_frame_alloc m.toNat 0
    (List.replicate FRAME_QUEUE_SIZE.toNat (Frame.zero sub0))
  ({ queue := r.1, rindex := 0, windex := 0, size := 0, max_size := m,
     keep_last := if keep_last ≠ 0 then 1 else 0, rindex_shown := 0 }, r.2)

/-- The function `frame_queue_peek`: the index of the slot whose address it
returns; `none` when the `%` is undefined. -/
def frame_queue_peek {α σ : Type} (f : FrameQueue α σ) : Option Int :=
  c_rem (wrap32 (f.rindex + f.rindex_shown)) f.max_size

/-- The function `frame_queue_peek_next`, as `frame_queue_peek`. -/
def frame_queue_peek_next {α σ : Type} (f : FrameQueue α σ) : Option Int :=
  c_rem (wrap32 (wrap32 (f.rindex + f.rindex_shown) + 1)) f.max_size

/-- The function `frame_queue_peek_last`: the index of the slot returned. -/
def frame_queue_peek_last {α σ : Type} (f : FrameQueue α σ) : Int :=
  f.rindex

/-- The function `frame_queue_peek_writable`.  `wait`: the queue is full and
the packet queue not aborted, the call sleeps in `pthread_cond_wait`.
Otherwise `ok none` is the `nullptr` result and `ok (some i)` the address of
slot `i`. -/
def frame_queue_peek_writable {α σ : Type} (f : FrameQueue α σ) (pktq : PacketQueue) :
    Res (Option Int) :=
  if f.size ≥ f.max_size ∧ pktq.abort_request = 0 then Res.wait
  else if pktq.abort_request ≠ 0 then Res.ok none
  else Res.ok (some f.windex)

/-- The function `frame_queue_peek_readable`, as `frame_queue_peek_writable`;
`fault` when the `%` is undefined. -/
def frame_queue_peek_readable {α σ : Type} (f : FrameQueue α σ) (pktq : PacketQueue) :
    Res (Option Int) :=
  if wrap32 (f.size - f.rindex_shown) ≤ 0 ∧ pktq.abort_request = 0 then Res.wait
  else if pktq.abort_request ≠ 0 then Res.ok none
  else
    match c_rem (wrap32 (f.rindex + f.rindex_shown)) f.max_size with
    | none => Res.fault
    | some i => Res.ok (some i)

/-- The function `frame_queue_push`. -/
def frame_queue_push {α σ : Type} (f : FrameQueue α σ) : FrameQueue α σ :=
  { f with
    windex := if wrap32 (f.windex + 1) = f.max_size then 0 else wrap32 (f.windex + 1)
    size := wrap32 (f.size + 1) }

/-- The function `frame_queue_next`; `none` when `f->rindex` is not an index
of the array `queue`. -/
def frame_queue_next {α σ : Type} (av_frame_unref : α → α) (avsubtitle_free : σ → σ)
    (f : FrameQueue α σ) : Option (FrameQueue α σ) :=
  if f.keep_last ≠ 0 ∧ f.rindex_shown = 0 then
    some { f with rindex_shown := 1 }
  else if 0 ≤ f.rindex ∧ f.rindex < (f.queue.length : Int) then
    some { f with
      queue := f.queue.modify (frame_queue_unref_item av_frame_unref avsubtitle_free)
        f.rindex.toNat
      rindex := if wrap32 (f.rindex + 1) = f.max_size then 0 else wrap32 (f.rindex + 1)
      size := wrap32 (f.size - 1) }
  else
    none

/-- The function `frame_queue_nb_remaining`. -/
def frame_queue_nb_remaining {α σ : Type} (f : FrameQueue α σ) : Int :=
  wrap32 (f.size - f.rindex_shown)

/-- A frame producer may push: `frame_queue_peek_writable` has returned a slot
(for some state of the packet queue). -/
def writable {α σ : Type} (f : FrameQueue α σ) : Prop :=
  ∃ pktq w, frame_queue_peek_writable f pktq = Res.ok (some w)

/-- A frame consumer may advance: `frame_queue_nb_remaining` is positive. -/
def remaining {α σ : Type} (f : FrameQueue α σ) : Prop :=
  0 < frame_queue_nb_remaining f

/-- States of one frame queue reachable from a successful `frame_queue_init`
whose `max_size` argument satisfies `init_ok`, by: writes of the callers into
the slots (`touch`), `frame_queue_push` in states satisfying `push_ok`, and
`frame_queue_next` in states satisfying `next_ok`. -/
inductive FQReach {α σ : Type} (sub0 : σ) (av_frame_unref : α → α) (avsubtitle_free : σ → σ)
    (init_ok : Int → Prop) (push_ok next_ok : FrameQueue α σ → Prop) :
    FrameQueue α σ → Prop where
  | init (av_frame_alloc : Nat → Option α) (max_size keep_last : Int) (f : FrameQueue α σ) :
      init_ok max_size →
      frame_queue_init sub0 av_frame_alloc max_size keep_last = (f, 0) →
      FQReach sub0 av_frame_unref avsubtitle_free init_ok push_ok next_ok f
  | touch {f : FrameQueue α σ} (queue : List (Frame α σ)) :
      FQReach sub0 av_frame_unref avsubtitle_free init_ok push_ok next_ok f →
      queue.length = f.queue.length →
      FQReach sub0 av_frame_unref avsubtitle_free init_ok push_ok next_ok
        { f with queue := queue }
  | push {f : FrameQueue α σ} :
      FQReach sub0 av_frame_unref avsubtitle_free init_ok push_ok next_ok f →
      push_ok f →
      FQReach sub0 av_frame_unref avsubtitle_free init_ok push_ok next_ok (frame_queue_push f)
  | next {f f1 : FrameQueue α σ} :
      FQReach sub0 av_frame_unref avsubtitle_free init_ok push_ok next_ok f →
      next_ok f →
      frame_queue_next av_frame_unref avsubtitle_free f = some f1 →
      FQReach sub0 av_frame_unref avsubtitle_free init_ok push_ok next_ok f1

/-- A sample queue: the picture queue as `stream_open` initialises it
(capacity `VIDEO_PICTURE_QUEUE_SIZE`, `keep_last` set), frames and subtitles
being numbers and slot `i` receiving frame `i`. -/
def sample_pictq : FrameQueue Nat Nat :=
  (frame_queue_init (0 : Nat) (fun i => some i) 3 1).1

/-- A sample decoded frame. -/
def sample_frame : Frame Nat Nat :=
  { frame := some 7, sub := 0, serial := 1, pts := Double.val 2, duration := Double.val (1 / 25),
    pos := 0, width := 4, height := 4, format := 0, uploaded := 0, flip_v := 0 }

/-! ## Clocks -/

/-- The constant `AV_SYNC_THRESHOLD_MIN`: the value of the `double` literal
`0.04`, the binary64 number nearest to 4/100, which is `5764607523034235 / 2^57`
(a little above 4/100). -/
def AV_SYNC_THRESHOLD_MIN : ℚ := 5764607523034235 / 144115188075855872

/-- The constant `AV_SYNC_THRESHOLD_MAX`: the value of the `double` literal
`0.1`, the binary64 number nearest to 1/10, which is `3602879701896397 / 2^55`
(a little above 1/10). -/
def AV_SYNC_THRESHOLD_MAX : ℚ := 3602879701896397 / 36028797018963968

/-- The constant `AV_SYNC_FRAMEDUP_THRESHOLD`: the value of the `double`
literal `0.1`, as `AV_SYNC_THRESHOLD_MAX`. -/
def AV_SYNC_FRAMEDUP_THRESHOLD : ℚ := 3602879701896397 / 36028797018963968

/-- The constant `AV_NOSYNC_THRESHOLD`. -/
def AV_NOSYNC_THRESHOLD : ℚ := 10.0

/-- The constant `SAMPLE_CORRECTION_PERCENT_MAX`. -/
def SAMPLE_CORRECTION_PERCENT_MAX : Int := 10

/-- The constant `AUDIO_DIFF_AVG_NB`. -/
def AUDIO_DIFF_AVG_NB : Int := 20

/-- The enumerator `AV_SYNC_AUDIO_MASTER`. -/
def AV_SYNC_AUDIO_MASTER : Int := 0

/-- The enumerator `AV_SYNC_VIDEO_MASTER`. -/
def AV_SYNC_VIDEO_MASTER : Int := 1

/-- The enumerator `AV_SYNC_EXTERNAL_CLOCK`. -/
def AV_SYNC_EXTERNAL_CLOCK : Int := 2

/-- The fields of `struct Clock`.  The pointer `queue_serial` is not a field
here: `get_clock` takes the value `*c->queue_serial` as an argument. -/
structure Clock where
  pts : Double
  pts_drift : Double
  last_updated : Double
  speed : Double
  serial : Int
  paused : Int
deriving DecidableEq

/-- The function `get_clock`.  `queue_serial` is `*c->queue_serial`; `time` is
the value of `av_gettime_relative() / 1000000.0` that the unpaused branch
reads. -/
def get_clock (c : Clock) (queue_serial : Int) (time : ℚ) : Double :=
  if queue_serial ≠ c.serial then Double.nan
  else if c.paused ≠ 0 then c.pts
  else c.pts_drift + Double.val time - (Double.val time - c.last_updated) * (Double.val 1 - c.speed)

/-- The function `set_clock_at`. -/
def set_clock_at (c : Clock) (pts : Double) (serial : Int) (time : Double) : Clock :=
  { c with pts := pts, last_updated := time, pts_drift := pts - time, serial := serial }

/-- The function `set_clock`; `time` is the value of
`av_gettime_relative() / 1000000.0` it reads. -/
def set_clock (c : Clock) (pts : Double) (serial : Int) (time : ℚ) : Clock :=
  set_clock_at c pts serial (Double.val time)

/-- The function `set_clock_speed`: `time1` is the wall time read by its
`get_clock`, `time2` the wall time read next by its `set_clock`. -/
def set_clock_speed (c : Clock) (queue_serial : Int) (speed : Double) (time1 time2 : ℚ) :
    Clock :=
  { set_clock c (get_clock c queue_serial time1) c.serial time2 with speed := speed }

/-- The function `init_clock` (the pointer `queue_serial` apart). -/
def init_clock (c : Clock) (time : ℚ) : Clock :=
  set_clock { c with speed := Double.val 1, paused := 0 } Double.nan (-1) time

/-- The fields of `struct AudioParams`. -/
structure AudioParams where
  freq : Int
  channels : Int
  channel_layout : Int
  fmt : Int
  frame_size : Int
  bytes_per_sec : Int
deriving DecidableEq

/-- The fields of `struct VideoState` that the clock and synchronisation
functions, the seek functions and the video refresh use.  `video_st`,
`audio_st` and `subtitle_st` are the stream pointers (`none` for `nullptr`).
As `stream_open` sets them up, the `queue_serial` pointer of `vidclk` is
`&videoq.serial`, that of `audclk` is `&audioq.serial` and that of `extclk` is
`&extclk.serial`.  The frame queues `pictq` and `subpq`, generic in the frame
type, and the heap of the packet queue nodes are passed next to the state to
the functions that use them. -/
structure VideoState where
  force_refresh : Int
  paused : Int
  queue_attachments_req : Int
  seek_req : Int
  seek_flags : Int
  seek_pos : Int
  seek_rel : Int
  read_pause_return : Int
  eof : Int
  av_sync_type : Int
  vidclk : Clock
  audclk : Clock
  extclk : Clock
  videoq : PacketQueue
  audioq : PacketQueue
  subtitleq : PacketQueue
  video_stream : Int
  audio_stream : Int
  subtitle_stream : Int
  video_st : Option Nat
  audio_st : Option Nat
  subtitle_st : Option Nat
  audio_diff_cum : Double
  audio_diff_avg_coef : Double
  audio_diff_threshold : Double
  audio_diff_avg_count : Int
  audio_src : AudioParams
  frame_drops_late : Int
  frame_timer : Double
  max_frame_duration : Double
  step : Int

/-- The function `get_master_sync_type`. -/
def get_master_sync_type (is : VideoState) : Int :=
  if is.av_sync_type = AV_SYNC_VIDEO_MASTER then
    if is.video_st ≠ none then AV_SYNC_VIDEO_MASTER else AV_SYNC_AUDIO_MASTER
  else if is.av_sync_type = AV_SYNC_AUDIO_MASTER then
    if is.audio_st ≠ none then AV_SYNC_AUDIO_MASTER else AV_SYNC_EXTERNAL_CLOCK
  else
    AV_SYNC_EXTERNAL_CLOCK

/-- The function `get_master_clock`; `time` is the wall time its `get_clock`
reads. -/
def get_master_clock (is : VideoState) (time : ℚ) : Double :=
  if get_master_sync_type is = AV_SYNC_VIDEO_MASTER then
    get_clock is.vidclk is.videoq.serial time
  else if get_master_sync_type is = AV_SYNC_AUDIO_MASTER then
    get_clock is.audclk is.audioq.serial time
  else
    get_clock is.extclk is.extclk.serial time

/-- The function `compute_target_delay`; `time_vid` and `time_master` are the
wall times read by `get_clock(&is->vidclk)` and by `get_master_clock(is)`. -/
def compute_target_delay (delay : Double) (is : VideoState) (time_vid time_master : ℚ) :
    Double :=
  if get_master_sync_type is ≠ AV_SYNC_VIDEO_MASTER then
    let diff := get_clock is.vidclk is.videoq.serial time_vid - get_master_clock is time_master
    let sync_threshold := FFMAX_double (Double.val AV_SYNC_THRESHOLD_MIN)
      (FFMIN_double (Double.val AV_SYNC_THRESHOLD_MAX) delay)
    if !diff.isnan && diff.fabs.lt is.max_frame_duration then
      if diff.le (-sync_threshold) then
        FFMAX_double (Double.val 0) (delay + diff)
      else if sync_threshold.le diff && (Double.val AV_SYNC_FRAMEDUP_THRESHOLD).lt delay then
        delay + diff
      else if sync_threshold.le diff then
        Double.val 2 * delay
      else delay
    else delay
  else delay

/-- The libavutil function `av_clip` (`av_clip_c`). -/
def av_clip (a amin amax : Int) : Int :=
  if a < amin then amin else if a > amax then amax else a

/-- The operator `a / b` on `int` (truncated division), for `b` not 0. -/
def c_div (a b : Int) : Int := Int.tdiv a b

/-- The function `synchronize_audio`: the state it leaves and the value it
returns; `time_aud` and `time_master` are the wall times read by
`get_clock(&is->audclk)` and by `get_master_clock(is)`. -/
def synchronize_audio (is : VideoState) (nb_samples : Int) (time_aud time_master : ℚ) :
    VideoState × Int :=
  if get_master_sync_type is ≠ AV_SYNC_AUDIO_MASTER then
    let diff := get_clock is.audclk is.audioq.serial time_aud - get_master_clock is time_master
    if !diff.isnan && diff.fabs.lt (Double.val AV_NOSYNC_THRESHOLD) then
      let is1 := { is with audio_diff_cum := diff + is.audio_diff_avg_coef * is.audio_diff_cum }
      if is1.audio_diff_avg_count < AUDIO_DIFF_AVG_NB then
        ({ is1 with audio_diff_avg_count := wrap32 (is1.audio_diff_avg_count + 1) }, nb_samples)
      else
        let avg_diff := is1.audio_diff_cum * (Double.val 1 - is1.audio_diff_avg_coef)
        if is1.audio_diff_threshold.le avg_diff.fabs then
          let wanted_nb_samples :=
            wrap32 (nb_samples + (diff * Double.ofInt is1.audio_src.freq).toInt)
          let min_nb_samples :=
            c_div (wrap32 (nb_samples * wrap32 (100 - SAMPLE_CORRECTION_PERCENT_MAX))) 100
          let max_nb_samples :=
            c_div (wrap32 (nb_samples * wrap32 (100 + SAMPLE_CORRECTION_PERCENT_MAX))) 100
          (is1, av_clip wanted_nb_samples min_nb_samples max_nb_samples)
        else (is1, nb_samples)
    else
      ({ is with audio_diff_avg_count := 0, audio_diff_cum := Double.val 0 }, nb_samples)
  else (is, nb_samples)

/-! ## Decoder -/

/-- The libavutil value `AVERROR(EAGAIN)` (`EAGAIN` is 11). -/
def AVERROR_EAGAIN : Int := -11

/-- The libavutil constant `AVERROR_EOF`. -/
def AVERROR_EOF : Int := -541478725

/-- The libavutil constant `AV_NOPTS_VALUE`. -/
def AV_NOPTS_VALUE : Int := -9223372036854775808

/-- The external `struct AVRational`. -/
structure AVRational where
  num : Int
  den : Int
deriving DecidableEq

/-- The fields of the external `AVFrame` that `decoder_decode_frame` touches. -/
structure AVFrame where
  pts : Int
  best_effort_timestamp : Int
  pkt_dts : Int
  sample_rate : Int
  nb_samples : Int
deriving DecidableEq

/-- The values of `avctx->codec_type` that the decoder distinguishes. -/
inductive AVMediaType where
  | VIDEO
  | AUDIO
  | SUBTITLE
  | OTHER
deriving DecidableEq

/-- The external codec library, as an oracle over codec contexts `C` and
subtitles `S`.  Every function also returns the codec context it leaves:
`avcodec_receive_frame` returns (context, return value, frame),
`avcodec_send_packet` (context, return value), `avcodec_decode_subtitle2`
(context, return value, `got_frame`, subtitle). -/
structure Codec (C S : Type) where
  codec_type : C → AVMediaType
  pkt_timebase : C → AVRational
  avcodec_receive_frame : C → AVFrame → C × Int × AVFrame
  avcodec_send_packet : C → AVPacket → C × Int
  avcodec_decode_subtitle2 : C → S → AVPacket → C × Int × Int × S
  avcodec_flush_buffers : C → C
  av_rescale_q : Int → AVRational → AVRational → Int

/-- The fields of `struct Decoder` (the pointer to its packet queue, the
condition variable and the thread apart: the functions below take heap and
queue as arguments). -/
structure Decoder (C : Type) where
  pkt : AVPacket
  avctx : C
  pkt_serial : Int
  finished : Int
  packet_pending : Int
  start_pts : Int
  start_pts_tb : AVRational
  next_pts : Int
  next_pts_tb : AVRational

/-- A packet after `av_packet_unref`, or the source of `av_packet_move_ref`. -/
def blank_pkt : AVPacket :=
  { data := DataPtr.nullptr, size := 0, duration := 0, stream_index := 0 }

/-- The function `decoder_init`. -/
def decoder_init {C : Type} (avctx : C) : Decoder C :=
  { pkt := blank_pkt, avctx := avctx, pkt_serial := -1, finished := 0, packet_pending := 0,
    start_pts := AV_NOPTS_VALUE, start_pts_tb := { num := 0, den := 0 }, next_pts := 0,
    next_pts_tb := { num := 0, den := 0 } }

/-- What a call of `decoder_decode_frame` works on: heap and packet queue, the
decoder, the out-parameters `*frame` and `*sub`, and the local `ret`. -/
structure DecodeState (C S : Type) where
  heap : Heap
  queue : PacketQueue
  d : Decoder C
  frame : AVFrame
  sub : S
  ret : Int

/-- Places in `decoder_decode_frame`: the head of `for (;;)`, the head of the
body of the first `do` loop (receive), the head of the body of the second
`do` loop (fetch). -/
inductive Loc where
  | top
  | receive
  | fetch
deriving DecidableEq

/-- Outcome of running `decoder_decode_frame`: it returned `value`; it sleeps
in `packet_queue_get` (`wait`); the fuel ran out at a place; or a pointer was
not a live node (`fault`). -/
inductive DecodeResult (C S : Type) where
  | returned (value : Int) (st : DecodeState C S)
  | wait (st : DecodeState C S)
  | out_of_fuel (pc : Loc) (st : DecodeState C S)
  | fault

/-- The `switch (d->avctx->codec_type)` of the first `do` loop. -/
def decoder_receive {C S : Type} (cx : Codec C S) (decoder_reorder_pts : Int)
    (st : DecodeState C S) : DecodeState C S :=
  match cx.codec_type st.d.avctx with
  | AVMediaType.VIDEO =>
    let r := cx.avcodec_receive_frame st.d.avctx st.frame
    let frame : AVFrame :=
      if r.2.1 ≥ 0 then
        if decoder_reorder_pts = -1 then { r.2.2 with pts := r.2.2.best_effort_timestamp }
        else if decoder_reorder_pts = 0 then { r.2.2 with pts := r.2.2.pkt_dts }
        else r.2.2
      else r.2.2
    { st with d := { st.d with avctx := r.1 }, frame := frame, ret := r.2.1 }
  | AVMediaType.AUDIO =>
    let r := cx.avcodec_receive_frame st.d.avctx st.frame
    if r.2.1 ≥ 0 then
      let tb : AVRational := { num := 1, den := r.2.2.sample_rate }
      let pts1 : Int :=
        if r.2.2.pts ≠ AV_NOPTS_VALUE then
          cx.av_rescale_q r.2.2.pts (cx.pkt_timebase r.1) tb
        else if st.d.next_pts ≠ AV_NOPTS_VALUE then
          cx.av_rescale_q st.d.next_pts st.d.next_pts_tb tb
        else r.2.2.pts
      let d1 : Decoder C :=
        if pts1 ≠ AV_NOPTS_VALUE then
          { st.d with avctx := r.1, next_pts := wrap64 (pts1 + r.2.2.nb_samples),
                      next_pts_tb := tb }
        else { st.d with avctx := r.1 }
      { st with d := d1, frame := { r.2.2 with pts := pts1 }, ret := r.2.1 }
    else
      { st with d := { st.d with avctx := r.1 }, frame := r.2.2, ret := r.2.1 }
  | _ => st

/-- The end of the body of `for (;;)`: what is done with the packet `pkt` once
the second `do` loop has left with it. -/
def decoder_packet {C S : Type} (cx : Codec C S) (st : DecodeState C S) (pkt : AVPacket) :
    DecodeState C S :=
  if pkt.data = DataPtr.flush_pkt then
    { st with d := { st.d with avctx := cx.avcodec_flush_buffers st.d.avctx, finished := 0,
                               next_pts := st.d.start_pts, next_pts_tb := st.d.start_pts_tb } }
  else if cx.codec_type st.d.avctx = AVMediaType.SUBTITLE then
    let r := cx.avcodec_decode_subtitle2 st.d.avctx st.sub pkt
    if r.2.1 < 0 then
      { st with d := { st.d with avctx := r.1 }, sub := r.2.2.2, ret := AVERROR_EAGAIN }
    else
      let pending : Bool := decide (r.2.2.1 ≠ 0 ∧ pkt.data = DataPtr.nullptr)
      let d1 : Decoder C :=
        if pending then { st.d with avctx := r.1, packet_pending := 1, pkt := pkt }
        else { st.d with avctx := r.1 }
      let pkt1 : AVPacket := if pending then blank_pkt else pkt
      { st with d := d1, sub := r.2.2.2,
                ret := if r.2.2.1 ≠ 0 then 0
                       else if pkt1.data ≠ DataPtr.nullptr then AVERROR_EAGAIN
                       else AVERROR_EOF }
  else
    let r := cx.avcodec_send_packet st.d.avctx pkt
    if r.2 = AVERROR_EAGAIN then
      { st with d := { st.d with avctx := r.1, packet_pending := 1, pkt := pkt } }
    else
      { st with d := { st.d with avctx := r.1 } }

/-- The loops of `decoder_decode_frame`, from place `pc`, one unit of fuel per
passage through a place.  `sizeof_pkt1` is `sizeof(MyAVPacketList)`,
`decoder_reorder_pts` the value of that option.  (The `pthread_cond_signal`
on an empty queue only wakes the reading thread, and the `printf` only
prints.) -/
def decode_loop {C S : Type} (cx : Codec C S) (sizeof_pkt1 : Nat) (decoder_reorder_pts : Int) :
    Nat → Loc → DecodeState C S → DecodeResult C S
  | 0, pc, st => DecodeResult.out_of_fuel pc st
  | n + 1, Loc.top, st =>
    if st.queue.serial = st.d.pkt_serial then
      decode_loop cx sizeof_pkt1 decoder_reorder_pts n Loc.receive st
    else
      decode_loop cx sizeof_pkt1 decoder_reorder_pts n Loc.fetch st
  | n + 1, Loc.receive, st =>
    if st.queue.abort_request ≠ 0 then DecodeResult.returned (-1) st
    else
      let st1 := decoder_receive cx decoder_reorder_pts st
      if st1.ret = AVERROR_EOF then
        DecodeResult.returned 0
          { st1 with d := { st1.d with finished := st1.d.pkt_serial,
                                       avctx := cx.avcodec_flush_buffers st1.d.avctx } }
      else if st1.ret ≥ 0 then DecodeResult.returned 1 st1
      else if st1.ret ≠ AVERROR_EAGAIN then
        decode_loop cx sizeof_pkt1 decoder_reorder_pts n Loc.receive st1
      else
        decode_loop cx sizeof_pkt1 decoder_reorder_pts n Loc.fetch st1
  | n + 1, Loc.fetch, st =>
    if st.d.packet_pending ≠ 0 then
      let st1 : DecodeState C S :=
        { st with d := { st.d with pkt := blank_pkt, packet_pending := 0 } }
      if st1.queue.serial = st1.d.pkt_serial then
        decode_loop cx sizeof_pkt1 decoder_reorder_pts n Loc.top (decoder_packet cx st1 st.d.pkt)
      else
        decode_loop cx sizeof_pkt1 decoder_reorder_pts n Loc.fetch st1
    else
      match packet_queue_get sizeof_pkt1 st.heap st.queue blank_pkt 1 (some st.d.pkt_serial) with
      | Res.fault => DecodeResult.fault
      | Res.wait => DecodeResult.wait st
      | Res.ok out =>
        let st1 : DecodeState C S :=
          { st with heap := out.heap, queue := out.q,
                    d := { st.d with pkt_serial := out.serial.getD st.d.pkt_serial } }
        if out.ret < 0 then DecodeResult.returned (-1) st1
        else if st1.queue.serial = st1.d.pkt_serial then
          decode_loop cx sizeof_pkt1 decoder_reorder_pts n Loc.top (decoder_packet cx st1 out.pkt)
        else
          decode_loop cx sizeof_pkt1 decoder_reorder_pts n Loc.fetch st1

/-- The function `decoder_decode_frame`, run with the given fuel. -/
def decoder_decode_frame {C S : Type} (cx : Codec C S) (sizeof_pkt1 : Nat)
    (decoder_reorder_pts : Int) (fuel : Nat) (h : Heap) (q : PacketQueue) (d : Decoder C)
    (frame : AVFrame) (sub : S) : DecodeResult C S :=
  decode_loop cx sizeof_pkt1 decoder_reorder_pts fuel Loc.top
    { heap := h, queue := q, d := d, frame := frame, sub := sub, ret := AVERROR_EAGAIN }

/-- How a run goes on after an outcome: the place where it is suspended
(`none` once the call has returned), the state, and the serial of the frame
it produced, if it returned 1.  `none` after a fault. -/
def DecodeResult.next {C S : Type} :
    DecodeResult C S → Option (Option Loc × DecodeState C S × List Int)
  | DecodeResult.returned v st => some (none, st, if v = 1 then [st.d.pkt_serial] else [])
  | DecodeResult.wait st => some (some Loc.fetch, st, [])
  | DecodeResult.out_of_fuel pc st => some (some pc, st, [])
  | DecodeResult.fault => none

/-- Histories of one decoder and its packet queue from state `st0` at place
`m0`: `Session … m st l` says that the decoder is now at place `m` (`none`
between calls) in state `st`, having produced frames with the serials `l`.
The steps are: a put or flush on the queue (not inside the receive loop; a
sentinel only while the serial is below `INT_MAX`), a call of
`decoder_decode_frame`, and the continuation of a suspended call. -/
inductive Session {C S : Type} (cx : Codec C S) (sizeof_pkt1 : Nat)
    (decoder_reorder_pts : Int) (st0 : DecodeState C S) (m0 : Option Loc) :
    Option Loc → DecodeState C S → List Int → Prop where
  | start : (m0 = some Loc.receive → st0.queue.serial = st0.d.pkt_serial) →
      Session cx sizeof_pkt1 decoder_reorder_pts st0 m0 m0 st0 []
  | put {m st l h1 q1 r} (pkt : PktArg) (av_malloc : Option Nat) :
      Session cx sizeof_pkt1 decoder_reorder_pts st0 m0 m st l →
      m ≠ some Loc.receive →
      (pkt = PktArg.flush_pkt → st.queue.serial < INT_MAX) →
      packet_queue_put sizeof_pkt1 st.heap st.queue pkt av_malloc = some (h1, q1, r) →
      Session cx sizeof_pkt1 decoder_reorder_pts st0 m0 m { st with heap := h1, queue := q1 } l
  | flush {m st l h1 q1} (fuel : Nat) :
      Session cx sizeof_pkt1 decoder_reorder_pts st0 m0 m st l →
      m ≠ some Loc.receive →
      packet_queue_flush fuel st.heap st.queue = some (h1, q1) →
      Session cx sizeof_pkt1 decoder_reorder_pts st0 m0 m { st with heap := h1, queue := q1 } l
  | call {st l m1 st1 out} (fuel : Nat) (frame : AVFrame) (sub : S) :
      Session cx sizeof_pkt1 decoder_reorder_pts st0 m0 none st l →
      (decoder_decode_frame cx sizeof_pkt1 decoder_reorder_pts fuel st.heap st.queue st.d
        frame sub).next = some (m1, st1, out) →
      Session cx sizeof_pkt1 decoder_reorder_pts st0 m0 m1 st1 (l ++ out)
  | resume {pc st l m1 st1 out} (fuel : Nat) :
      Session cx sizeof_pkt1 decoder_reorder_pts st0 m0 (some pc) st l →
      (decode_loop cx sizeof_pkt1 decoder_reorder_pts fuel pc st).next = some (m1, st1, out) →
      Session cx sizeof_pkt1 decoder_reorder_pts st0 m0 m1 st1 (l ++ out)

/-! ## Seek requests, buffering and display helpers -/

/-- The constant `MIN_FRAMES`. -/
def MIN_FRAMES : Int := 10000

/-- The constant `EXTERNAL_CLOCK_MIN_FRAMES`. -/
def EXTERNAL_CLOCK_MIN_FRAMES : Int := 2

/-- The constant `EXTERNAL_CLOCK_MAX_FRAMES`. -/
def EXTERNAL_CLOCK_MAX_FRAMES : Int := 10

/-- The constant `EXTERNAL_CLOCK_SPEED_MIN`. -/
def EXTERNAL_CLOCK_SPEED_MIN : ℚ := 0.900

/-- The constant `EXTERNAL_CLOCK_SPEED_MAX`. -/
def EXTERNAL_CLOCK_SPEED_MAX : ℚ := 1.010

/-- The constant `EXTERNAL_CLOCK_SPEED_STEP`. -/
def EXTERNAL_CLOCK_SPEED_STEP : ℚ := 0.001

/-- The constant `SAMPLE_ARRAY_SIZE`. -/
def SAMPLE_ARRAY_SIZE : Int := 8 * 65536

/-- The libavformat constant `AVSEEK_FLAG_BYTE`. -/
def AVSEEK_FLAG_BYTE : Int := 2

/-- The libavformat constant `AV_DISPOSITION_ATTACHED_PIC`. -/
def AV_DISPOSITION_ATTACHED_PIC : Int := 1024

/-- The libavutil constant `AV_TIME_BASE`. -/
def AV_TIME_BASE : Int := 1000000

/-- The constant `INT64_MIN`. -/
def INT64_MIN : Int := -9223372036854775808

/-- The constant `INT64_MAX`. -/
def INT64_MAX : Int := 9223372036854775807

/-- The libavutil value `AVERROR(ENOSYS)` (`ENOSYS` is 38). -/
def AVERROR_ENOSYS : Int := -38

/-- The function `compute_mod`; `none` where the `%` is undefined. -/
def compute_mod (a b : Int) : Option Int :=
  match c_rem a b with
  | none => none
  | some r => some (if a < 0 then wrap32 (r + b) else r)

/-- The value that `video_audio_display` gives `i_start` (and `x`) in
`i_start = x = compute_mod(s->sample_array_index - delay * channels,
SAMPLE_ARRAY_SIZE)`. -/
def i_start (sample_array_index delay channels : Int) : Option Int :=
  compute_mod (wrap32 (sample_array_index - wrap32 (delay * channels))) SAMPLE_ARRAY_SIZE

/-- The function `stream_seek` (its `printf` and `pthread_cond_signal`
apart). -/
def stream_seek (is : VideoState) (pos rel seek_by_bytes : Int) : VideoState :=
  if is.seek_req = 0 then
    { is with
      seek_req := 1
      seek_pos := pos
      seek_rel := rel
      seek_flags :=
        if seek_by_bytes ≠ 0 then
          Int.lor (Int.land is.seek_flags (Int.lnot AVSEEK_FLAG_BYTE)) AVSEEK_FLAG_BYTE
        else Int.land is.seek_flags (Int.lnot AVSEEK_FLAG_BYTE) }
  else is

/-- The test `loop != 1 && (!loop || --loop)` of `read_thread`: its value, and
the value it leaves in the global `loop`. -/
def loop_test (loop : Int) : Bool × Int :=
  if loop ≠ 1 then
    if loop = 0 then (true, loop)
    else (decide (wrap32 (loop - 1) ≠ 0), wrap32 (loop - 1))
  else (false, loop)

/-- The end-of-playback block of `read_thread`.  `auddec_finished` and
`viddec_finished` are `is->auddec.finished` and `is->viddec.finished`,
`sampq_remaining` and `pictq_remaining` the values of
`frame_queue_nb_remaining` on `sampq` and `pictq`; `loop`, `autoexit` and
`start_time` are the globals.  Result: the state, the global `loop`, and
`some ret` when the block leaves the loop by `goto fail`. -/
def read_thread_end_of_playback (is : VideoState)
    (auddec_finished viddec_finished sampq_remaining pictq_remaining : Int)
    (loop autoexit start_time : Int) : VideoState × Int × Option Int :=
  if is.paused = 0 ∧
      (is.audio_st = none ∨ (auddec_finished = is.audioq.serial ∧ sampq_remaining = 0)) ∧
      (is.video_st = none ∨ (viddec_finished = is.videoq.serial ∧ pictq_remaining = 0)) then
    if (loop_test loop).1 then
      (stream_seek is (if start_time ≠ AV_NOPTS_VALUE then start_time else 0) 0 0,
        (loop_test loop).2, none)
    else if autoexit ≠ 0 then (is, (loop_test loop).2, some AVERROR_EOF)
    else (is, (loop_test loop).2, none)
  else (is, loop, none)

/-- The test `loop != 1 && (!loop || --loop)` at `k` successive end-of-playback
checks that leave the loop running: the number of checks at which it held
(a replay is requested), and the value left in `loop`. -/
def loop_checks : Nat → Int → Nat × Int
  | 0, loop => (0, loop)
  | k + 1, loop =>
    ((if (loop_test loop).1 then 1 else 0) + (loop_checks k (loop_test loop).2).1,
      (loop_checks k (loop_test loop).2).2)

/-- The fields of the external `AVStream` that `stream_has_enough_packets`
reads. -/
structure AVStream where
  disposition : Int
  time_base : AVRational
deriving DecidableEq

/-- The libavutil function `av_q2d`, `a.num / (double) a.den`: for `den = 0`
the result is `+inf`, `-inf` or NaN as `num` is positive, negative or 0. -/
def av_q2d (a : AVRational) : Double := Double.ofInt a.num / Double.ofInt a.den

/-- The function `stream_has_enough_packets`; `st` is the pointee of the
stream pointer (`none` for `nullptr`), `none` as result when a null `st` is
dereferenced. -/
def stream_has_enough_packets (st : Option AVStream) (stream_id : Int) (queue : PacketQueue) :
    Option Int :=
  if stream_id < 0 ∨ queue.abort_request ≠ 0 then some 1
  else if queue.nb_packets > MIN_FRAMES ∧ queue.duration = 0 then some 1
  else
    match st with
    | none => none
    | some s =>
      if queue.nb_packets > MIN_FRAMES ∧
          (Double.val 1).lt (av_q2d s.time_base * Double.ofInt queue.duration) = true then some 1
      else if Int.land s.disposition AV_DISPOSITION_ATTACHED_PIC ≠ 0 then some 1
      else some 0

/-- The function `vp_duration`. -/
def vp_duration {α σ : Type} (is : VideoState) (vp nextvp : Frame α σ) : Double :=
  if vp.serial = nextvp.serial then
    if (nextvp.pts - vp.pts).isnan || (nextvp.pts - vp.pts).le (Double.val 0) ||
        is.max_frame_duration.lt (nextvp.pts - vp.pts) then
      vp.duration
    else nextvp.pts - vp.pts
  else Double.val 0

/-- The function `check_external_clock_speed`; `time1` and `time2` are the
wall times read by the `get_clock` and the `set_clock` of `set_clock_speed`. -/
def check_external_clock_speed (is : VideoState) (time1 time2 : ℚ) : VideoState :=
  if (is.video_stream ≥ 0 ∧ is.videoq.nb_packets ≤ EXTERNAL_CLOCK_MIN_FRAMES) ∨
      (is.audio_stream ≥ 0 ∧ is.audioq.nb_packets ≤ EXTERNAL_CLOCK_MIN_FRAMES) then
    let speed := FFMAX_double (Double.val EXTERNAL_CLOCK_SPEED_MIN)
      (is.extclk.speed - Double.val EXTERNAL_CLOCK_SPEED_STEP)
    { is with extclk := set_clock_speed is.extclk is.extclk.serial speed time1 time2 }
  else if (is.video_stream < 0 ∨ is.videoq.nb_packets > EXTERNAL_CLOCK_MAX_FRAMES) ∧
      (is.audio_stream < 0 ∨ is.audioq.nb_packets > EXTERNAL_CLOCK_MAX_FRAMES) then
    let speed := FFMIN_double (Double.val EXTERNAL_CLOCK_SPEED_MAX)
      (is.extclk.speed + Double.val EXTERNAL_CLOCK_SPEED_STEP)
    { is with extclk := set_clock_speed is.extclk is.extclk.serial speed time1 time2 }
  else if is.extclk.speed ≠ Double.val 1 then
    let speed := is.extclk.speed +
      Double.val EXTERNAL_CLOCK_SPEED_STEP * (Double.val 1 - is.extclk.speed) /
        (Double.val 1 - is.extclk.speed).fabs
    { is with extclk := set_clock_speed is.extclk is.extclk.serial speed time1 time2 }
  else is

/-- The function `stream_toggle_pause` (its `printf`s apart).  `time i` is the
value of `av_gettime_relative() / 1000000.0` at its `i`-th place of reading:
0 for `frame_timer`, 1 and 2 for the `get_clock` and `set_clock` of `vidclk`,
3 and 4 for those of `extclk`. -/
def stream_toggle_pause (is : VideoState) (time : Nat → ℚ) : VideoState :=
  let is1 : VideoState :=
    if is.paused ≠ 0 then
      let vidclk : Clock :=
        if is.read_pause_return ≠ AVERROR_ENOSYS then { is.vidclk with paused := 0 }
        else is.vidclk
      { is with
        frame_timer := is.frame_timer + (Double.val (time 0) - is.vidclk.last_updated)
        vidclk := set_clock vidclk (get_clock vidclk is.videoq.serial (time 1)) vidclk.serial
          (time 2) }
    else is
  let extclk : Clock :=
    set_clock is1.extclk (get_clock is1.extclk is1.extclk.serial (time 3)) is1.extclk.serial
      (time 4)
  let paused : Int := if is1.paused = 0 then 1 else 0
  { is1 with
    paused := paused
    audclk := { is1.audclk with paused := paused }
    vidclk := { is1.vidclk with paused := paused }
    extclk := { extclk with paused := paused } }

/-- The function `step_to_next_frame`; `time` as in `stream_toggle_pause`. -/
def step_to_next_frame (is : VideoState) (time : Nat → ℚ) : VideoState :=
  { (if is.paused ≠ 0 then stream_toggle_pause is time else is) with step := 1 }

/-- The local `seek_min` of the seek block of `read_thread`. -/
def seek_min (is : VideoState) : Int :=
  if is.seek_rel > 0 then wrap64 (wrap64 (is.seek_pos - is.seek_rel) + 2) else INT64_MIN

/-- The local `seek_max` of the seek block of `read_thread`. -/
def seek_max (is : VideoState) : Int :=
  if is.seek_rel < 0 then wrap64 (wrap64 (is.seek_pos - is.seek_rel) - 2) else INT64_MAX

/-- The two statements `packet_queue_flush(q); packet_queue_put(q, &flush_pkt);`
that the seek block of `read_thread` runs on the queue of each open stream
(the value returned by the put is dropped). -/
def flush_and_put_sentinel (sizeof_pkt1 fuel : Nat) (h : Heap) (q : PacketQueue)
    (av_malloc : Option Nat) : Option (Heap × PacketQueue) :=
  match packet_queue_flush fuel h q with
  | none => none
  | some (h1, q1) =>
    match packet_queue_put sizeof_pkt1 h1 q1 PktArg.flush_pkt av_malloc with
    | none => none
    | some (h2, q2, _) => some (h2, q2)

/-- The seek block of `read_thread`, `if (is->seek_req) { … }` (its `printf`s
and `av_log` apart).  `avformat_seek_file min_ts ts max_ts flags` is the value
the external seek returns; `av_malloc_video`, `av_malloc_audio` and
`av_malloc_subtitle` are what the allocator returns for the three sentinel
nodes; `fuel` bounds the flush loops; `time 0` is the wall time read by the
`set_clock` of `extclk`, and `time (i + 1)` is `time i` of
`stream_toggle_pause`.  `none` when a flush or a put meets a pointer that is
not a live node, or the fuel runs out. -/
def read_thread_seek (sizeof_pkt1 : Nat) (avformat_seek_file : Int → Int → Int → Int → Int)
    (fuel : Nat) (h : Heap) (is : VideoState)
    (av_malloc_video av_malloc_audio av_malloc_subtitle : Option Nat) (time : Nat → ℚ) :
    Option (Heap × VideoState) :=
  if is.seek_req ≠ 0 then
    let flushed : Option (Heap × VideoState) :=
      if avformat_seek_file (seek_min is) is.seek_pos (seek_max is) is.seek_flags < 0 then
        some (h, is)
      else
        match (if is.video_stream ≥ 0 then
            flush_and_put_sentinel sizeof_pkt1 fuel h is.videoq av_malloc_video
          else some (h, is.videoq)) with
        | none => none
        | some (h1, videoq) =>
          match (if is.audio_stream ≥ 0 then
              flush_and_put_sentinel sizeof_pkt1 fuel h1 is.audioq av_malloc_audio
            else some (h1, is.audioq)) with
          | none => none
          | some (h2, audioq) =>
            match (if is.subtitle_stream ≥ 0 then
                flush_and_put_sentinel sizeof_pkt1 fuel h2 is.subtitleq av_malloc_subtitle
              else some (h2, is.subtitleq)) with
            | none => none
            | some (h3, subtitleq) =>
              let pts : Double :=
                if Int.land is.seek_flags AVSEEK_FLAG_BYTE ≠ 0 then Double.nan
                else Double.ofInt is.seek_pos / Double.ofInt AV_TIME_BASE
              some (h3, { is with
                          videoq := videoq
                          audioq := audioq
                          subtitleq := subtitleq
                          extclk := set_clock is.extclk pts 0 (time 0) })
    match flushed with
    | none => none
    | some (h4, is4) =>
      let is5 : VideoState := { is4 with seek_req := 0, queue_attachments_req := 1, eof := 0 }
      some (h4, if is5.paused ≠ 0 then step_to_next_frame is5 (fun i => time (i + 1)) else is5)
  else some (h, is)

/-! ## Video refresh -/

/-- The function `sync_clock_to_slave`.  `c_queue_serial` and
`slave_queue_serial` are the values behind the `queue_serial` pointers of the
two clocks; `time1`, `time2` and `time3` are the wall times read by the two
`get_clock` and by the `set_clock`. -/
def sync_clock_to_slave (c : Clock) (c_queue_serial : Int) (slave : Clock)
    (slave_queue_serial : Int) (time1 time2 time3 : ℚ) : Clock :=
  if !(get_clock slave slave_queue_serial time2).isnan &&
      ((get_clock c c_queue_serial time1).isnan ||
        (Double.val AV_NOSYNC_THRESHOLD).lt
          (get_clock c c_queue_serial time1 - get_clock slave slave_queue_serial time2).fabs) then
    set_clock c (get_clock slave slave_queue_serial time2) slave.serial time3
  else c

/-- The function `update_video_pts` (`pos` is not used by it).  `time 0` is
the wall time read by its `set_clock`, `time 1`, `time 2` and `time 3` are
those of `sync_clock_to_slave`. -/
def update_video_pts (is : VideoState) (pts : Double) (serial : Int) (time : Nat → ℚ) :
    VideoState :=
  { is with
    vidclk := set_clock is.vidclk pts serial (time 0)
    extclk := sync_clock_to_slave is.extclk is.extclk.serial
      (set_clock is.vidclk pts serial (time 0)) is.videoq.serial (time 1) (time 2) (time 3) }

/-- The frame `f->queue[i]`; `none` when `i` is not an index of the array. -/
def frame_queue_at {α σ : Type} (f : FrameQueue α σ) (i : Int) : Option (Frame α σ) :=
  if 0 ≤ i then f.queue[i.toNat]? else none

/-- What `video_refresh` works on besides the heap-free part of `VideoState`:
the frame queues `is->pictq` and `is->subpq`, and `*remaining_time`. -/
structure RefreshState (α σ : Type) where
  is : VideoState
  pictq : FrameQueue α σ
  subpq : FrameQueue α σ
  remaining_time : Double

/-- The subtitle loop of `video_refresh`,
`while (frame_queue_nb_remaining(&is->subpq) > 0) { … }`, one unit of fuel per
test of its condition; the clearing of the SDL texture apart.
`start_display_time` and `end_display_time` read these fields of an
`AVSubtitle`; the quotient `(float) … / 1000` is taken exactly.  `none` when a
slot index is not inside the array, or the fuel runs out. -/
def video_refresh_subtitles {α σ : Type} (av_frame_unref : α → α) (avsubtitle_free : σ → σ)
    (start_display_time end_display_time : σ → Int) (is : VideoState) :
    Nat → FrameQueue α σ → Option (FrameQueue α σ)
  | 0, _ => none
  | fuel + 1, subpq =>
    if frame_queue_nb_remaining subpq > 0 then
      match (frame_queue_peek subpq).bind (frame_queue_at subpq),
          (if frame_queue_nb_remaining subpq > 1 then
            ((frame_queue_peek_next subpq).bind (frame_queue_at subpq)).map some
          else some none) with
      | some sp, some sp2 =>
        if sp.serial ≠ is.subtitleq.serial ∨
            (sp.pts + Double.ofInt (end_display_time sp.sub) / Double.val 1000).lt
              is.vidclk.pts = true ∨
            (match sp2 with
              | some s2 =>
                (s2.pts + Double.ofInt (start_display_time s2.sub) / Double.val 1000).lt
                  is.vidclk.pts
              | none => false) = true then
          match frame_queue_next av_frame_unref avsubtitle_free subpq with
          | none => none
          | some subpq1 =>
            video_refresh_subtitles av_frame_unref avsubtitle_free start_display_time
              end_display_time is fuel subpq1
        else some subpq
      | _, _ => none
    else some subpq

/-- How one passage from the label `retry` of `video_refresh` ends: nothing
remains in `pictq` (`nothing`); `frame_queue_next(&is->pictq)` was called and
the code jumps back to `retry`; the code jumps to `display` without a call of
`frame_queue_next`; `frame_queue_next(&is->pictq)` was called for the frame
now to be shown (`shown`); or a slot index was not inside the array
(`fault`). -/
inductive RefreshPass (α σ : Type) where
  | nothing (st : RefreshState α σ)
  | retry (st : RefreshState α σ)
  | display (st : RefreshState α σ)
  | shown (st : RefreshState α σ)
  | fault

/-- The end of a passage of `video_refresh`, from the test
`frame_queue_nb_remaining(&is->pictq) > 1` on: the late frame `vp` is dropped
and the code jumps back to `retry`, or expired subtitles are released, `vp`
becomes the shown frame and a pending step pauses the player.  `is` is the
state after `update_video_pts`, `time` as in `video_refresh_pass`. -/
def video_refresh_show {α σ : Type} (av_frame_unref : α → α) (avsubtitle_free : σ → σ)
    (start_display_time end_display_time : σ → Int) (framedrop : Int) (sub_fuel : Nat)
    (time : Nat → ℚ) (st : RefreshState α σ) (vp : Frame α σ) (is : VideoState) :
    RefreshPass α σ :=
  match (if frame_queue_nb_remaining st.pictq > 1 then
      ((frame_queue_peek_next st.pictq).bind (frame_queue_at st.pictq)).map
        (fun nextvp =>
          decide (is.step = 0 ∧
            (framedrop > 0 ∨
              (framedrop ≠ 0 ∧ get_master_sync_type is ≠ AV_SYNC_VIDEO_MASTER))) &&
          (is.frame_timer + vp_duration is vp nextvp).lt (Double.val (time 3)))
    else some false) with
  | none => RefreshPass.fault
  | some true =>
    match frame_queue_next av_frame_unref avsubtitle_free st.pictq with
    | none => RefreshPass.fault
    | some pictq1 =>
      RefreshPass.retry
        { st with
          is := { is with frame_drops_late := wrap32 (is.frame_drops_late + 1) }
          pictq := pictq1 }
  | some false =>
    match (if is.subtitle_st ≠ none then
        video_refresh_subtitles av_frame_unref avsubtitle_free start_display_time
          end_display_time is sub_fuel st.subpq
      else some st.subpq),
        frame_queue_next av_frame_unref avsubtitle_free st.pictq with
    | some subpq1, some pictq1 =>
      RefreshPass.shown
        { is := if is.step ≠ 0 ∧ is.paused = 0 then
                  stream_toggle_pause { is with force_refresh := 1 } (fun i => time (i + 8))
                else { is with force_refresh := 1 }
          pictq := pictq1
          subpq := subpq1
          remaining_time := st.remaining_time }
    | _, _ => RefreshPass.fault

/-- The frame timer after the statements `is->frame_timer += delay;
if (delay > 0 && time - is->frame_timer > AV_SYNC_THRESHOLD_MAX)
is->frame_timer = time;` of `video_refresh`. -/
def video_refresh_frame_timer (frame_timer delay time : Double) : Double :=
  if (Double.val 0).lt delay &&
      (Double.val AV_SYNC_THRESHOLD_MAX).lt (time - (frame_timer + delay)) then time
  else frame_timer + delay

/-- A passage of `video_refresh` for a frame `vp` of the current serial, from
the test of `is->paused` on.  `is` is the state after the frame timer was
reset for a frame of a new serial, `time` as in `video_refresh_pass`. -/
def video_refresh_frame {α σ : Type} (av_frame_unref : α → α) (avsubtitle_free : σ → σ)
    (start_display_time end_display_time : σ → Int) (framedrop : Int) (sub_fuel : Nat)
    (time : Nat → ℚ) (st : RefreshState α σ) (lastvp vp : Frame α σ) (is : VideoState) :
    RefreshPass α σ :=
  if is.paused ≠ 0 then RefreshPass.display { st with is := is }
  else if (Double.val (time 3)).lt
      (is.frame_timer +
        compute_target_delay (vp_duration is lastvp vp) is (time 1) (time 2)) then
    RefreshPass.display
      { st with
        is := is
        remaining_time :=
          FFMIN_double
            (is.frame_timer +
              compute_target_delay (vp_duration is lastvp vp) is (time 1) (time 2) -
              Double.val (time 3))
            st.remaining_time }
  else if !vp.pts.isnan then
    video_refresh_show av_frame_unref avsubtitle_free start_display_time end_display_time
      framedrop sub_fuel time st vp
      (update_video_pts
        { is with
          frame_timer := video_refresh_frame_timer is.frame_timer
            (compute_target_delay (vp_duration is lastvp vp) is (time 1) (time 2))
            (Double.val (time 3)) }
        vp.pts vp.serial (fun i => time (i + 4)))
  else
    video_refresh_show av_frame_unref avsubtitle_free start_display_time end_display_time
      framedrop sub_fuel time st vp
      { is with
        frame_timer := video_refresh_frame_timer is.frame_timer
          (compute_target_delay (vp_duration is lastvp vp) is (time 1) (time 2))
          (Double.val (time 3)) }

/-- One passage through the body of `if (is->video_st) { retry: … }` of
`video_refresh`, from the label `retry` to a jump back to it, a jump to
`display`, or the end of the block.  `framedrop` is the global; `time i` is
the value of `av_gettime_relative() / 1000000.0` at the `i`-th place of
reading of the passage: 0 for `frame_timer`, 1 and 2 in
`compute_target_delay`, 3 for `time`, 4 to 7 in `update_video_pts`, 8 to 12 in
`stream_toggle_pause`. -/
def video_refresh_pass {α σ : Type} (av_frame_unref : α → α) (avsubtitle_free : σ → σ)
    (start_display_time end_display_time : σ → Int) (framedrop : Int) (sub_fuel : Nat)
    (time : Nat → ℚ) (st : RefreshState α σ) : RefreshPass α σ :=
  if frame_queue_nb_remaining st.pictq = 0 then RefreshPass.nothing st
  else
    match frame_queue_at st.pictq (frame_queue_peek_last st.pictq),
        (frame_queue_peek st.pictq).bind (frame_queue_at st.pictq) with
    | some lastvp, some vp =>
      if vp.serial ≠ st.is.videoq.serial then
        match frame_queue_next av_frame_unref avsubtitle_free st.pictq with
        | none => RefreshPass.fault
        | some pictq1 => RefreshPass.retry { st with pictq := pictq1 }
      else if vp.serial ≠ lastvp.serial then
        video_refresh_frame av_frame_unref avsubtitle_free start_display_time
          end_display_time framedrop sub_fuel time st lastvp vp
          { st.is with frame_timer := Double.val (time 0) }
      else
        video_refresh_frame av_frame_unref avsubtitle_free start_display_time
          end_display_time framedrop sub_fuel time st lastvp vp st.is
    | _, _ => RefreshPass.fault

/-- What the retry loop relies on in the outcome of a passage from state
`st`: no fault; a jump back to `retry`, and the showing of a frame, come after
a `frame_queue_next` on `st.pictq` that had a frame remaining; in every other
case `pictq` is as it was; a jump back leaves `subpq` as it was. -/
def RefreshPass.sound {α σ : Type} (av_frame_unref : α → α) (avsubtitle_free : σ → σ)
    (st : RefreshState α σ) : RefreshPass α σ → Prop
  | RefreshPass.nothing st1 => st1 = st ∧ frame_queue_nb_remaining st.pictq = 0
  | RefreshPass.retry st1 =>
    frame_queue_next av_frame_unref avsubtitle_free st.pictq = some st1.pictq ∧
      st1.subpq = st.subpq ∧ 0 < frame_queue_nb_remaining st.pictq
  | RefreshPass.display st1 => st1.pictq = st.pictq ∧ 0 < frame_queue_nb_remaining st.pictq
  | RefreshPass.shown st1 =>
    frame_queue_next av_frame_unref avsubtitle_free st.pictq = some st1.pictq ∧
      0 < frame_queue_nb_remaining st.pictq
  | RefreshPass.fault => False

/-- The block `if (is->video_st) { retry: … }` of `video_refresh`, up to the
label `display`: the passages from `retry`, one unit of fuel each, the `n`-th
with the wall-time readings `time n`.  Result: the state at `display`, the
number of jumps back to `retry`, and the value of
`frame_queue_nb_remaining(&is->pictq)` at each call of
`frame_queue_next(&is->pictq)`, in order.  `none` on a fault, or when the fuel
runs out. -/
def video_refresh_retry {α σ : Type} (av_frame_unref : α → α) (avsubtitle_free : σ → σ)
    (start_display_time end_display_time : σ → Int) (framedrop : Int) (sub_fuel : Nat)
    (time : Nat → Nat → ℚ) :
    Nat → Nat → RefreshState α σ → Option (RefreshState α σ × Nat × List Int)
  | 0, _, _ => none
  | fuel + 1, n, st =>
    match video_refresh_pass av_frame_unref avsubtitle_free start_display_time
        end_display_time framedrop sub_fuel (time n) st with
    | RefreshPass.fault => none
    | RefreshPass.nothing st1 => some (st1, 0, [])
    | RefreshPass.display st1 => some (st1, 0, [])
    | RefreshPass.shown st1 => some (st1, 0, [frame_queue_nb_remaining st.pictq])
    | RefreshPass.retry st1 =>
      match video_refresh_retry av_frame_unref avsubtitle_free start_display_time
          end_display_time framedrop sub_fuel time fuel (n + 1) st1 with
      | none => none
      | some (st2, retries, calls) =>
        some (st2, retries + 1, frame_queue_nb_remaining st.pictq :: calls)

/-- The block `if (is->video_st) { … }` of `video_refresh` up to the label
`display`; result as for `video_refresh_retry`. -/
def video_refresh_video {α σ : Type} (av_frame_unref : α → α) (avsubtitle_free : σ → σ)
    (start_display_time end_display_time : σ → Int) (framedrop : Int) (sub_fuel : Nat)
    (time : Nat → Nat → ℚ) (fuel : Nat) (st : RefreshState α σ) :
    Option (RefreshState α σ × Nat × List Int) :=
  if st.is.video_st ≠ none then
    video_refresh_retry av_frame_unref avsubtitle_free start_display_time end_display_time
      framedrop sub_fuel time fuel 0 st
  else some (st, 0, [])

/-- A sample codec: a video decoder whose context is the number of frames it
holds.  A packet sent adds a frame, a frame received takes one away, and with
no frame held `avcodec_receive_frame` asks for input. -/
def sample_codec : Codec Nat Unit :=
  { codec_type := fun _ => AVMediaType.VIDEO,
    pkt_timebase := fun _ => { num := 1, den := 1000 },
    avcodec_receive_frame := fun c f => if c = 0 then (c, AVERROR_EAGAIN, f) else (c - 1, 0, f),
    avcodec_send_packet := fun c _ => (c + 1, 0),
    avcodec_decode_subtitle2 := fun c s _ => (c, 0, 0, s),
    avcodec_flush_buffers := fun _ => 0,
    av_rescale_q := fun a _ _ => a }

/-- A sample frame buffer. -/
def sample_avframe : AVFrame :=
  { pts := 0, best_effort_timestamp := 0, pkt_dts := 0, sample_rate := 0, nb_samples := 0 }

/-- A sample data packet. -/
def sample_packet : AVPacket :=
  { data := DataPtr.buffer 7, size := 100, duration := 40, stream_index := 0 }

/-- A sample start: an empty queue with serial 0 that is not aborted, and a
decoder fresh from `decoder_init`. -/
def sample_decode_state : DecodeState Nat Unit :=
  { heap := Heap.empty, queue := { packet_queue_init with abort_request := 0 },
    d := decoder_init 0, frame := sample_avframe, sub := (), ret := 0 }

/-- A sample decoder that has worked on serial 4 (a packet pending, the end
of the stream reached, a timestamp extrapolated), and a queue that holds
nothing but the flush sentinel that took its serial from 4 to 5. -/
def sample_sentinel_state : DecodeState Nat Unit :=
  { heap := Heap.empty.store 10 { pkt := flush_pkt, next := none, serial := 5 },
    queue := { first_pkt := some 10, last_pkt := some 10, nb_packets := 1, size := 104,
               duration := 0, abort_request := 0, serial := 5 },
    d := { pkt := sample_packet, avctx := 3, pkt_serial := 4, finished := 4,
           packet_pending := 1, start_pts := AV_NOPTS_VALUE,
           start_pts_tb := { num := 0, den := 0 }, next_pts := 777,
           next_pts_tb := { num := 1, den := 48000 } },
    frame := sample_avframe, sub := (), ret := AVERROR_EAGAIN }

/-- A sample clock: paused, anchored at pts 5 with serial 1. -/
def sample_clock : Clock :=
  { pts := Double.val 5, pts_drift := Double.val 3, last_updated := Double.val 2,
    speed := Double.val 1, serial := 1, paused := 1 }

/-- A sample session: audio is the configured master and both streams are
open; both queues have serial 1; the clocks are paused, the video clock at
1 s and the audio clock at 1.05 s. -/
def sample_is : VideoState :=
  { force_refresh := 0,
    paused := 1,
    queue_attachments_req := 0,
    seek_req := 0,
    seek_flags := 0,
    seek_pos := 0,
    seek_rel := 0,
    read_pause_return := 0,
    eof := 0,
    av_sync_type := 0,
    vidclk := { sample_clock with pts := Double.val 1 },
    audclk := { sample_clock with pts := Double.val (21 / 20) },
    extclk := sample_clock,
    videoq := { packet_queue_init with abort_request := 0, serial := 1 },
    audioq := { packet_queue_init with abort_request := 0, serial := 1 },
    subtitleq := packet_queue_init,
    video_stream := 0,
    audio_stream := 1,
    subtitle_stream := -1,
    video_st := some 1,
    audio_st := some 2,
    subtitle_st := none,
    audio_diff_cum := Double.val 0,
    audio_diff_avg_coef := Double.val (4 / 5),
    audio_diff_threshold := Double.val (1 / 50),
    audio_diff_avg_count := 20,
    audio_src := { freq := 48000, channels := 2, channel_layout := 3, fmt := 1,
                   frame_size := 4, bytes_per_sec := 192000 },
    frame_drops_late := 0,
    frame_timer := Double.val 0,
    max_frame_duration := Double.val 10,
    step := 0 }

/-- A sample heap: three data packets of serial 1 at the addresses 1, 2
and 3. -/
def sample_seek_heap : Heap :=
  ((Heap.empty.store 1 { pkt := sample_packet, next := none, serial := 1 }).store 2
    { pkt := sample_packet, next := none, serial := 1 }).store 3
    { pkt := sample_packet, next := none, serial := 1 }

/-- A sample state with a time seek to 3 s pending: the sample session with
the subtitle stream open too, the three queues started, with serial 1 and
each holding one packet of `sample_seek_heap`. -/
def sample_seek_is : VideoState :=
  { sample_is with
    seek_req := 1
    seek_pos := 3000000
    seek_rel := 10000000
    subtitle_stream := 2
    subtitle_st := some 3
    videoq := { first_pkt := some 1, last_pkt := some 1, nb_packets := 1, size := 204,
                duration := 40, abort_request := 0, serial := 1 }
    audioq := { first_pkt := some 2, last_pkt := some 2, nb_packets := 1, size := 204,
                duration := 40, abort_request := 0, serial := 1 }
    subtitleq := { first_pkt := some 3, last_pkt := some 3, nb_packets := 1, size := 204,
                   duration := 40, abort_request := 0, serial := 1 } }

/-- A sample state of the video refresh: the sample session (video queue
serial 1), the sample picture queue with two frames pushed, both of serial 0,
and an empty subtitle queue. -/
def sample_refresh_state : RefreshState Nat Nat :=
  { is := sample_is,
    pictq := frame_queue_push (frame_queue_push sample_pictq),
    subpq := (frame_queue_init (0 : Nat) (fun i => some i) 16 0).1,
    remaining_time := Double.val (1 / 100) }

/-! ## Machine arithmetic -/

theorem wrap32_wrap32_add (x y : Int) : wrap32 (wrap32 x + y) = wrap32 (x + y) := by
  unfold wrap32; omega

theorem wrap32_wrap32_sub (x y : Int) : wrap32 (wrap32 x - y) = wrap32 (x - y) := by
  unfold wrap32; omega

theorem wrap64_wrap64_add (x y : Int) : wrap64 (wrap64 x + y) = wrap64 (x + y) := by
  unfold wrap64; omega

theorem wrap64_wrap64_sub (x y : Int) : wrap64 (wrap64 x - y) = wrap64 (x - y) := by
  unfold wrap64; omega

theorem size_add_wrap32 (sz : Nat) (x p : Int) :
    size_add sz (wrap32 x) p = wrap32 (x + (p + sz)) := by
  unfold size_add to_size_t wrap32; omega

theorem size_sub_wrap32 (sz : Nat) (x p : Int) :
    size_sub sz (wrap32 x) p = wrap32 (x - (p + sz)) := by
  unfold size_sub to_size_t wrap32; omega

theorem wrap32_of_range (x : Int) (h0 : -2147483648 ≤ x) (h1 : x ≤ 2147483647) :
    wrap32 x = x := by
  unfold wrap32; omega

theorem wrap64_of_range (x : Int) (h0 : -9223372036854775808 ≤ x)
    (h1 : x ≤ 9223372036854775807) : wrap64 x = x := by
  unfold wrap64; omega

/-! ## Heap and chain lemmas -/

theorem Linked_nil (h : Heap) (p : Option Nat) : Linked h p [] ↔ p = none := Iff.rfl

theorem Linked_cons (h : Heap) (p : Option Nat) (a : Nat) (pk : AVPacket) (s : Int)
    (rest : List (Nat × AVPacket × Int)) :
    Linked h p ((a, pk, s) :: rest) ↔
      p = some a ∧ ∃ n, h a = some n ∧ n.pkt = pk ∧ n.serial = s ∧ Linked h n.next rest :=
  Iff.rfl

theorem addrs_cons (x : Nat × AVPacket × Int) (l : List (Nat × AVPacket × Int)) :
    addrs (x :: l) = x.1 :: addrs l := rfl

theorem addrs_append (l1 l2 : List (Nat × AVPacket × Int)) :
    addrs (l1 ++ l2) = addrs l1 ++ addrs l2 := by
  simp [addrs]

theorem Heap.store_same (h : Heap) (a : Nat) (n : MyAVPacketList) :
    (h.store a n) a = some n := by
  simp [Heap.store]

theorem Heap.store_other (h : Heap) {a b : Nat} (n : MyAVPacketList) (hba : b ≠ a) :
    (h.store a n) b = h b := by
  simp [Heap.store, hba]

theorem Heap.free_same (h : Heap) (a : Nat) : (h.free a) a = none := by
  simp [Heap.free]

theorem Heap.free_other (h : Heap) {a b : Nat} (hba : b ≠ a) : (h.free a) b = h b := by
  simp [Heap.free, hba]

/-- Every node of a chain is live. -/
theorem Linked_live {h : Heap} : ∀ {l : List (Nat × AVPacket × Int)} {p : Option Nat},
    Linked h p l → ∀ b, b ∈ addrs l → ∃ n, h b = some n := by
  intro l
  induction l with
  | nil => intro p _ b hb; simp [addrs] at hb
  | cons x rest ih =>
    obtain ⟨a, pk, s⟩ := x
    intro p hl b hb
    obtain ⟨_, n, hn, _, _, hrest⟩ := (Linked_cons h p a pk s rest).1 hl
    rw [addrs_cons] at hb
    rcases List.mem_cons.1 hb with hba | hmem
    · exact ⟨n, by rw [hba]; exact hn⟩
    · exact ih hrest b hmem

/-- An address that holds no node is not on the chain. -/
theorem Linked_not_mem_of_free {h : Heap} {l : List (Nat × AVPacket × Int)} {p : Option Nat}
    (hl : Linked h p l) {a : Nat} (ha : h a = none) : a ∉ addrs l := by
  intro hmem
  obtain ⟨n, hn⟩ := Linked_live hl a hmem
  rw [ha] at hn
  exact Option.noConfusion hn

/-- Writing at an address off the chain leaves the chain as it is. -/
theorem Linked_store {h : Heap} (a : Nat) (node : MyAVPacketList) :
    ∀ {l : List (Nat × AVPacket × Int)} {p : Option Nat},
    Linked h p l → a ∉ addrs l → Linked (h.store a node) p l := by
  intro l
  induction l with
  | nil => intro p hl _; exact hl
  | cons x rest ih =>
    obtain ⟨b, pk, s⟩ := x
    intro p hl hnot
    obtain ⟨hp, n, hn, hpk, hs, hrest⟩ := (Linked_cons h p b pk s rest).1 hl
    rw [addrs_cons] at hnot
    have hba : b ≠ a := fun e => hnot (by rw [e]; exact List.mem_cons_self _ _)
    have hrestnot : a ∉ addrs rest := fun e => hnot (List.mem_cons_of_mem _ e)
    refine (Linked_cons _ p b pk s rest).2 ⟨hp, n, ?_, hpk, hs, ih hrest hrestnot⟩
    simp [Heap.store, hba, hn]

/-- Releasing an address off the chain leaves the chain as it is. -/
theorem Linked_free {h : Heap} (a : Nat) :
    ∀ {l : List (Nat × AVPacket × Int)} {p : Option Nat},
    Linked h p l → a ∉ addrs l → Linked (h.free a) p l := by
  intro l
  induction l with
  | nil => intro p hl _; exact hl
  | cons x rest ih =>
    obtain ⟨b, pk, s⟩ := x
    intro p hl hnot
    obtain ⟨hp, n, hn, hpk, hs, hrest⟩ := (Linked_cons h p b pk s rest).1 hl
    rw [addrs_cons] at hnot
    have hba : b ≠ a := fun e => hnot (by rw [e]; exact List.mem_cons_self _ _)
    have hrestnot : a ∉ addrs rest := fun e => hnot (List.mem_cons_of_mem _ e)
    refine (Linked_cons _ p b pk s rest).2 ⟨hp, n, ?_, hpk, hs, ih hrest hrestnot⟩
    simp [Heap.free, hba, hn]

/-- Linking a fresh node behind the last node of a chain appends it. -/
theorem Linked_append {h : Heap} (a b : Nat) (node ln : MyAVPacketList)
    (hnext : node.next = none) (hb : h b = some ln) :
    ∀ {l : List (Nat × AVPacket × Int)} {p : Option Nat},
    Linked h p l → (addrs l).Nodup → (addrs l).getLast? = some b → a ∉ addrs l →
    Linked ((h.store a node).store b { ln with next := some a }) p
      (l ++ [(a, node.pkt, node.serial)]) := by
  intro l
  induction l with
  | nil => intro p _ _ hlast _; simp [addrs] at hlast
  | cons x rest ih =>
    obtain ⟨c, pk, s⟩ := x
    intro p hl hnd hlast hnot
    obtain ⟨hp, n, hn, hpk, hs, hrest⟩ := (Linked_cons h p c pk s rest).1 hl
    rw [addrs_cons] at hnd hlast hnot
    have hca : c ≠ a := fun e => hnot (by rw [e]; exact List.mem_cons_self _ _)
    have hrestnot : a ∉ addrs rest := fun e => hnot (List.mem_cons_of_mem _ e)
    cases rest with
    | nil =>
      have hcb : c = b := by simpa [addrs] using hlast
      subst hcb
      have hnl : n = ln := by rw [hn] at hb; exact Option.some.inj hb
      subst hnl
      have hnone : n.next = none := (Linked_nil h _).1 hrest
      refine (Linked_cons _ p c pk s _).2 ⟨hp, { n with next := some a }, ?_, hpk, hs, ?_⟩
      · simp [Heap.store]
      · refine (Linked_cons _ _ a node.pkt node.serial []).2 ⟨rfl, node, ?_, rfl, rfl, ?_⟩
        · have hac : a ≠ c := fun e => hca e.symm
          simp [Heap.store, hac]
        · exact (Linked_nil _ _).2 hnext
    | cons y rest2 =>
      have hlast2 : (addrs (y :: rest2)).getLast? = some b := by
        simpa [addrs, List.getLast?_cons_cons] using hlast
      have hbmem : b ∈ addrs (y :: rest2) := List.mem_of_getLast?_eq_some hlast2
      have hcb : c ≠ b := by
        intro e
        rw [e] at hnd
        exact (List.nodup_cons.1 hnd).1 hbmem
      have ih2 := ih hrest (List.nodup_cons.1 hnd).2 hlast2 hrestnot
      refine (Linked_cons _ p c pk s _).2 ⟨hp, n, ?_, hpk, hs, ih2⟩
      simp [Heap.store, hca, hcb, hn]

/-! ## Effect of the operations on a listed queue -/

theorem total_size_append (sz : Nat) (l : List (Nat × AVPacket × Int))
    (x : Nat × AVPacket × Int) :
    total_size sz (l ++ [x]) = total_size sz l + (x.2.1.size + (sz : Int)) := by
  simp [total_size]

theorem total_duration_append (l : List (Nat × AVPacket × Int)) (x : Nat × AVPacket × Int) :
    total_duration (l ++ [x]) = total_duration l + x.2.1.duration := by
  simp [total_duration]

/-- A put on a listed, non-aborted queue with a fresh node address succeeds and
appends the node, tagged with the (possibly incremented) serial. -/
theorem put_private_spec (sz : Nat) {h : Heap} {q : PacketQueue}
    {l : List (Nat × AVPacket × Int)} (hq : Queued h q l) (hc : Counted sz q l)
    (hab : q.abort_request = 0) (pkt : PktArg) {a : Nat} (ha : h a = none) :
    ∃ h1 q1, packet_queue_put_private sz h q pkt (some a) = some (h1, q1, 0) ∧
      Queued h1 q1 (l ++ [(a, pkt.deref,
        if pkt = PktArg.flush_pkt then wrap32 (q.serial + 1) else q.serial)]) ∧
      Counted sz q1 (l ++ [(a, pkt.deref,
        if pkt = PktArg.flush_pkt then wrap32 (q.serial + 1) else q.serial)]) ∧
      q1.serial = (if pkt = PktArg.flush_pkt then wrap32 (q.serial + 1) else q.serial) ∧
      q1.abort_request = 0 ∧
      (∀ b, b ≠ a → b ∉ addrs l → h1 b = h b) := by
  obtain ⟨hlink, hnd, hlast⟩ := hq
  obtain ⟨hnb, hsize, hdur⟩ := hc
  have hanot : a ∉ addrs l := Linked_not_mem_of_free hlink ha
  have hcount : ∀ q1 : PacketQueue,
      q1.nb_packets = wrap32 (q.nb_packets + 1) →
      q1.size = size_add sz q.size pkt.deref.size →
      q1.duration = wrap64 (q.duration + pkt.deref.duration) →
      Counted sz q1 (l ++ [(a, pkt.deref,
        if pkt = PktArg.flush_pkt then wrap32 (q.serial + 1) else q.serial)]) := by
    intro q1 h1 h2 h3
    refine ⟨?_, ?_, ?_⟩
    · rw [h1, hnb, wrap32_wrap32_add]; simp
    · rw [h2, hsize, size_add_wrap32, total_size_append]
    · rw [h3, hdur, wrap64_wrap64_add, total_duration_append]
  cases l with
  | nil =>
    have hfirst : q.first_pkt = none := (Linked_nil h _).1 hlink
    have hlast0 : q.last_pkt = none := by simpa [addrs] using hlast
    simp only [packet_queue_put_private, hab, hlast0, ne_eq, not_true_eq_false, if_false]
    refine ⟨_, _, rfl, ⟨?_, ?_, ?_⟩, hcount _ rfl rfl rfl, rfl, rfl, ?_⟩
    · exact (Linked_cons _ _ a _ _ []).2
        ⟨rfl, _, Heap.store_same _ _ _, rfl, rfl, (Linked_nil _ _).2 rfl⟩
    · simp [addrs]
    · simp [addrs]
    · intro b hba _
      simp [Heap.store, hba]
  | cons x rest =>
    obtain ⟨b, hb⟩ : ∃ b, (addrs (x :: rest)).getLast? = some b := by
      cases hx : (addrs (x :: rest)).getLast? with
      | none => simp [addrs] at hx
      | some b => exact ⟨b, rfl⟩
    have hbmem : b ∈ addrs (x :: rest) := List.mem_of_getLast?_eq_some hb
    obtain ⟨ln, hln⟩ := Linked_live hlink b hbmem
    have hba : b ≠ a := fun e => hanot (by rw [← e]; exact hbmem)
    have hlastb : q.last_pkt = some b := by rw [hlast, hb]
    have hstore : ∀ node : MyAVPacketList, (h.store a node) b = some ln := by
      intro node
      simp [Heap.store, hba, hln]
    simp only [packet_queue_put_private, hab, hlastb, hstore, ne_eq, not_true_eq_false,
      if_false]
    refine ⟨_, _, rfl, ⟨?_, ?_, ?_⟩, hcount _ rfl rfl rfl, rfl, rfl, ?_⟩
    · exact Linked_append a b _ ln rfl hln hlink hnd hb hanot
    · rw [addrs_append]
      refine List.Nodup.append hnd (by simp [addrs]) ?_
      simpa [addrs] using hanot
    · have hl : (addrs (x :: rest) ++ [a]).getLast? = some a := by simp
      rw [addrs_append]
      exact hl.symm
    · intro c hca hcnot
      have hcb : c ≠ b := fun e => hcnot (by rw [e]; exact hbmem)
      simp [Heap.store, hca, hcb]

/-- A get on a listed, non-aborted, non-empty queue returns 1 with the packet
and serial of the first node, releases that node and leaves the rest. -/
theorem get_spec (sz : Nat) {h : Heap} {q : PacketQueue} {a : Nat} {pk : AVPacket} {s : Int}
    {rest : List (Nat × AVPacket × Int)} (hq : Queued h q ((a, pk, s) :: rest))
    (hc : Counted sz q ((a, pk, s) :: rest)) (hab : q.abort_request = 0)
    (pkt0 : AVPacket) (block : Int) (serial0 : Option Int) :
    ∃ out, packet_queue_get sz h q pkt0 block serial0 = Res.ok out ∧
      out.ret = 1 ∧ out.pkt = pk ∧ out.serial = serial0.map (fun _ => s) ∧
      out.heap = h.free a ∧ Queued out.heap out.q rest ∧ Counted sz out.q rest ∧
      out.q.serial = q.serial ∧ out.q.abort_request = 0 := by
  obtain ⟨hlink, hnd, hlast⟩ := hq
  obtain ⟨hnb, hsize, hdur⟩ := hc
  obtain ⟨hp, n, hn, hpk, hs, hrest⟩ := (Linked_cons h _ a pk s rest).1 hlink
  rw [addrs_cons] at hnd hlast
  have hanot : a ∉ addrs rest := (List.nodup_cons.1 hnd).1
  simp only [packet_queue_get, hab, hp, hn, ne_eq, not_true_eq_false, if_false]
  refine ⟨_, rfl, rfl, hpk, ?_, rfl, ⟨?_, ?_, ?_⟩, ⟨?_, ?_, ?_⟩, rfl, rfl⟩
  · simp [hs]
  · exact Linked_free a hrest hanot
  · exact (List.nodup_cons.1 hnd).2
  · cases rest with
    | nil =>
      have hnone : n.next = none := (Linked_nil h _).1 hrest
      simp [hnone, addrs]
    | cons y rest2 =>
      obtain ⟨b, pk2, s2⟩ := y
      obtain ⟨hp2, _⟩ := (Linked_cons h _ b pk2 s2 rest2).1 hrest
      simp [hp2, hlast, addrs, List.getLast?_cons_cons]
  · show wrap32 (q.nb_packets - 1) = _
    rw [hnb, wrap32_wrap32_sub]
    congr 1
    simp
  · show size_sub sz q.size n.pkt.size = _
    rw [hsize, size_sub_wrap32, hpk]
    congr 1
    simp [total_size]
  · show wrap64 (q.duration - n.pkt.duration) = _
    rw [hdur, wrap64_wrap64_sub, hpk]
    congr 1
    simp [total_duration]

/-- The flush loop releases exactly the nodes of the chain, given fuel for
each of them. -/
theorem flush_loop_spec : ∀ {l : List (Nat × AVPacket × Int)} {h : Heap} {p : Option Nat},
    Linked h p l → (addrs l).Nodup → ∀ fuel, l.length ≤ fuel →
    ∃ h1, flush_loop fuel h p = some h1 ∧ (∀ b, b ∉ addrs l → h1 b = h b) ∧
      (∀ b, b ∈ addrs l → h1 b = none) := by
  intro l
  induction l with
  | nil =>
    intro h p hl _ fuel _
    have hp : p = none := (Linked_nil h p).1 hl
    subst hp
    refine ⟨h, ?_, fun _ _ => rfl, ?_⟩
    · cases fuel <;> rfl
    · intro b hb
      simp [addrs] at hb
  | cons x rest ih =>
    obtain ⟨a, pk, s⟩ := x
    intro h p hl hnd fuel hfuel
    obtain ⟨hp, n, hn, _, _, hrest⟩ := (Linked_cons h p a pk s rest).1 hl
    rw [addrs_cons] at hnd
    have hanot : a ∉ addrs rest := (List.nodup_cons.1 hnd).1
    cases fuel with
    | zero => simp at hfuel
    | succ f =>
      have hf : rest.length ≤ f := by simpa using hfuel
      obtain ⟨h1, hrun, hout, hin⟩ :=
        ih (Linked_free a hrest hanot) (List.nodup_cons.1 hnd).2 f hf
      refine ⟨h1, ?_, ?_, ?_⟩
      · subst hp
        simp only [flush_loop, hn]
        exact hrun
      · intro b hb
        rw [addrs_cons] at hb
        have hba : b ≠ a := fun e => hb (by rw [e]; exact List.mem_cons_self _ _)
        have hbrest : b ∉ addrs rest := fun e => hb (List.mem_cons_of_mem _ e)
        rw [hout b hbrest, Heap.free_other h hba]
      · intro b hb
        rw [addrs_cons] at hb
        rcases List.mem_cons.1 hb with hba | hmem
        · subst hba
          rw [hout b hanot, Heap.free_same]
        · exact hin b hmem

/-- A flush on a listed queue, given fuel for every node, empties it and
resets the counters; `serial` and `abort_request` stay. -/
theorem flush_spec (sz : Nat) {h : Heap} {q : PacketQueue} {l : List (Nat × AVPacket × Int)}
    (hq : Queued h q l) (fuel : Nat) (hfuel : l.length ≤ fuel) :
    ∃ h1 q1, packet_queue_flush fuel h q = some (h1, q1) ∧
      Queued h1 q1 [] ∧ Counted sz q1 [] ∧ q1.serial = q.serial ∧
      q1.abort_request = q.abort_request ∧
      (∀ b, b ∉ addrs l → h1 b = h b) ∧ (∀ b, b ∈ addrs l → h1 b = none) := by
  obtain ⟨hlink, hnd, _⟩ := hq
  obtain ⟨h1, hrun, hout, hin⟩ := flush_loop_spec hlink hnd fuel hfuel
  simp only [packet_queue_flush, hrun]
  refine ⟨_, _, rfl, ⟨?_, ?_, ?_⟩, ⟨rfl, rfl, rfl⟩, rfl, rfl, hout, hin⟩
  · exact (Linked_nil _ _).2 rfl
  · simp [addrs]
  · simp [addrs]

/-! ## Sequences of puts and gets -/

theorem addrs_put_nodes : ∀ (ps : List (PktArg × Nat)) (s : Int),
    addrs (put_nodes s ps) = ps.map (fun x => x.2) := by
  intro ps
  induction ps with
  | nil => intro s; rfl
  | cons x rest ih =>
    obtain ⟨pkt, a⟩ := x
    intro s
    simp only [put_nodes, addrs_cons, List.map_cons, ih]

theorem length_put_nodes : ∀ (ps : List (PktArg × Nat)) (s : Int),
    (put_nodes s ps).length = ps.length := by
  intro ps
  induction ps with
  | nil => intro s; rfl
  | cons x rest ih =>
    obtain ⟨pkt, a⟩ := x
    intro s
    simp only [put_nodes, List.length_cons, ih]

/-- Putting a list of packets, every allocation returning a fresh address, on
a listed non-aborted queue: every put returns 0 and the nodes are appended in
order. -/
theorem put_all_spec (sz : Nat) : ∀ (ps : List (PktArg × Nat)) {h : Heap} {q : PacketQueue}
    {l : List (Nat × AVPacket × Int)}, Queued h q l → Counted sz q l →
    q.abort_request = 0 → (∀ a, a ∈ ps.map (fun x => x.2) → h a = none) →
    (ps.map (fun x => x.2)).Nodup →
    ∃ h1 q1, put_all sz h q (ps.map (fun x => (x.1, some x.2))) =
        some (h1, q1, List.replicate ps.length 0) ∧
      Queued h1 q1 (l ++ put_nodes q.serial ps) ∧
      Counted sz q1 (l ++ put_nodes q.serial ps) ∧ q1.abort_request = 0 ∧
      (∀ b, b ∉ addrs l → b ∉ ps.map (fun x => x.2) → h1 b = h b) := by
  intro ps
  induction ps with
  | nil =>
    intro h q l hq hc hab _ _
    refine ⟨h, q, rfl, ?_, ?_, hab, fun _ _ _ => rfl⟩
    · simpa [put_nodes] using hq
    · simpa [put_nodes] using hc
  | cons x rest ih =>
    obtain ⟨pkt, a⟩ := x
    intro h q l hq hc hab hfresh hnd
    have ha : h a = none := hfresh a (by simp)
    obtain ⟨h1, q1, hput, hq1, hc1, hser1, hab1, hframe1⟩ :=
      put_private_spec sz hq hc hab pkt ha
    have hnd2 : a ∉ rest.map (fun x => x.2) ∧ (rest.map (fun x => x.2)).Nodup := by
      simpa using hnd
    have hfresh1 : ∀ b, b ∈ rest.map (fun x => x.2) → h1 b = none := by
      intro b hb
      have hbfree : h b = none := hfresh b (by simp only [List.map_cons]; exact List.mem_cons_of_mem _ hb)
      have hba : b ≠ a := fun e => hnd2.1 (by rw [← e]; exact hb)
      rw [hframe1 b hba (Linked_not_mem_of_free hq.1 hbfree)]
      exact hbfree
    obtain ⟨h2, q2, hputs, hq2, hc2, hab2, hframe2⟩ := ih hq1 hc1 hab1 hfresh1 hnd2.2
    refine ⟨h2, q2, ?_, ?_, ?_, hab2, ?_⟩
    · simp only [List.map_cons, put_all, packet_queue_put, hput, hputs, List.length_cons,
        List.replicate_succ]
    · rw [hser1] at hq2
      simpa [put_nodes] using hq2
    · rw [hser1] at hc2
      simpa [put_nodes] using hc2
    · intro b hbl hbps
      have hba : b ≠ a := fun e => hbps (by simp [e])
      have hbrest : b ∉ rest.map (fun x => x.2) := fun e => hbps (by
        simp only [List.map_cons]; exact List.mem_cons_of_mem _ e)
      have hb1 : b ∉ addrs (l ++ [(a, pkt.deref,
          if pkt = PktArg.flush_pkt then wrap32 (q.serial + 1) else q.serial)]) := by
        rw [addrs_append]
        simp only [addrs, List.map_cons, List.map_nil, List.mem_append, List.mem_singleton]
        rintro (e | e)
        · exact hbl e
        · exact hba e
      rw [hframe2 b hb1 hbrest, hframe1 b hba hbl]

/-- As many gets as a listed non-aborted queue has nodes: each returns 1 with
the packet and serial of the next node, in order, and the queue ends empty. -/
theorem get_all_spec (sz : Nat) (block : Int) : ∀ (l : List (Nat × AVPacket × Int)) {h : Heap}
    {q : PacketQueue}, Queued h q l → Counted sz q l → q.abort_request = 0 →
    ∀ (pkt0 : AVPacket) (serial0 : Int),
    ∃ h2 q2, get_all sz block l.length h q pkt0 serial0 =
        some (h2, q2, l.map (fun x => (1, x.2.1, x.2.2))) ∧
      Queued h2 q2 [] ∧ Counted sz q2 [] ∧ q2.serial = q.serial ∧ q2.abort_request = 0 ∧
      (∀ b, b ∉ addrs l → h2 b = h b) ∧ (∀ b, b ∈ addrs l → h2 b = none) := by
  intro l
  induction l with
  | nil =>
    intro h q hq hc hab pkt0 serial0
    refine ⟨h, q, rfl, hq, hc, rfl, hab, fun _ _ => rfl, ?_⟩
    intro b hb
    simp [addrs] at hb
  | cons x rest ih =>
    obtain ⟨a, pk, s⟩ := x
    intro h q hq hc hab pkt0 serial0
    obtain ⟨out, hget, hret, hpkt, hserial, hheap, hq1, hc1, hser1, hab1⟩ :=
      get_spec sz hq hc hab pkt0 block (some serial0)
    obtain ⟨h2, q2, hgets, hq2, hc2, hser2, hab2, hout, hin⟩ :=
      ih hq1 hc1 hab1 out.pkt (out.serial.getD serial0)
    have hanot : a ∉ addrs rest := by
      have := hq.2.1
      rw [addrs_cons] at this
      exact (List.nodup_cons.1 this).1
    have hgets2 : get_all sz block rest.length out.heap out.q pk s =
        some (h2, q2, List.map (fun x => (1, x.2.1, x.2.2)) rest) := by
      rw [hpkt, hserial] at hgets
      simpa using hgets
    refine ⟨h2, q2, ?_, hq2, hc2, by rw [hser2, hser1], hab2, ?_, ?_⟩
    · simp only [List.length_cons, get_all, hget, List.map_cons, hret, hpkt, hserial,
        Option.map_some', Option.getD_some, hgets2]
    · intro b hb
      rw [addrs_cons] at hb
      have hba : b ≠ a := fun e => hb (by rw [e]; exact List.mem_cons_self _ _)
      have hbrest : b ∉ addrs rest := fun e => hb (List.mem_cons_of_mem _ e)
      rw [hout b hbrest, hheap, Heap.free_other h hba]
    · intro b hb
      rw [addrs_cons] at hb
      rcases List.mem_cons.1 hb with hba | hmem
      · subst hba
        rw [hout b hanot, hheap, Heap.free_same]
      · exact hin b hmem

theorem wrap32_zero : wrap32 0 = 0 := by decide

theorem wrap64_zero : wrap64 0 = 0 := by decide

/-- An empty queue with zero counters is a listed queue with no node. -/
theorem Queued_nil_of_empty (sz : Nat) (h : Heap) {q : PacketQueue}
    (hfirst : q.first_pkt = none) (hlast : q.last_pkt = none) (hnb : q.nb_packets = 0)
    (hsize : q.size = 0) (hdur : q.duration = 0) : Queued h q [] ∧ Counted sz q [] := by
  refine ⟨⟨(Linked_nil _ _).2 hfirst, by simp [addrs], by simpa [addrs] using hlast⟩, ?_, ?_, ?_⟩
  · simp [hnb, wrap32_zero]
  · simp [hsize, total_size, wrap32_zero]
  · simp [hdur, total_duration, wrap64_zero]

/-- A listed queue with no node has null pointers and zero counters. -/
theorem empty_of_Queued_nil (sz : Nat) {h : Heap} {q : PacketQueue}
    (hq : Queued h q []) (hc : Counted sz q []) :
    q.first_pkt = none ∧ q.last_pkt = none ∧ q.nb_packets = 0 ∧ q.size = 0 ∧
      q.duration = 0 := by
  obtain ⟨hlink, _, hlast⟩ := hq
  obtain ⟨hnb, hsize, hdur⟩ := hc
  refine ⟨(Linked_nil _ _).1 hlink, by simpa [addrs] using hlast, ?_, ?_, ?_⟩
  · simpa [wrap32_zero] using hnb
  · simpa [total_size, wrap32_zero] using hsize
  · simpa [total_duration, wrap64_zero] using hdur

/-! ## C1: FIFO order and accounting -/

/-- C1: on a non-aborted empty packet queue with `nb_packets = size = duration
= 0`, for every list of packets (each allocation returning an address that
holds no live node): `packet_queue_put` of the packets in order returns 0 each
time, and as many `packet_queue_get` calls (blocking or not) each return 1 and
yield the packets in insertion order; afterwards `nb_packets`, `size` and
`duration` are exactly 0, `first_pkt = last_pkt = nullptr`, and every node has
been released. -/
theorem C1_put_get_fifo (sz : Nat) (h : Heap) (q : PacketQueue) (ps : List (PktArg × Nat))
    (hab : q.abort_request = 0) (hfirst : q.first_pkt = none) (hlast : q.last_pkt = none)
    (hnb : q.nb_packets = 0) (hsize : q.size = 0) (hdur : q.duration = 0)
    (hfresh : ∀ a, a ∈ ps.map (fun x => x.2) → h a = none)
    (hnd : (ps.map (fun x => x.2)).Nodup)
    (block : Int) (pkt0 : AVPacket) (serial0 : Int) :
    ∃ h1 q1 h2 q2 outs,
      put_all sz h q (ps.map (fun x => (x.1, some x.2))) =
        some (h1, q1, List.replicate ps.length 0) ∧
      get_all sz block ps.length h1 q1 pkt0 serial0 = some (h2, q2, outs) ∧
      outs.map (fun o => o.1) = List.replicate ps.length 1 ∧
      outs.map (fun o => o.2.1) = ps.map (fun x => x.1.deref) ∧
      q2.nb_packets = 0 ∧ q2.size = 0 ∧ q2.duration = 0 ∧
      q2.first_pkt = none ∧ q2.last_pkt = none ∧ (∀ b, h2 b = h b) := by
  obtain ⟨hq0, hc0⟩ := Queued_nil_of_empty sz h hfirst hlast hnb hsize hdur
  obtain ⟨h1, q1, hputs, hq1, hc1, hab1, hframe1⟩ := put_all_spec sz ps hq0 hc0 hab hfresh hnd
  rw [List.nil_append] at hq1 hc1
  obtain ⟨h2, q2, hgets, hq2, hc2, _, _, hout, hin⟩ :=
    get_all_spec sz block (put_nodes q.serial ps) hq1 hc1 hab1 pkt0 serial0
  rw [length_put_nodes] at hgets
  rw [addrs_put_nodes] at hout hin
  obtain ⟨e1, e2, e3, e4, e5⟩ := empty_of_Queued_nil sz hq2 hc2
  refine ⟨h1, q1, h2, q2, _, hputs, hgets, ?_, ?_, e3, e4, e5, e1, e2, ?_⟩
  · rw [List.map_map]
    have : ∀ (l : List (Nat × AVPacket × Int)),
        l.map ((fun o : Int × AVPacket × Int => o.1) ∘ fun x => (1, x.2.1, x.2.2)) =
          List.replicate l.length 1 := by
      intro l
      induction l with
      | nil => rfl
      | cons x rest ih => simp [List.replicate_succ, ih]
    rw [this, length_put_nodes]
  · rw [List.map_map]
    have : ∀ (ps : List (PktArg × Nat)) (s : Int),
        (put_nodes s ps).map ((fun o : Int × AVPacket × Int => o.2.1) ∘
          fun x => (1, x.2.1, x.2.2)) = ps.map (fun x => x.1.deref) := by
      intro ps
      induction ps with
      | nil => intro s; rfl
      | cons x rest ih =>
        obtain ⟨pkt, a⟩ := x
        intro s
        simp [put_nodes, ih]
    exact this ps q.serial
  · intro b
    by_cases hb : b ∈ ps.map (fun x => x.2)
    · rw [hin b hb, hfresh b hb]
    · rw [hout b hb]
      exact hframe1 b (by simp [addrs]) hb

/-- C1 at a concrete input: three packets, the second being the flush
sentinel, put on an empty queue over the empty heap. -/
theorem C1_put_get_fifo_witness :
    ∃ h1 q1 h2 q2 outs,
      put_all 104 Heap.empty
          { first_pkt := none, last_pkt := none, nb_packets := 0, size := 0, duration := 0,
            abort_request := 0, serial := 1 }
          [(PktArg.packet ⟨DataPtr.buffer 7, 100, 40, 0⟩, some 1),
           (PktArg.flush_pkt, some 2),
           (PktArg.packet ⟨DataPtr.buffer 9, 300, 20, 1⟩, some 3)] =
        some (h1, q1, [0, 0, 0]) ∧
      get_all 104 1 3 h1 q1 ⟨DataPtr.nullptr, 0, 0, 0⟩ (-1) = some (h2, q2, outs) ∧
      outs.map (fun o => o.1) = [1, 1, 1] ∧
      outs.map (fun o => o.2.1) =
        [⟨DataPtr.buffer 7, 100, 40, 0⟩, flush_pkt, ⟨DataPtr.buffer 9, 300, 20, 1⟩] ∧
      q2.nb_packets = 0 ∧ q2.size = 0 ∧ q2.duration = 0 ∧
      q2.first_pkt = none ∧ q2.last_pkt = none ∧ (∀ b, h2 b = Heap.empty b) :=
  C1_put_get_fifo 104 Heap.empty
    { first_pkt := none, last_pkt := none, nb_packets := 0, size := 0, duration := 0,
      abort_request := 0, serial := 1 }
    [(PktArg.packet ⟨DataPtr.buffer 7, 100, 40, 0⟩, 1), (PktArg.flush_pkt, 2),
     (PktArg.packet ⟨DataPtr.buffer 9, 300, 20, 1⟩, 3)]
    rfl rfl rfl rfl rfl rfl (fun _ _ => rfl) (by decide) 1 ⟨DataPtr.nullptr, 0, 0, 0⟩ (-1)

/-! ## C2, C3: the serial -/

/-- A put on a non-aborted queue whose `last_pkt` is null or a live node, the
allocation succeeding, returns 0 and sets the serial as the source does. -/
theorem put_private_defined (sz : Nat) (h : Heap) (q : PacketQueue) (pkt : PktArg) (a : Nat)
    (hlive : ∀ b, q.last_pkt = some b → ∃ n, h b = some n) (hab : q.abort_request = 0) :
    ∃ h1 q1, packet_queue_put_private sz h q pkt (some a) = some (h1, q1, 0) ∧
      q1.serial = (if pkt = PktArg.flush_pkt then wrap32 (q.serial + 1) else q.serial) ∧
      q1.abort_request = 0 := by
  cases hl : q.last_pkt with
  | none =>
    simp only [packet_queue_put_private, hab, hl, ne_eq, not_true_eq_false, if_false]
    exact ⟨_, _, rfl, rfl, rfl⟩
  | some b =>
    obtain ⟨n, hn⟩ := hlive b hl
    by_cases hba : b = a
    · subst hba
      simp only [packet_queue_put_private, hab, hl, ne_eq, not_true_eq_false, if_false,
        Heap.store_same]
      exact ⟨_, _, rfl, rfl, rfl⟩
    · simp only [packet_queue_put_private, hab, hl, ne_eq, not_true_eq_false, if_false,
        Heap.store_other h _ hba, hn]
      exact ⟨_, _, rfl, rfl, rfl⟩

theorem wrap32_succ_gt (s : Int) (hs : s < INT_MAX) : s < wrap32 (s + 1) := by
  unfold INT_MAX at hs
  unfold wrap32
  omega

/-- C2 fails as stated.  On a freshly initialised (aborted) queue the put of the
flush sentinel returns -1 and leaves `serial` at 0; and at `serial = INT_MAX`
the increment wraps to `INT_MIN`. -/
theorem C2_counterexample :
    (∃ h1 q1, packet_queue_put 104 Heap.empty packet_queue_init PktArg.flush_pkt (some 1) =
        some (h1, q1, -1) ∧ q1.serial = 0 ∧ ¬ (packet_queue_init.serial < q1.serial)) ∧
    (∃ h1 q1, packet_queue_put 104 Heap.empty
        { first_pkt := none, last_pkt := none, nb_packets := 0, size := 0, duration := 0,
          abort_request := 0, serial := 2147483647 } PktArg.flush_pkt (some 1) =
        some (h1, q1, 0) ∧ q1.serial = -2147483648 ∧ ¬ ((2147483647 : Int) < q1.serial)) := by
  refine ⟨⟨Heap.empty, packet_queue_init, rfl, rfl, by decide⟩, ⟨_, _, rfl, ?_, ?_⟩⟩
  · decide
  · decide

/-- C2 (amended): when the node allocation succeeds (and `last_pkt` is null or a
live node), `packet_queue_put` of the flush sentinel on a queue whose
`abort_request` is clear, and `packet_queue_start` on any queue, set `serial`
to the `int` value of `serial + 1`; the new serial is strictly greater than
the old one whenever the old one is below `INT_MAX`.  On a queue whose
`abort_request` is set the put of the sentinel returns -1 and changes
nothing. -/
theorem C2_serial_increases (sz : Nat) (h : Heap) (q : PacketQueue) (a : Nat)
    (hlive : ∀ b, q.last_pkt = some b → ∃ n, h b = some n) :
    (q.abort_request = 0 →
      ∃ h1 q1, packet_queue_put sz h q PktArg.flush_pkt (some a) = some (h1, q1, 0) ∧
        q1.serial = wrap32 (q.serial + 1) ∧ (q.serial < INT_MAX → q.serial < q1.serial)) ∧
    (∃ h1 q1, packet_queue_start sz h q (some a) = some (h1, q1) ∧
        q1.serial = wrap32 (q.serial + 1) ∧ (q.serial < INT_MAX → q.serial < q1.serial)) ∧
    (q.abort_request ≠ 0 →
      packet_queue_put sz h q PktArg.flush_pkt (some a) = some (h, q, -1)) := by
  refine ⟨?_, ?_, ?_⟩
  · intro hab
    obtain ⟨h1, q1, hput, hser, _⟩ := put_private_defined sz h q PktArg.flush_pkt a hlive hab
    rw [if_pos rfl] at hser
    exact ⟨h1, q1, hput, hser, fun hs => by rw [hser]; exact wrap32_succ_gt _ hs⟩
  · obtain ⟨h1, q1, hput, hser, _⟩ :=
      put_private_defined sz h { q with abort_request := 0 } PktArg.flush_pkt a hlive rfl
    rw [if_pos rfl] at hser
    refine ⟨h1, q1, ?_, hser, fun hs => by rw [hser]; exact wrap32_succ_gt _ hs⟩
    simp only [packet_queue_start, hput]
  · intro hab
    simp [packet_queue_put, packet_queue_put_private, hab]

/-- C2 (amended) at a concrete input: an empty non-aborted queue with serial
5 over the empty heap. -/
theorem C2_serial_increases_witness :
    ((5 : Int) < INT_MAX) ∧
    ((0 : Int) = 0 →
      ∃ h1 q1, packet_queue_put 104 Heap.empty
          { first_pkt := none, last_pkt := none, nb_packets := 0, size := 0, duration := 0,
            abort_request := 0, serial := 5 } PktArg.flush_pkt (some 1) = some (h1, q1, 0) ∧
        q1.serial = wrap32 (5 + 1) ∧ ((5 : Int) < INT_MAX → 5 < q1.serial)) ∧
    (∃ h1 q1, packet_queue_start 104 Heap.empty
          { first_pkt := none, last_pkt := none, nb_packets := 0, size := 0, duration := 0,
            abort_request := 0, serial := 5 } (some 1) = some (h1, q1) ∧
        q1.serial = wrap32 (5 + 1) ∧ ((5 : Int) < INT_MAX → 5 < q1.serial)) ∧
    ((0 : Int) ≠ 0 →
      packet_queue_put 104 Heap.empty
          { first_pkt := none, last_pkt := none, nb_packets := 0, size := 0, duration := 0,
            abort_request := 0, serial := 5 } PktArg.flush_pkt (some 1) =
        some (Heap.empty,
          { first_pkt := none, last_pkt := none, nb_packets := 0, size := 0, duration := 0,
            abort_request := 0, serial := 5 }, -1)) :=
  ⟨by decide,
   C2_serial_increases 104 Heap.empty
    { first_pkt := none, last_pkt := none, nb_packets := 0, size := 0, duration := 0,
      abort_request := 0, serial := 5 } 1 (fun _ hb => Option.noConfusion hb)⟩

theorem put_nodes_packets : ∀ (ps : List (AVPacket × Nat)) (s : Int),
    put_nodes s (ps.map (fun x => (PktArg.packet x.1, x.2))) = ps.map (fun x => (x.2, x.1, s)) := by
  intro ps
  induction ps with
  | nil => intro s; rfl
  | cons x rest ih =>
    intro s
    simp [put_nodes, PktArg.deref, ih]

/-- A put of a packet other than `&flush_pkt` never changes the serial. -/
theorem put_packet_serial (sz : Nat) (h : Heap) (q : PacketQueue) (p : AVPacket)
    (m : Option Nat) (r : Heap × PacketQueue × Int)
    (hr : packet_queue_put sz h q (PktArg.packet p) m = some r) : r.2.1.serial = q.serial := by
  unfold packet_queue_put packet_queue_put_private at hr
  by_cases hab : q.abort_request = 0
  · cases m with
    | none =>
      simp [hab] at hr
      rw [← hr]
    | some a =>
      cases hl : q.last_pkt with
      | none =>
        simp [hab, hl] at hr
        rw [← hr]
      | some b =>
        cases hb : (h.store a { pkt := p, next := none, serial := q.serial }) b with
        | none => simp [hab, hl, PktArg.deref, hb] at hr
        | some n =>
          simp [hab, hl, PktArg.deref, hb] at hr
          rw [← hr]
  · simp [hab] at hr
    rw [← hr]

/-- C3: on a listed non-aborted queue whose serial is `s`, the put of the flush
sentinel makes the serial the `int` value of `s + 1` (exactly `s + 1` for
every `s` below `INT_MAX`; 0 becomes 1) and tags the sentinel's node with the
new serial; the ordinary packets put after it leave the serial unchanged, and
`packet_queue_get` returns the sentinel and each of them, in order, together
with the new serial.  (Allocations return addresses that hold no live node.) -/
theorem C3_flush_sentinel_serial (sz : Nat) (h : Heap) (q : PacketQueue)
    (l : List (Nat × AVPacket × Int)) (hq : Queued h q l) (hc : Counted sz q l)
    (hab : q.abort_request = 0) (a : Nat) (ps : List (AVPacket × Nat))
    (hfresh : ∀ b, b ∈ a :: ps.map (fun x => x.2) → h b = none)
    (hnd : (a :: ps.map (fun x => x.2)).Nodup)
    (block : Int) (pkt0 : AVPacket) (serial0 : Int) :
    ∃ h1 q1 h2 q2 h3 q3,
      packet_queue_put sz h q PktArg.flush_pkt (some a) = some (h1, q1, 0) ∧
      q1.serial = wrap32 (q.serial + 1) ∧
      (-2147483648 ≤ q.serial → q.serial < INT_MAX → q1.serial = q.serial + 1) ∧
      (q.serial = 0 → q1.serial = 1) ∧
      Queued h1 q1 (l ++ [(a, flush_pkt, q1.serial)]) ∧
      put_all sz h1 q1 (ps.map (fun x => (PktArg.packet x.1, some x.2))) =
        some (h2, q2, List.replicate ps.length 0) ∧
      q2.serial = q1.serial ∧
      (∀ h4 q4 p m r, packet_queue_put sz h4 q4 (PktArg.packet p) m = some r →
        r.2.1.serial = q4.serial) ∧
      get_all sz block (l.length + 1 + ps.length) h2 q2 pkt0 serial0 =
        some (h3, q3, l.map (fun x => (1, x.2.1, x.2.2)) ++
          (1, flush_pkt, q1.serial) :: ps.map (fun x => (1, x.1, q1.serial))) := by
  have ha : h a = none := hfresh a (List.mem_cons_self _ _)
  obtain ⟨h1, q1, hput, hq1, hc1, hser1, hab1, hframe1⟩ :=
    put_private_spec sz hq hc hab PktArg.flush_pkt ha
  rw [if_pos rfl] at hser1 hq1 hc1
  have hnd2 := List.nodup_cons.1 hnd
  have hfresh1 : ∀ b, b ∈ (ps.map (fun x => (PktArg.packet x.1, x.2))).map (fun x => x.2) →
      h1 b = none := by
    intro b hb
    rw [List.map_map] at hb
    have hb2 : b ∈ ps.map (fun x => x.2) := hb
    have hbfree : h b = none := hfresh b (List.mem_cons_of_mem _ hb2)
    have hba : b ≠ a := fun e => hnd2.1 (by rw [← e]; exact hb2)
    rw [hframe1 b hba (Linked_not_mem_of_free hq.1 hbfree)]
    exact hbfree
  have hnd1 : ((ps.map (fun x => (PktArg.packet x.1, x.2))).map (fun x => x.2)).Nodup := by
    rw [List.map_map]
    exact hnd2.2
  obtain ⟨h2, q2, hputs, hq2, hc2, hab2, _⟩ :=
    put_all_spec sz (ps.map (fun x => (PktArg.packet x.1, x.2))) hq1 hc1 hab1 hfresh1 hnd1
  rw [List.map_map, List.length_map] at hputs
  rw [put_nodes_packets, hser1] at hq2 hc2
  obtain ⟨h3, q3, hgets, _⟩ := get_all_spec sz block _ hq2 hc2 hab2 pkt0 serial0
  have hser2 : q2.serial = q1.serial := by
    have key : ∀ (ps : List (AVPacket × Nat)) (h1 : Heap) (q1 : PacketQueue) (h2 : Heap)
        (q2 : PacketQueue) (rets : List Int),
        put_all sz h1 q1 (ps.map (fun x => (PktArg.packet x.1, some x.2))) = some (h2, q2, rets) →
        q2.serial = q1.serial := by
      intro ps
      induction ps with
      | nil =>
        intro h1 q1 h2 q2 rets hr
        simp [put_all] at hr
        rw [← hr.2.1]
      | cons x rest ih =>
        intro h1 q1 h2 q2 rets hr
        simp only [List.map_cons, put_all] at hr
        cases hp : packet_queue_put sz h1 q1 (PktArg.packet x.1) (some x.2) with
        | none => simp [hp] at hr
        | some r =>
          obtain ⟨hh, qq, ret⟩ := r
          have hs := put_packet_serial sz h1 q1 x.1 (some x.2) _ hp
          simp only [hp] at hr
          cases hrest : put_all sz hh qq
              (rest.map (fun x => (PktArg.packet x.1, some x.2))) with
          | none => simp [hrest] at hr
          | some r2 =>
            obtain ⟨hh2, qq2, rets2⟩ := r2
            simp only [hrest, Option.some.injEq, Prod.mk.injEq] at hr
            have := ih hh qq hh2 qq2 rets2 hrest
            rw [← hr.2.1, this]
            exact hs
    exact key ps h1 q1 h2 q2 _ hputs
  refine ⟨h1, q1, h2, q2, h3, q3, hput, hser1, ?_, ?_, ?_, hputs, hser2,
    fun h4 q4 p m r hr => put_packet_serial sz h4 q4 p m r hr, ?_⟩
  · intro hlo hhi
    rw [hser1]
    unfold INT_MAX at hhi
    exact wrap32_of_range _ (by omega) (by omega)
  · intro h0
    rw [hser1, h0]
    decide
  · rw [hser1]
    exact hq1
  · rw [hser1]
    have hlen : l.length + 1 + ps.length =
        (l ++ (a, PktArg.flush_pkt.deref, wrap32 (q.serial + 1)) ::
          List.map (fun x => (x.2, x.1, wrap32 (q.serial + 1))) ps).length := by
      simp
      omega
    rw [hlen]
    simpa [PktArg.deref, Function.comp_def, List.append_assoc] using hgets

/-- C3 at a concrete input: the sentinel and then one ordinary packet are put on
an empty queue with serial 0; both come back with serial 1. -/
theorem C3_flush_sentinel_serial_witness :
    ∃ h1 q1 h2 q2 h3 q3,
      packet_queue_put 104 Heap.empty
          { first_pkt := none, last_pkt := none, nb_packets := 0, size := 0, duration := 0,
            abort_request := 0, serial := 0 } PktArg.flush_pkt (some 1) = some (h1, q1, 0) ∧
      q1.serial = wrap32 (0 + 1) ∧
      (-2147483648 ≤ (0 : Int) → (0 : Int) < INT_MAX → q1.serial = 0 + 1) ∧
      ((0 : Int) = 0 → q1.serial = 1) ∧
      Queued h1 q1 ([] ++ [(1, flush_pkt, q1.serial)]) ∧
      put_all 104 h1 q1 [(PktArg.packet ⟨DataPtr.buffer 7, 100, 40, 0⟩, some 2)] =
        some (h2, q2, [0]) ∧
      q2.serial = q1.serial ∧
      (∀ h4 q4 p m r, packet_queue_put 104 h4 q4 (PktArg.packet p) m = some r →
        r.2.1.serial = q4.serial) ∧
      get_all 104 1 2 h2 q2 ⟨DataPtr.nullptr, 0, 0, 0⟩ (-1) =
        some (h3, q3, [(1, flush_pkt, q1.serial),
          (1, ⟨DataPtr.buffer 7, 100, 40, 0⟩, q1.serial)]) :=
  C3_flush_sentinel_serial 104 Heap.empty
    { first_pkt := none, last_pkt := none, nb_packets := 0, size := 0, duration := 0,
      abort_request := 0, serial := 0 } []
    (Queued_nil_of_empty 104 Heap.empty rfl rfl rfl rfl rfl).1
    (Queued_nil_of_empty 104 Heap.empty rfl rfl rfl rfl rfl).2
    rfl 1 [(⟨DataPtr.buffer 7, 100, 40, 0⟩, 2)] (fun _ _ => rfl) (by decide) 1
    ⟨DataPtr.nullptr, 0, 0, 0⟩ (-1)

/-! ## C4, C5: abort -/

/-- C4: on a queue with `abort_request` set (a freshly initialised queue is
one), `packet_queue_put` of any packet and `packet_queue_get` return -1 and
leave heap and queue (node list, `nb_packets`, `size`, `duration`, `serial`,
`abort_request`) unchanged, whatever is queued; `packet_queue_flush` and
`packet_queue_abort` leave `abort_request` set; `packet_queue_start` clears
it. -/
theorem C4_aborted_queue (sz : Nat) (h : Heap) (q : PacketQueue) (hab : q.abort_request ≠ 0) :
    (∀ pkt m, packet_queue_put sz h q pkt m = some (h, q, -1)) ∧
    (∀ pkt0 block serial0, packet_queue_get sz h q pkt0 block serial0 =
      Res.ok { heap := h, q := q, pkt := pkt0, serial := serial0, ret := -1 }) ∧
    (∀ fuel h1 q1, packet_queue_flush fuel h q = some (h1, q1) →
      q1.abort_request = q.abort_request) ∧
    (∀ l, Queued h q l → ∃ h1 q1, packet_queue_flush l.length h q = some (h1, q1) ∧
      q1.abort_request = q.abort_request) ∧
    (packet_queue_abort q).abort_request ≠ 0 ∧
    packet_queue_init.abort_request ≠ 0 ∧
    (∀ m h1 q1, packet_queue_start sz h q m = some (h1, q1) → q1.abort_request = 0) ∧
    ((∀ b, q.last_pkt = some b → ∃ n, h b = some n) →
      ∀ m, ∃ h1 q1, packet_queue_start sz h q m = some (h1, q1) ∧ q1.abort_request = 0) := by
  have hstart : ∀ m h1 q1, packet_queue_start sz h q m = some (h1, q1) →
      q1.abort_request = 0 := by
    intro m h1 q1 hr
    unfold packet_queue_start packet_queue_put_private at hr
    cases m with
    | none =>
      simp at hr
      rw [← hr.2]
    | some a =>
      cases hl : q.last_pkt with
      | none =>
        simp [hl] at hr
        rw [← hr.2]
      | some b =>
        simp only [hl, ne_eq, not_true_eq_false, if_false] at hr
        split at hr
        · exact Option.noConfusion hr
        · rename_i r hh qq ret heq
          split at heq
          · exact Option.noConfusion heq
          · simp only [Option.some.injEq, Prod.mk.injEq] at heq hr
            rw [← hr.2, ← heq.2.1]
  refine ⟨?_, ?_, ?_, ?_, ?_, ?_, hstart, ?_⟩
  · intro pkt m
    simp [packet_queue_put, packet_queue_put_private, hab]
  · intro pkt0 block serial0
    simp [packet_queue_get, hab]
  · intro fuel h1 q1 hr
    unfold packet_queue_flush at hr
    cases hf : flush_loop fuel h q.first_pkt with
    | none => simp [hf] at hr
    | some h2 =>
      simp [hf] at hr
      rw [← hr.2]
  · intro l hq
    obtain ⟨h1, q1, hr, _, _, _, hab1, _⟩ := flush_spec sz hq l.length (le_refl _)
    exact ⟨h1, q1, hr, hab1⟩
  · simp [packet_queue_abort]
  · simp [packet_queue_init]
  · intro hlive m
    cases m with
    | none =>
      refine ⟨h, { q with abort_request := 0 }, ?_, rfl⟩
      simp [packet_queue_start, packet_queue_put_private]
    | some a =>
      obtain ⟨h1, q1, hput, _, hab1⟩ :=
        put_private_defined sz h { q with abort_request := 0 } PktArg.flush_pkt a hlive rfl
      refine ⟨h1, q1, ?_, hab1⟩
      simp only [packet_queue_start, hput]

/-- C4 at a concrete input: the freshly initialised queue over the empty heap. -/
theorem C4_aborted_queue_witness :
    (∀ pkt m, packet_queue_put 104 Heap.empty packet_queue_init pkt m =
      some (Heap.empty, packet_queue_init, -1)) ∧
    (∀ pkt0 block serial0, packet_queue_get 104 Heap.empty packet_queue_init pkt0 block serial0 =
      Res.ok { heap := Heap.empty, q := packet_queue_init, pkt := pkt0, serial := serial0,
               ret := -1 }) ∧
    (∀ fuel h1 q1, packet_queue_flush fuel Heap.empty packet_queue_init = some (h1, q1) →
      q1.abort_request = packet_queue_init.abort_request) ∧
    (∀ l, Queued Heap.empty packet_queue_init l →
      ∃ h1 q1, packet_queue_flush l.length Heap.empty packet_queue_init = some (h1, q1) ∧
        q1.abort_request = packet_queue_init.abort_request) ∧
    (packet_queue_abort packet_queue_init).abort_request ≠ 0 ∧
    packet_queue_init.abort_request ≠ 0 ∧
    (∀ m h1 q1, packet_queue_start 104 Heap.empty packet_queue_init m = some (h1, q1) →
      q1.abort_request = 0) ∧
    ((∀ b, packet_queue_init.last_pkt = some b → ∃ n, Heap.empty b = some n) →
      ∀ m, ∃ h1 q1, packet_queue_start 104 Heap.empty packet_queue_init m = some (h1, q1) ∧
        q1.abort_request = 0) :=
  C4_aborted_queue 104 Heap.empty packet_queue_init (by decide)

/-- C5: `packet_queue_abort` is idempotent.  Applying it twice gives the same
queue as applying it once (every field, the heap being untouched), it changes
no field but `abort_request`, and a `packet_queue_get` issued afterwards
returns -1 in both cases, leaving everything as it is. -/
theorem C5_abort_idempotent (sz : Nat) (h : Heap) (q : PacketQueue) (pkt0 : AVPacket)
    (block : Int) (serial0 : Option Int) :
    packet_queue_abort (packet_queue_abort q) = packet_queue_abort q ∧
    (packet_queue_abort q).abort_request = 1 ∧
    (packet_queue_abort q).serial = q.serial ∧
    (packet_queue_abort q).first_pkt = q.first_pkt ∧
    (packet_queue_abort q).last_pkt = q.last_pkt ∧
    (packet_queue_abort q).nb_packets = q.nb_packets ∧
    (packet_queue_abort q).size = q.size ∧
    (packet_queue_abort q).duration = q.duration ∧
    packet_queue_get sz h (packet_queue_abort (packet_queue_abort q)) pkt0 block serial0 =
      packet_queue_get sz h (packet_queue_abort q) pkt0 block serial0 ∧
    packet_queue_get sz h (packet_queue_abort q) pkt0 block serial0 =
      Res.ok { heap := h, q := packet_queue_abort q, pkt := pkt0, serial := serial0,
               ret := -1 } := by
  refine ⟨rfl, rfl, rfl, rfl, rfl, rfl, rfl, rfl, rfl, ?_⟩
  simp [packet_queue_get, packet_queue_abort]

/-! ## C6: the accounting invariant -/

/-- Every reachable state is a listed queue whose counters are the machine
values of the node count and totals; all queued packets have non-negative
size and duration. -/
theorem PQReachable_listed (sz : Nat) {h : Heap} {q : PacketQueue}
    (hr : PQReachable sz h q) :
    ∃ l, Queued h q l ∧ Counted sz q l ∧ ∀ x, x ∈ l → 0 ≤ x.2.1.size ∧ 0 ≤ x.2.1.duration := by
  induction hr with
  | init h =>
    exact ⟨[], (Queued_nil_of_empty sz h rfl rfl rfl rfl rfl).1,
      (Queued_nil_of_empty sz h rfl rfl rfl rfl rfl).2, fun x hx => by simp at hx⟩
  | @start h q h1 q1 m _ hfresh hstart ih =>
    obtain ⟨l, hq, hc, hpos⟩ := ih
    have hq0 : Queued h { q with abort_request := 0 } l := hq
    have hc0 : Counted sz { q with abort_request := 0 } l := hc
    cases m with
    | none =>
      simp [packet_queue_start, packet_queue_put_private] at hstart
      obtain ⟨e1, e2⟩ := hstart
      subst e1 e2
      exact ⟨l, hq0, hc0, hpos⟩
    | some a =>
      obtain ⟨h2, q2, hput, hq2, hc2, _, _, _⟩ :=
        put_private_spec sz hq0 hc0 rfl PktArg.flush_pkt (hfresh a rfl)
      simp only [packet_queue_start, hput, Option.some.injEq, Prod.mk.injEq] at hstart
      obtain ⟨e1, e2⟩ := hstart
      subst e1 e2
      refine ⟨_, hq2, hc2, ?_⟩
      intro x hx
      rcases List.mem_append.1 hx with hx1 | hx1
      · exact hpos x hx1
      · have : x.2.1 = flush_pkt := by
          simp only [List.mem_singleton] at hx1
          rw [hx1]
          rfl
        rw [this]
        exact ⟨le_refl _, le_refl _⟩
  | @put h q h1 q1 ret pkt m _ hfresh hsize hdur hput ih =>
    obtain ⟨l, hq, hc, hpos⟩ := ih
    by_cases hab : q.abort_request = 0
    · cases m with
      | none =>
        simp [packet_queue_put, packet_queue_put_private, hab] at hput
        obtain ⟨e1, e2, _⟩ := hput
        subst e1 e2
        exact ⟨l, hq, hc, hpos⟩
      | some a =>
        obtain ⟨h2, q2, hput2, hq2, hc2, _, _, _⟩ :=
          put_private_spec sz hq hc hab pkt (hfresh a rfl)
        simp only [packet_queue_put, hput2, Option.some.injEq, Prod.mk.injEq] at hput
        obtain ⟨e1, e2, _⟩ := hput
        subst e1 e2
        refine ⟨_, hq2, hc2, ?_⟩
        intro x hx
        rcases List.mem_append.1 hx with hx1 | hx1
        · exact hpos x hx1
        · simp only [List.mem_singleton] at hx1
          rw [hx1]
          exact ⟨hsize, hdur⟩
    · simp [packet_queue_put, packet_queue_put_private, hab] at hput
      obtain ⟨e1, e2, _⟩ := hput
      subst e1 e2
      exact ⟨l, hq, hc, hpos⟩
  | @get h q out pkt block serial _ hget ih =>
    obtain ⟨l, hq, hc, hpos⟩ := ih
    by_cases hab : q.abort_request = 0
    · cases l with
      | nil =>
        have hfirst : q.first_pkt = none := (Linked_nil h _).1 hq.1
        by_cases hb : block = 0
        · simp [packet_queue_get, hab, hfirst, hb] at hget
          subst hget
          exact ⟨[], hq, hc, hpos⟩
        · simp [packet_queue_get, hab, hfirst, hb] at hget
      | cons x rest =>
        obtain ⟨a, pk, s⟩ := x
        obtain ⟨out2, hget2, _, _, _, _, hq2, hc2, _, _⟩ :=
          get_spec sz hq hc hab pkt block serial
        rw [hget2] at hget
        have e : out2 = out := Res.ok.inj hget
        subst e
        exact ⟨rest, hq2, hc2, fun x hx => hpos x (List.mem_cons_of_mem _ hx)⟩
    · simp [packet_queue_get, hab] at hget
      subst hget
      exact ⟨l, hq, hc, hpos⟩
  | @flush h q h1 q1 fuel _ hflush _ =>
    unfold packet_queue_flush at hflush
    cases hf : flush_loop fuel h q.first_pkt with
    | none => simp [hf] at hflush
    | some h2 =>
      simp only [hf, Option.some.injEq, Prod.mk.injEq] at hflush
      obtain ⟨_, e2⟩ := hflush
      subst e2
      exact ⟨[], (Queued_nil_of_empty sz h1 rfl rfl rfl rfl rfl).1,
        (Queued_nil_of_empty sz h1 rfl rfl rfl rfl rfl).2, fun x hx => by simp at hx⟩
  | @abort h q _ ih =>
    obtain ⟨l, hq, hc, hpos⟩ := ih
    exact ⟨l, hq, hc, hpos⟩

theorem total_size_nonneg (sz : Nat) : ∀ (l : List (Nat × AVPacket × Int)),
    (∀ x, x ∈ l → 0 ≤ x.2.1.size ∧ 0 ≤ x.2.1.duration) → 0 ≤ total_size sz l := by
  intro l
  induction l with
  | nil => intro _; simp [total_size]
  | cons x rest ih =>
    intro hpos
    have h1 := (hpos x (List.mem_cons_self _ _)).1
    have h2 := ih (fun y hy => hpos y (List.mem_cons_of_mem _ hy))
    simp only [total_size, List.map_cons, List.sum_cons] at h2 ⊢
    have h3 : (0 : Int) ≤ (sz : Int) := Int.ofNat_nonneg sz
    omega

theorem total_duration_nonneg : ∀ (l : List (Nat × AVPacket × Int)),
    (∀ x, x ∈ l → 0 ≤ x.2.1.size ∧ 0 ≤ x.2.1.duration) → 0 ≤ total_duration l := by
  intro l
  induction l with
  | nil => intro _; simp [total_duration]
  | cons x rest ih =>
    intro hpos
    have h1 := (hpos x (List.mem_cons_self _ _)).2
    have h2 := ih (fun y hy => hpos y (List.mem_cons_of_mem _ hy))
    simp only [total_duration, List.map_cons, List.sum_cons] at h2 ⊢
    omega

/-- C6 fails as stated: `size` is an `int`.  After `packet_queue_init`,
`packet_queue_start` and the put of two packets of 2^30 bytes each
(`sizeof(MyAVPacketList)` being 104, nodes allocated at addresses 1, 2, 3),
all returning 0, three nodes are queued and the byte total 2^31 + 312 no
longer fits: `size` is -2147483336. -/
theorem C6_counterexample :
    ∃ h1 q1 h2 q2 h3 q3,
      packet_queue_start 104 Heap.empty packet_queue_init (some 1) = some (h1, q1) ∧
      packet_queue_put 104 h1 q1 (PktArg.packet ⟨DataPtr.buffer 1, 1073741824, 0, 0⟩)
        (some 2) = some (h2, q2, 0) ∧
      packet_queue_put 104 h2 q2 (PktArg.packet ⟨DataPtr.buffer 2, 1073741824, 0, 0⟩)
        (some 3) = some (h3, q3, 0) ∧
      PQReachable 104 h3 q3 ∧ q3.nb_packets = 3 ∧ q3.size = -2147483336 ∧ q3.size < 0 := by
  have s0 : PQReachable 104 Heap.empty packet_queue_init := PQReachable.init Heap.empty
  have s1 := PQReachable.start (some 1) s0 (fun _ _ => rfl) rfl
  have s2 := PQReachable.put (PktArg.packet ⟨DataPtr.buffer 1, 1073741824, 0, 0⟩) (some 2) s1
    (by intro a e; cases e; rfl) (by decide) (by decide) rfl
  have s3 := PQReachable.put (PktArg.packet ⟨DataPtr.buffer 2, 1073741824, 0, 0⟩) (some 3) s2
    (by intro a e; cases e; rfl) (by decide) (by decide) rfl
  exact ⟨_, _, _, _, _, _, rfl, rfl, rfl, s3, by decide, by decide, by decide⟩

/-- C6 (amended): in every state reachable from `packet_queue_init` by start,
put (packets of non-negative size and duration), get, flush and abort, the
queue holds a list of nodes `l` with `first_pkt` and `last_pkt` null exactly
when `l` is empty; `nb_packets`, `size` and `duration` are the `int`, `int`
and `int64_t` values of the node count, of the byte total (packet sizes plus
`sizeof(MyAVPacketList)` per node) and of the duration total, which are never
negative.  So while the node count and the byte total do not exceed `INT_MAX`
and the duration total does not exceed `INT64_MAX`, `nb_packets` is the number
of queued nodes, `nb_packets == 0` holds exactly when `first_pkt` and
`last_pkt` are both null, and `size` and `duration` are not negative. -/
theorem C6_reachable_accounting (sz : Nat) (h : Heap) (q : PacketQueue)
    (hr : PQReachable sz h q) :
    ∃ l, Queued h q l ∧
      q.nb_packets = wrap32 (l.length : Int) ∧
      q.size = wrap32 (total_size sz l) ∧
      q.duration = wrap64 (total_duration l) ∧
      0 ≤ total_size sz l ∧ 0 ≤ total_duration l ∧
      (q.first_pkt = none ↔ l = []) ∧ (q.last_pkt = none ↔ l = []) ∧
      ((l.length : Int) ≤ INT_MAX →
        q.nb_packets = (l.length : Int) ∧
        (q.nb_packets = 0 ↔ q.first_pkt = none ∧ q.last_pkt = none)) ∧
      (total_size sz l ≤ INT_MAX → q.size = total_size sz l ∧ 0 ≤ q.size) ∧
      (total_duration l ≤ 9223372036854775807 →
        q.duration = total_duration l ∧ 0 ≤ q.duration) := by
  obtain ⟨l, hq, ⟨hnb, hsize, hdur⟩, hpos⟩ := PQReachable_listed sz hr
  have hts := total_size_nonneg sz l hpos
  have htd := total_duration_nonneg l hpos
  have hfirst : q.first_pkt = none ↔ l = [] := by
    cases l with
    | nil => simpa using (Linked_nil h _).1 hq.1
    | cons x rest =>
      obtain ⟨a, pk, s⟩ := x
      obtain ⟨hp, _⟩ := (Linked_cons h _ a pk s rest).1 hq.1
      simp [hp]
  have hlast : q.last_pkt = none ↔ l = [] := by
    rw [hq.2.2]
    cases l with
    | nil => simp [addrs]
    | cons x rest =>
      simp only [addrs_cons, reduceCtorEq, iff_false]
      intro hnone
      have := List.getLast?_eq_none_iff.1 hnone
      exact List.cons_ne_nil _ _ this
  refine ⟨l, hq, hnb, hsize, hdur, hts, htd, hfirst, hlast, ?_, ?_, ?_⟩
  · intro hlen
    have hlen0 : (0 : Int) ≤ (l.length : Int) := Int.ofNat_nonneg _
    have hnb2 : q.nb_packets = (l.length : Int) := by
      rw [hnb]
      unfold INT_MAX at hlen
      exact wrap32_of_range _ (by omega) (by omega)
    refine ⟨hnb2, ?_⟩
    rw [hnb2, hfirst, hlast]
    constructor
    · intro h0
      have : l.length = 0 := by exact_mod_cast h0
      exact ⟨List.length_eq_zero.1 this, List.length_eq_zero.1 this⟩
    · intro h0
      rw [h0.1]
      rfl
  · intro hle
    have hs2 : q.size = total_size sz l := by
      rw [hsize]
      unfold INT_MAX at hle
      exact wrap32_of_range _ (by omega) (by omega)
    exact ⟨hs2, by rw [hs2]; exact hts⟩
  · intro hle
    have hd2 : q.duration = total_duration l := by
      rw [hdur]
      exact wrap64_of_range _ (by omega) (by omega)
    exact ⟨hd2, by rw [hd2]; exact htd⟩

/-- C6 (amended) at a concrete input: the state after `packet_queue_init` and
`packet_queue_start` over the empty heap, one sentinel node at address 1. -/
theorem C6_reachable_accounting_witness :
    ∃ l, Queued (Heap.empty.store 1 { pkt := flush_pkt, next := none, serial := 1 })
        { first_pkt := some 1, last_pkt := some 1, nb_packets := 1, size := 104,
          duration := 0, abort_request := 0, serial := 1 } l ∧
      (1 : Int) = wrap32 (l.length : Int) ∧
      (104 : Int) = wrap32 (total_size 104 l) ∧
      (0 : Int) = wrap64 (total_duration l) ∧
      0 ≤ total_size 104 l ∧ 0 ≤ total_duration l ∧
      ((some 1 : Option Nat) = none ↔ l = []) ∧ ((some 1 : Option Nat) = none ↔ l = []) ∧
      ((l.length : Int) ≤ INT_MAX →
        (1 : Int) = (l.length : Int) ∧
        ((1 : Int) = 0 ↔ (some 1 : Option Nat) = none ∧ (some 1 : Option Nat) = none)) ∧
      (total_size 104 l ≤ INT_MAX → (104 : Int) = total_size 104 l ∧ (0 : Int) ≤ 104) ∧
      (total_duration l ≤ 9223372036854775807 →
        (0 : Int) = total_duration l ∧ (0 : Int) ≤ 0) :=
  C6_reachable_accounting 104
    (Heap.empty.store 1 { pkt := flush_pkt, next := none, serial := 1 })
    { first_pkt := some 1, last_pkt := some 1, nb_packets := 1, size := 104,
      duration := 0, abort_request := 0, serial := 1 }
    (PQReachable.start (some 1) (PQReachable.init Heap.empty) (fun _ _ => rfl) rfl)

/-! ## Frame queue lemmas -/

theorem wrap32_range (x : Int) : -2147483648 ≤ wrap32 x ∧ wrap32 x ≤ 2147483647 := by
  unfold wrap32; omega

theorem FRAME_QUEUE_SIZE_eq : FRAME_QUEUE_SIZE = 16 := by decide

theorem FFMIN_le_right (a b : Int) : FFMIN a b ≤ b := by
  unfold FFMIN
  split <;> omega

theorem FFMIN_of_le (a b : Int) (h : a ≤ b) : FFMIN a b = a := by
  unfold FFMIN
  split <;> omega

theorem frame_queue_init_loop_length {α σ : Type} (av_frame_alloc : Nat → Option α) :
    ∀ (n i : Nat) (queue : List (Frame α σ)),
    (frame_queue_init_loop av_frame_alloc n i queue).1.length = queue.length := by
  intro n
  induction n with
  | zero => intro i queue; rfl
  | succ n ih =>
    intro i queue
    simp only [frame_queue_init_loop]
    split
    · simp
    · rw [ih]
      simp

/-- The fields of a queue just initialised. -/
theorem frame_queue_init_fields {α σ : Type} (sub0 : σ) (av_frame_alloc : Nat → Option α)
    (max_size keep_last : Int) (f : FrameQueue α σ) (ret : Int)
    (hinit : frame_queue_init sub0 av_frame_alloc max_size keep_last = (f, ret)) :
    f.rindex = 0 ∧ f.windex = 0 ∧ f.size = 0 ∧ f.rindex_shown = 0 ∧
      f.max_size = FFMIN max_size FRAME_QUEUE_SIZE ∧
      f.keep_last = (if keep_last ≠ 0 then 1 else 0) ∧
      (f.queue.length : Int) = FRAME_QUEUE_SIZE := by
  unfold frame_queue_init at hinit
  have hf := (Prod.mk.inj hinit).1
  subst hf
  refine ⟨rfl, rfl, rfl, rfl, rfl, rfl, ?_⟩
  simp only [frame_queue_init_loop_length, List.length_replicate]
  decide

/-- What `frame_queue_peek_writable` tells when it returns a slot. -/
theorem peek_writable_slot {α σ : Type} (f : FrameQueue α σ) (pktq : PacketQueue) (w : Int)
    (hw : frame_queue_peek_writable f pktq = Res.ok (some w)) :
    f.size < f.max_size ∧ pktq.abort_request = 0 ∧ w = f.windex := by
  unfold frame_queue_peek_writable at hw
  by_cases hab : pktq.abort_request = 0
  · by_cases hfull : f.size ≥ f.max_size
    · simp [hab, hfull] at hw
    · simp [hab, hfull] at hw
      exact ⟨by omega, hab, hw.symm⟩
  · simp [hab] at hw

/-! ## C7: capacity -/

/-- C7: `frame_queue_peek_writable` returns a slot only when `size < max_size`
and the packet queue is not aborted (then it is slot `windex`); it returns no
slot while `size == max_size`, and returns `nullptr` when the packet queue is
aborted.  Hence in every state reachable from a successful `frame_queue_init`
(capacity argument not negative) by slot writes, by `frame_queue_push` called
only after `frame_queue_peek_writable` returned a slot, and by
`frame_queue_next` (its decrement not overflowing), `size <= max_size`. -/
theorem C7_peek_writable_capacity {α σ : Type} (sub0 : σ) (av_frame_unref : α → α)
    (avsubtitle_free : σ → σ) :
    (∀ (f : FrameQueue α σ) (pktq : PacketQueue) (w : Int),
      frame_queue_peek_writable f pktq = Res.ok (some w) →
      f.size < f.max_size ∧ pktq.abort_request = 0 ∧ w = f.windex) ∧
    (∀ (f : FrameQueue α σ) (pktq : PacketQueue) (w : Int), f.size = f.max_size →
      frame_queue_peek_writable f pktq ≠ Res.ok (some w)) ∧
    (∀ (f : FrameQueue α σ) (pktq : PacketQueue), pktq.abort_request ≠ 0 →
      frame_queue_peek_writable f pktq = Res.ok none) ∧
    (∀ (f : FrameQueue α σ) (pktq : PacketQueue), f.size < f.max_size →
      pktq.abort_request = 0 → frame_queue_peek_writable f pktq = Res.ok (some f.windex)) ∧
    (∀ (f : FrameQueue α σ),
      FQReach sub0 av_frame_unref avsubtitle_free (fun m => 0 ≤ m) writable
        (fun f => -2147483648 < f.size) f →
      f.size ≤ f.max_size) := by
  refine ⟨peek_writable_slot, ?_, ?_, ?_, ?_⟩
  · intro f pktq w hfull hw
    have := (peek_writable_slot f pktq w hw).1
    omega
  · intro f pktq hab
    simp [frame_queue_peek_writable, hab]
  · intro f pktq hroom hab
    have : ¬ (f.size ≥ f.max_size) := by omega
    simp [frame_queue_peek_writable, hab, this]
  · intro f hr
    have key : f.size ≤ f.max_size ∧ f.max_size ≤ 16 ∧ -2147483648 ≤ f.size := by
      induction hr with
      | init av_frame_alloc max_size keep_last f hm hinit =>
        obtain ⟨_, _, hsize, _, hmax, _, _⟩ :=
          frame_queue_init_fields sub0 av_frame_alloc max_size keep_last f 0 hinit
        have h16 := FFMIN_le_right max_size FRAME_QUEUE_SIZE
        rw [FRAME_QUEUE_SIZE_eq] at h16 hmax
        have h0 : 0 ≤ FFMIN max_size 16 := by
          unfold FFMIN
          split <;> omega
        rw [hsize, hmax]
        omega
      | touch queue _ _ ih => exact ih
      | @push f _ hw ih =>
        obtain ⟨pktq, w, hw⟩ := hw
        have hlt := (peek_writable_slot f pktq w hw).1
        have hwr : wrap32 (f.size + 1) = f.size + 1 := wrap32_of_range _ (by omega) (by omega)
        simp only [frame_queue_push, hwr]
        omega
      | @next f f1 _ hg hnext ih =>
        unfold frame_queue_next at hnext
        split at hnext
        · have e := Option.some.inj hnext
          subst e
          exact ih
        · split at hnext
          · have e := Option.some.inj hnext
            subst e
            have hwr : wrap32 (f.size - 1) = f.size - 1 :=
              wrap32_of_range _ (by omega) (by omega)
            simp only [hwr]
            omega
          · exact Option.noConfusion hnext
    exact key.1

/-- C7 at a concrete input: a capacity-3 queue after one push. -/
theorem C7_peek_writable_capacity_witness :
    (frame_queue_push sample_pictq).size ≤ (frame_queue_push sample_pictq).max_size :=
  (C7_peek_writable_capacity (0 : Nat) (fun (x : Nat) => x) (fun (x : Nat) => x)).2.2.2.2 _
    (FQReach.push
      (FQReach.init (fun i => some i) 3 1 sample_pictq (by decide) rfl)
      ⟨{ packet_queue_init with abort_request := 0 }, 0, rfl⟩)

/-! ## C8: nothing goes negative -/

/-- C8: in every state reachable from a successful `frame_queue_init` by slot
writes, by `frame_queue_push` (its increment not overflowing) and by
`frame_queue_next` called only when `frame_queue_nb_remaining() > 0`, `size`
is not negative and `frame_queue_nb_remaining() = size - rindex_shown` is not
negative either. -/
theorem C8_size_never_negative {α σ : Type} (sub0 : σ) (av_frame_unref : α → α)
    (avsubtitle_free : σ → σ) (f : FrameQueue α σ)
    (hr : FQReach sub0 av_frame_unref avsubtitle_free (fun _ => True)
      (fun f => f.size < INT_MAX) remaining f) :
    0 ≤ f.size ∧ 0 ≤ frame_queue_nb_remaining f ∧
      frame_queue_nb_remaining f = f.size - f.rindex_shown := by
  have key : 0 ≤ f.size ∧ f.size ≤ 2147483647 ∧ (f.rindex_shown = 0 ∨ f.rindex_shown = 1) ∧
      f.rindex_shown ≤ f.size := by
    induction hr with
    | init av_frame_alloc max_size keep_last f _ hinit =>
      obtain ⟨_, _, hsize, hshown, _, _, _⟩ :=
        frame_queue_init_fields sub0 av_frame_alloc max_size keep_last f 0 hinit
      rw [hsize, hshown]
      omega
    | touch queue _ _ ih => exact ih
    | @push f _ hg ih =>
      have hlt : f.size < 2147483647 := hg
      have hwr : wrap32 (f.size + 1) = f.size + 1 := wrap32_of_range _ (by omega) (by omega)
      simp only [frame_queue_push, hwr]
      omega
    | @next f f1 _ hg hnext ih =>
      have hrem : 0 < wrap32 (f.size - f.rindex_shown) := hg
      have hwr0 : wrap32 (f.size - f.rindex_shown) = f.size - f.rindex_shown :=
        wrap32_of_range _ (by omega) (by omega)
      rw [hwr0] at hrem
      unfold frame_queue_next at hnext
      split at hnext
      · rename_i hc
        have e := Option.some.inj hnext
        subst e
        have hs0 := hc.2
        refine ⟨ih.1, ih.2.1, Or.inr rfl, ?_⟩
        show (1 : Int) ≤ f.size
        omega
      · split at hnext
        · have e := Option.some.inj hnext
          subst e
          have hwr : wrap32 (f.size - 1) = f.size - 1 :=
            wrap32_of_range _ (by omega) (by omega)
          simp only [hwr]
          omega
        · exact Option.noConfusion hnext
  have hwr0 : wrap32 (f.size - f.rindex_shown) = f.size - f.rindex_shown :=
    wrap32_of_range _ (by omega) (by omega)
  refine ⟨key.1, ?_, hwr0⟩
  unfold frame_queue_nb_remaining
  rw [hwr0]
  omega

/-- C8 at a concrete input: a capacity-3 `keep_last` queue after one push and
one `frame_queue_next`. -/
theorem C8_size_never_negative_witness :
    0 ≤ ({ frame_queue_push sample_pictq with rindex_shown := 1 } : FrameQueue Nat Nat).size ∧
      0 ≤ frame_queue_nb_remaining
        ({ frame_queue_push sample_pictq with rindex_shown := 1 } : FrameQueue Nat Nat) ∧
      frame_queue_nb_remaining
        ({ frame_queue_push sample_pictq with rindex_shown := 1 } : FrameQueue Nat Nat) =
        ({ frame_queue_push sample_pictq with rindex_shown := 1 } : FrameQueue Nat Nat).size -
        ({ frame_queue_push sample_pictq with rindex_shown := 1 } :
          FrameQueue Nat Nat).rindex_shown :=
  C8_size_never_negative (0 : Nat) (fun (x : Nat) => x) (fun (x : Nat) => x) _
    (FQReach.next
      (FQReach.push (FQReach.init (fun i => some i) 3 1 sample_pictq trivial rfl) (by decide))
      (by unfold remaining; decide) rfl)

/-! ## C9: keep_last -/

/-- With `keep_last` set and `rindex_shown = 0`, `frame_queue_next` only sets
`rindex_shown`. -/
theorem frame_queue_next_keep {α σ : Type} (av_frame_unref : α → α) (avsubtitle_free : σ → σ)
    (f : FrameQueue α σ) (hk : f.keep_last ≠ 0) (hs : f.rindex_shown = 0) :
    frame_queue_next av_frame_unref avsubtitle_free f = some { f with rindex_shown := 1 } := by
  simp [frame_queue_next, hk, hs]

/-- With `keep_last` clear or `rindex_shown` not 0, and `rindex` inside the
array, `frame_queue_next` releases slot `rindex` and advances. -/
theorem frame_queue_next_release {α σ : Type} (av_frame_unref : α → α)
    (avsubtitle_free : σ → σ) (f : FrameQueue α σ)
    (hc : f.keep_last = 0 ∨ f.rindex_shown ≠ 0) (h0 : 0 ≤ f.rindex)
    (hlen : f.rindex < (f.queue.length : Int)) :
    frame_queue_next av_frame_unref avsubtitle_free f =
      some { f with
             queue := f.queue.modify (frame_queue_unref_item av_frame_unref avsubtitle_free)
               f.rindex.toNat
             rindex := if wrap32 (f.rindex + 1) = f.max_size then 0 else wrap32 (f.rindex + 1)
             size := wrap32 (f.size - 1) } := by
  have hcond : ¬ (f.keep_last ≠ 0 ∧ f.rindex_shown = 0) := by
    rintro ⟨h1, h2⟩
    rcases hc with hc | hc
    · exact h1 hc
    · exact hc h2
  simp only [frame_queue_next, hcond, if_false, h0, hlen, and_self, if_true]

/-- C9: on a queue with `keep_last` set and `rindex_shown = 0`,
`frame_queue_next` only sets `rindex_shown` to 1: `size`, `rindex`, `windex`,
every slot and the slot returned by `frame_queue_peek_last` are unchanged.  On
a queue with `keep_last` clear or `rindex_shown` not 0 (and `rindex` an index
of the array) it releases slot `rindex`: that slot afterwards holds the frame
after `av_frame_unref` and the subtitle after `avsubtitle_free`, its other
fields and all other slots being as before; it sets `rindex` to `rindex + 1`,
or 0 when that equals `max_size` (which is `(rindex + 1) mod max_size` for
`0 <= rindex < max_size`), and decrements `size` by one.  On a capacity-3
`keep_last` queue holding one pushed frame the first `frame_queue_next` leaves
`size = 1` and the frame untouched, and the second makes `size = 0`, releases
the frame in slot 0 and moves `rindex` to 1. -/
theorem C9_frame_queue_next {α σ : Type} (sub0 : σ) (av_frame_unref : α → α)
    (avsubtitle_free : σ → σ) :
    (∀ (f : FrameQueue α σ), f.keep_last ≠ 0 → f.rindex_shown = 0 →
      ∃ f1, frame_queue_next av_frame_unref avsubtitle_free f = some f1 ∧
        f1 = { f with rindex_shown := 1 } ∧ f1.rindex_shown = 1 ∧ f1.size = f.size ∧
        f1.rindex = f.rindex ∧ f1.windex = f.windex ∧ f1.queue = f.queue ∧
        frame_queue_peek_last f1 = frame_queue_peek_last f) ∧
    (∀ (f : FrameQueue α σ), (f.keep_last = 0 ∨ f.rindex_shown ≠ 0) →
      0 ≤ f.rindex → f.rindex < (f.queue.length : Int) →
      ∃ f1, frame_queue_next av_frame_unref avsubtitle_free f = some f1 ∧
        f1.queue.length = f.queue.length ∧
        (∃ vp, f.queue[f.rindex.toNat]? = some vp ∧
          f1.queue[f.rindex.toNat]? =
            some { vp with frame := vp.frame.map av_frame_unref,
                           sub := avsubtitle_free vp.sub }) ∧
        (∀ i : Nat, i ≠ f.rindex.toNat → f1.queue[i]? = f.queue[i]?) ∧
        f1.rindex = (if wrap32 (f.rindex + 1) = f.max_size then 0 else wrap32 (f.rindex + 1)) ∧
        (f.rindex < f.max_size → f.max_size ≤ INT_MAX →
          f1.rindex = (f.rindex + 1) % f.max_size) ∧
        f1.size = wrap32 (f.size - 1) ∧
        (-2147483648 < f.size → f.size ≤ INT_MAX → f1.size = f.size - 1) ∧
        f1.windex = f.windex ∧ f1.rindex_shown = f.rindex_shown ∧
        f1.keep_last = f.keep_last ∧ f1.max_size = f.max_size) ∧
    (∀ (av_frame_alloc : Nat → Option α) (f0 : FrameQueue α σ) (vp : Frame α σ),
      frame_queue_init sub0 av_frame_alloc 3 1 = (f0, 0) →
      ∃ f2 f3,
        (frame_queue_push { f0 with queue := f0.queue.set 0 vp }).size = 1 ∧
        frame_queue_next av_frame_unref avsubtitle_free
          (frame_queue_push { f0 with queue := f0.queue.set 0 vp }) = some f2 ∧
        f2.size = 1 ∧ f2.rindex_shown = 1 ∧
        f2.queue = f0.queue.set 0 vp ∧ f2.queue[0]? = some vp ∧
        frame_queue_peek_last f2 = 0 ∧
        frame_queue_next av_frame_unref avsubtitle_free f2 = some f3 ∧ f3.size = 0 ∧
        f3.queue[0]? =
          some { vp with frame := vp.frame.map av_frame_unref,
                         sub := avsubtitle_free vp.sub } ∧
        (∀ i : Nat, i ≠ 0 → f3.queue[i]? = f0.queue[i]?) ∧
        f3.rindex = 1 ∧ f3.rindex_shown = 1) := by
  refine ⟨?_, ?_, ?_⟩
  · intro f hk hs
    exact ⟨{ f with rindex_shown := 1 },
      frame_queue_next_keep av_frame_unref avsubtitle_free f hk hs,
      rfl, rfl, rfl, rfl, rfl, rfl, rfl⟩
  · intro f hc h0 hlen
    have hlt : f.rindex.toNat < f.queue.length := by omega
    refine ⟨_, frame_queue_next_release av_frame_unref avsubtitle_free f hc h0 hlen,
      ?_, ?_, ?_, rfl, ?_, rfl, ?_, rfl, rfl, rfl, rfl⟩
    · exact List.length_modify _ _ _
    · refine ⟨f.queue[f.rindex.toNat], List.getElem?_eq_getElem hlt, ?_⟩
      show (List.modify _ _ _)[_]? = _
      rw [List.getElem?_modify_eq, List.getElem?_eq_getElem hlt]
      rfl
    · intro i hi
      exact List.getElem?_modify_ne _ _ (Ne.symm hi)
    · intro hlt hmax
      unfold INT_MAX at hmax
      have hwr : wrap32 (f.rindex + 1) = f.rindex + 1 :=
        wrap32_of_range _ (by omega) (by omega)
      show (if wrap32 (f.rindex + 1) = f.max_size then 0 else wrap32 (f.rindex + 1)) = _
      rw [hwr]
      by_cases he : f.rindex + 1 = f.max_size
      · rw [if_pos he, he, Int.emod_self]
      · rw [if_neg he, Int.emod_eq_of_lt (by omega) (by omega)]
    · intro hlo hhi
      unfold INT_MAX at hhi
      exact wrap32_of_range _ (by omega) (by omega)
  · intro av_frame_alloc f0 vp hinit
    obtain ⟨hr, hw, hsize, hshown, hmax, hkeep, hlen⟩ :=
      frame_queue_init_fields sub0 av_frame_alloc 3 1 f0 0 hinit
    have hkeep1 : f0.keep_last = 1 := by rw [hkeep]; decide
    have hmax3 : f0.max_size = 3 := by rw [hmax]; decide
    have hlen16 : (f0.queue.length : Int) = 16 := by rw [hlen]; decide
    have hlen0 : 0 < f0.queue.length := by omega
    have hpush1 : (frame_queue_push { f0 with queue := f0.queue.set 0 vp }).size = 1 := by
      simp only [frame_queue_push, hsize]
      decide
    have hnext1 := frame_queue_next_keep av_frame_unref avsubtitle_free
      (frame_queue_push { f0 with queue := f0.queue.set 0 vp })
      (by simp [frame_queue_push, hkeep1]) hshown
    have hnext2 := frame_queue_next_release av_frame_unref avsubtitle_free
      { frame_queue_push { f0 with queue := f0.queue.set 0 vp } with rindex_shown := 1 }
      (Or.inr (show (1 : Int) ≠ 0 by decide)) (by show (0 : Int) ≤ f0.rindex; omega)
      (by
        show f0.rindex < (((f0.queue.set 0 vp).length : Nat) : Int)
        rw [List.length_set, hlen16, hr]
        decide)
    have hslot : (f0.queue.set 0 vp)[0]? = some vp := by
      rw [List.getElem?_set]
      simp [hlen0]
    refine ⟨_, _, hpush1, hnext1, hpush1, rfl, rfl, hslot, hr, hnext2, ?_, ?_, ?_, ?_, rfl⟩
    · show wrap32 ((frame_queue_push { f0 with queue := f0.queue.set 0 vp }).size - 1) = 0
      rw [hpush1]
      decide
    · show (List.modify _ f0.rindex.toNat (f0.queue.set 0 vp))[0]? = _
      rw [hr]
      show (List.modify _ 0 (f0.queue.set 0 vp))[0]? = _
      rw [List.getElem?_modify_eq, hslot]
      rfl
    · intro i hi
      show (List.modify _ f0.rindex.toNat (f0.queue.set 0 vp))[i]? = _
      rw [hr]
      show (List.modify _ 0 (f0.queue.set 0 vp))[i]? = _
      rw [List.getElem?_modify_ne _ _ (Ne.symm hi), List.getElem?_set, if_neg (Ne.symm hi)]
    · show (if wrap32 (f0.rindex + 1) = f0.max_size then 0 else wrap32 (f0.rindex + 1)) = 1
      rw [hr, hmax3]
      decide

/-- C9 at a concrete input: the capacity-3 `keep_last` queue of the scenario,
one frame (frame 7, subtitle 5) written to slot 0 and pushed, the external
release functions resetting a frame and a subtitle to 0.  After the first
`frame_queue_next` slot 0 still holds frame 7 and subtitle 5; after the second
it holds frame 0 and subtitle 0, `size` is 0 and `rindex` is 1. -/
theorem C9_frame_queue_next_witness :
    ∃ f2 f3,
      (frame_queue_push
        { sample_pictq with
          queue := sample_pictq.queue.set 0 { sample_frame with sub := 5 } }).size = 1 ∧
      frame_queue_next (fun (_ : Nat) => 0) (fun (_ : Nat) => 0)
        (frame_queue_push
          { sample_pictq with
            queue := sample_pictq.queue.set 0 { sample_frame with sub := 5 } }) = some f2 ∧
      f2.size = 1 ∧ f2.rindex_shown = 1 ∧
      f2.queue = sample_pictq.queue.set 0 { sample_frame with sub := 5 } ∧
      f2.queue[0]? = some { sample_frame with frame := some 7, sub := 5 } ∧
      frame_queue_peek_last f2 = 0 ∧
      frame_queue_next (fun (_ : Nat) => 0) (fun (_ : Nat) => 0) f2 = some f3 ∧ f3.size = 0 ∧
      f3.queue[0]? = some { sample_frame with frame := some 0, sub := 0 } ∧
      (∀ i : Nat, i ≠ 0 → f3.queue[i]? = sample_pictq.queue[i]?) ∧
      f3.rindex = 1 ∧ f3.rindex_shown = 1 :=
  (C9_frame_queue_next (0 : Nat) (fun (_ : Nat) => 0) (fun (_ : Nat) => 0)).2.2
    (fun i => some i) sample_pictq { sample_frame with sub := 5 } rfl

/-! ## C10: the indices stay inside the array -/

/-- The invariant of a frame queue used as the program uses it. -/
theorem FQReach_indices {α σ : Type} (sub0 : σ) (av_frame_unref : α → α)
    (avsubtitle_free : σ → σ) (f : FrameQueue α σ)
    (hr : FQReach sub0 av_frame_unref avsubtitle_free
      (fun m => 1 ≤ m ∧ m ≤ FRAME_QUEUE_SIZE) writable remaining f) :
    1 ≤ f.max_size ∧ f.max_size ≤ 16 ∧ (f.queue.length : Int) = 16 ∧
      0 ≤ f.rindex ∧ f.rindex < f.max_size ∧ 0 ≤ f.windex ∧ f.windex < f.max_size ∧
      0 ≤ f.size ∧ f.size ≤ f.max_size ∧ (f.rindex_shown = 0 ∨ f.rindex_shown = 1) ∧
      f.rindex_shown ≤ f.size ∧
      (f.windex = f.rindex + f.size ∨ f.windex = f.rindex + f.size - f.max_size) := by
  induction hr with
  | init av_frame_alloc max_size keep_last f hm hinit =>
    obtain ⟨hr, hw, hsize, hshown, hmax, _, hlen⟩ :=
      frame_queue_init_fields sub0 av_frame_alloc max_size keep_last f 0 hinit
    rw [FFMIN_of_le _ _ hm.2] at hmax
    rw [FRAME_QUEUE_SIZE_eq] at hlen hm
    rw [hr, hw, hsize, hshown, hmax, hlen]
    omega
  | @touch f queue _ hlen ih =>
    have : ((queue.length : Nat) : Int) = 16 := by rw [hlen]; exact ih.2.2.1
    exact ⟨ih.1, ih.2.1, this, ih.2.2.2⟩
  | @push f _ hw ih =>
    obtain ⟨pktq, w, hw⟩ := hw
    have hlt := (peek_writable_slot f pktq w hw).1
    have hwr : wrap32 (f.size + 1) = f.size + 1 := wrap32_of_range _ (by omega) (by omega)
    have hwr2 : wrap32 (f.windex + 1) = f.windex + 1 := wrap32_of_range _ (by omega) (by omega)
    simp only [frame_queue_push, hwr, hwr2]
    by_cases he : f.windex + 1 = f.max_size
    · rw [if_pos he]
      omega
    · rw [if_neg he]
      omega
  | @next f f1 _ hg hnext ih =>
    have hrem : 0 < wrap32 (f.size - f.rindex_shown) := hg
    have hwr0 : wrap32 (f.size - f.rindex_shown) = f.size - f.rindex_shown :=
      wrap32_of_range _ (by omega) (by omega)
    rw [hwr0] at hrem
    unfold frame_queue_next at hnext
    split at hnext
    · rename_i hc
      have e := Option.some.inj hnext
      subst e
      have hs0 := hc.2
      refine ⟨ih.1, ih.2.1, ih.2.2.1, ih.2.2.2.1, ih.2.2.2.2.1, ih.2.2.2.2.2.1,
        ih.2.2.2.2.2.2.1, ih.2.2.2.2.2.2.2.1, ih.2.2.2.2.2.2.2.2.1, Or.inr rfl, ?_,
        ih.2.2.2.2.2.2.2.2.2.2.2⟩
      show (1 : Int) ≤ f.size
      omega
    · split at hnext
      · have e := Option.some.inj hnext
        subst e
        have hwr : wrap32 (f.size - 1) = f.size - 1 :=
          wrap32_of_range _ (by omega) (by omega)
        have hwr2 : wrap32 (f.rindex + 1) = f.rindex + 1 :=
          wrap32_of_range _ (by omega) (by omega)
        simp only [hwr, hwr2, List.length_modify]
        by_cases he : f.rindex + 1 = f.max_size
        · rw [if_pos he]
          omega
        · rw [if_neg he]
          omega
      · exact Option.noConfusion hnext

/-- The remainder of a non-negative number by a positive one is defined and
lies below the divisor. -/
theorem c_rem_pos (a m : Int) (ha : 0 ≤ a) (hm : 1 ≤ m) :
    ∃ i, c_rem a m = some i ∧ i = a % m ∧ 0 ≤ i ∧ i < m := by
  have hcond : ¬ (m = 0 ∨ (a = -2147483648 ∧ m = -1)) := by omega
  refine ⟨a % m, ?_, rfl, Int.emod_nonneg a (by omega), Int.emod_lt_of_pos a (by omega)⟩
  simp only [c_rem, hcond, if_false]
  rw [Int.tmod_eq_emod ha (by omega)]

/-- C10: in every state reachable from a successful `frame_queue_init` with
`1 <= max_size <= FRAME_QUEUE_SIZE` by slot writes, `frame_queue_push` after a
successful `frame_queue_peek_writable` and `frame_queue_next` while
`frame_queue_nb_remaining() > 0`: `0 <= rindex < max_size`,
`0 <= windex < max_size`, `windex = (rindex + size) mod max_size`,
`0 <= size <= max_size`, and `max_size` does not exceed the length 16 of the
array; so the slot index computed by each of `frame_queue_peek`,
`frame_queue_peek_next`, `frame_queue_peek_last`, `frame_queue_peek_writable`
and `frame_queue_peek_readable` is defined and lies in `[0, max_size)`, inside
the array, and `frame_queue_next` is defined. -/
theorem C10_indices_in_range {α σ : Type} (sub0 : σ) (av_frame_unref : α → α)
    (avsubtitle_free : σ → σ) (f : FrameQueue α σ)
    (hr : FQReach sub0 av_frame_unref avsubtitle_free
      (fun m => 1 ≤ m ∧ m ≤ FRAME_QUEUE_SIZE) writable remaining f) :
    (0 ≤ f.rindex ∧ f.rindex < f.max_size) ∧
    (0 ≤ f.windex ∧ f.windex < f.max_size) ∧
    f.windex = (f.rindex + f.size) % f.max_size ∧
    (0 ≤ f.size ∧ f.size ≤ f.max_size) ∧
    (f.max_size ≤ FRAME_QUEUE_SIZE ∧ (f.queue.length : Int) = FRAME_QUEUE_SIZE) ∧
    (∃ i, frame_queue_peek f = some i ∧ 0 ≤ i ∧ i < f.max_size) ∧
    (∃ i, frame_queue_peek_next f = some i ∧ 0 ≤ i ∧ i < f.max_size) ∧
    (0 ≤ frame_queue_peek_last f ∧ frame_queue_peek_last f < f.max_size) ∧
    (∀ pktq w, frame_queue_peek_writable f pktq = Res.ok (some w) → 0 ≤ w ∧ w < f.max_size) ∧
    (∀ pktq, frame_queue_peek_readable f pktq ≠ Res.fault ∧
      ∀ w, frame_queue_peek_readable f pktq = Res.ok (some w) → 0 ≤ w ∧ w < f.max_size) ∧
    (∃ f1, frame_queue_next av_frame_unref avsubtitle_free f = some f1) := by
  obtain ⟨hm1, hm16, hlen, hr0, hr1, hw0, hw1, hs0, hs1, hshown, hshle, hwin⟩ :=
    FQReach_indices sub0 av_frame_unref avsubtitle_free f hr
  have hwr : wrap32 (f.rindex + f.rindex_shown) = f.rindex + f.rindex_shown :=
    wrap32_of_range _ (by omega) (by omega)
  have hwr1 : wrap32 (f.rindex + f.rindex_shown + 1) = f.rindex + f.rindex_shown + 1 :=
    wrap32_of_range _ (by omega) (by omega)
  obtain ⟨i, hi, _, hi0, hi1⟩ := c_rem_pos (f.rindex + f.rindex_shown) f.max_size
    (by omega) hm1
  obtain ⟨j, hj, _, hj0, hj1⟩ := c_rem_pos (f.rindex + f.rindex_shown + 1) f.max_size
    (by omega) hm1
  refine ⟨⟨hr0, hr1⟩, ⟨hw0, hw1⟩, ?_, ⟨hs0, hs1⟩, ⟨?_, ?_⟩, ⟨i, ?_, hi0, hi1⟩,
    ⟨j, ?_, hj0, hj1⟩, ⟨hr0, hr1⟩, ?_, ?_, ?_⟩
  · rcases hwin with hwin | hwin
    · rw [Int.emod_eq_of_lt (by omega) (by omega)]
      exact hwin
    · have : f.rindex + f.size = f.windex + f.max_size := by omega
      rw [this, Int.add_emod_self, Int.emod_eq_of_lt hw0 hw1]
  · rw [FRAME_QUEUE_SIZE_eq]
    exact hm16
  · rw [FRAME_QUEUE_SIZE_eq]
    exact hlen
  · simp only [frame_queue_peek, hwr]
    exact hi
  · simp only [frame_queue_peek_next, hwr, hwr1]
    exact hj
  · intro pktq w hw
    obtain ⟨_, _, hww⟩ := peek_writable_slot f pktq w hw
    rw [hww]
    exact ⟨hw0, hw1⟩
  · intro pktq
    unfold frame_queue_peek_readable
    rw [hwr, hi]
    constructor
    · split
      · exact fun h => Res.noConfusion h
      · split
        · exact fun h => Res.noConfusion h
        · exact fun h => Res.noConfusion h
    · intro w hw
      split at hw
      · exact Res.noConfusion hw
      · split at hw
        · have := Res.ok.inj hw
          exact Option.noConfusion this
        · have := Option.some.inj (Res.ok.inj hw)
          rw [← this]
          exact ⟨hi0, hi1⟩
  · by_cases hc : f.keep_last ≠ 0 ∧ f.rindex_shown = 0
    · exact ⟨_, frame_queue_next_keep av_frame_unref avsubtitle_free f hc.1 hc.2⟩
    · refine ⟨_, frame_queue_next_release av_frame_unref avsubtitle_free f ?_ hr0
        (by omega)⟩
      by_cases hk : f.keep_last = 0
      · exact Or.inl hk
      · exact Or.inr (fun h => hc ⟨hk, h⟩)

/-- C10 at a concrete input: the capacity-3 queue after one push. -/
theorem C10_indices_in_range_witness :
    (0 ≤ (frame_queue_push sample_pictq).rindex ∧
      (frame_queue_push sample_pictq).rindex < (frame_queue_push sample_pictq).max_size) ∧
    (0 ≤ (frame_queue_push sample_pictq).windex ∧
      (frame_queue_push sample_pictq).windex < (frame_queue_push sample_pictq).max_size) ∧
    (frame_queue_push sample_pictq).windex =
      ((frame_queue_push sample_pictq).rindex + (frame_queue_push sample_pictq).size) %
        (frame_queue_push sample_pictq).max_size ∧
    (0 ≤ (frame_queue_push sample_pictq).size ∧
      (frame_queue_push sample_pictq).size ≤ (frame_queue_push sample_pictq).max_size) ∧
    ((frame_queue_push sample_pictq).max_size ≤ FRAME_QUEUE_SIZE ∧
      ((frame_queue_push sample_pictq).queue.length : Int) = FRAME_QUEUE_SIZE) ∧
    (∃ i, frame_queue_peek (frame_queue_push sample_pictq) = some i ∧ 0 ≤ i ∧
      i < (frame_queue_push sample_pictq).max_size) ∧
    (∃ i, frame_queue_peek_next (frame_queue_push sample_pictq) = some i ∧ 0 ≤ i ∧
      i < (frame_queue_push sample_pictq).max_size) ∧
    (0 ≤ frame_queue_peek_last (frame_queue_push sample_pictq) ∧
      frame_queue_peek_last (frame_queue_push sample_pictq) <
        (frame_queue_push sample_pictq).max_size) ∧
    (∀ pktq w, frame_queue_peek_writable (frame_queue_push sample_pictq) pktq =
      Res.ok (some w) → 0 ≤ w ∧ w < (frame_queue_push sample_pictq).max_size) ∧
    (∀ pktq, frame_queue_peek_readable (frame_queue_push sample_pictq) pktq ≠ Res.fault ∧
      ∀ w, frame_queue_peek_readable (frame_queue_push sample_pictq) pktq = Res.ok (some w) →
        0 ≤ w ∧ w < (frame_queue_push sample_pictq).max_size) ∧
    (∃ f1, frame_queue_next (fun (x : Nat) => x) (fun (x : Nat) => x)
      (frame_queue_push sample_pictq) = some f1) :=
  C10_indices_in_range (0 : Nat) (fun (x : Nat) => x) (fun (x : Nat) => x) _
    (FQReach.push
      (FQReach.init (fun i => some i) 3 1 sample_pictq (by decide) rfl)
      ⟨{ packet_queue_init with abort_request := 0 }, 0, rfl⟩)

/-! ## Double arithmetic -/

theorem Double.val_add (a b : ℚ) : Double.val a + Double.val b = Double.val (a + b) := rfl

theorem Double.val_sub (a b : ℚ) : Double.val a - Double.val b = Double.val (a - b) := rfl

theorem Double.val_mul (a b : ℚ) : Double.val a * Double.val b = Double.val (a * b) := rfl

theorem Double.neg_val (a : ℚ) : -Double.val a = Double.val (-a) := rfl

theorem Double.nan_add (a : Double) : Double.nan + a = Double.nan := rfl

theorem Double.add_nan (a : Double) : a + Double.nan = Double.nan := by
  cases a <;> rfl

theorem Double.nan_sub (a : Double) : Double.nan - a = Double.nan := rfl

theorem Double.sub_nan (a : Double) : a - Double.nan = Double.nan := by
  cases a <;> rfl

theorem Double.nan_mul (a : Double) : Double.nan * a = Double.nan := rfl

theorem Double.mul_nan (a : Double) : a * Double.nan = Double.nan := by
  cases a <;> rfl

theorem Double.lt_val (a b : ℚ) : (Double.val a).lt (Double.val b) = decide (a < b) := rfl

theorem Double.le_val (a b : ℚ) : (Double.val a).le (Double.val b) = decide (a ≤ b) := rfl

theorem Double.fabs_val (a : ℚ) : (Double.val a).fabs = Double.val |a| := rfl

theorem Double.isnan_val (a : ℚ) : (Double.val a).isnan = false := rfl

theorem FFMAX_double_val (a b : ℚ) :
    FFMAX_double (Double.val a) (Double.val b) = Double.val (max a b) := by
  unfold FFMAX_double
  rw [Double.lt_val]
  by_cases h : b < a
  · simp [h, max_eq_left (le_of_lt h)]
  · simp [h, max_eq_right (not_lt.1 h)]

theorem FFMIN_double_val (a b : ℚ) :
    FFMIN_double (Double.val a) (Double.val b) = Double.val (min a b) := by
  unfold FFMIN_double
  rw [Double.lt_val]
  by_cases h : b < a
  · simp [h, min_eq_right (le_of_lt h)]
  · simp [h, min_eq_left (not_lt.1 h)]

/-! ## C13 to C16: clocks -/

/-- C13: for a clock whose serial equals the queue's serial and whose `paused`
flag is set, `get_clock` returns exactly `pts`, whatever the wall time; so
after `set_clock_at` or `set_clock` stored `pts` with the queue's serial it
returns that `pts`. -/
theorem C13_paused_clock_reads_pts (c : Clock) (hp : c.paused ≠ 0) :
    (∀ t, get_clock c c.serial t = c.pts) ∧
    (∀ pts serial time t, get_clock (set_clock_at c pts serial time) serial t = pts) ∧
    (∀ pts serial t0 t, get_clock (set_clock c pts serial t0) serial t = pts) := by
  refine ⟨?_, ?_, ?_⟩
  · intro t
    simp [get_clock, hp]
  · intro pts serial time t
    simp [get_clock, set_clock_at, hp]
  · intro pts serial t0 t
    simp [get_clock, set_clock, set_clock_at, hp]

/-- C14: for a clock whose serial differs from the value its `queue_serial`
pointer holds, `get_clock` returns NaN whatever `pts`, `speed`, `paused` and
the wall time are.  In particular, after the put of a flush sentinel on a
non-aborted packet queue (allocation succeeding), a clock that carried the old
serial reads NaN against the new one, until `set_clock` stores the new
serial: then it reads `pts` when paused and the drift formula otherwise. -/
theorem C14_stale_clock_reads_nan :
    (∀ (c : Clock) (queue_serial : Int) (t : ℚ), queue_serial ≠ c.serial →
      get_clock c queue_serial t = Double.nan) ∧
    (∀ (sz : Nat) (h : Heap) (q : PacketQueue) (a : Nat) (c : Clock),
      (∀ b, q.last_pkt = some b → ∃ n, h b = some n) → q.abort_request = 0 →
      c.serial = q.serial →
      ∃ h1 q1, packet_queue_put sz h q PktArg.flush_pkt (some a) = some (h1, q1, 0) ∧
        q1.serial ≠ q.serial ∧
        (∀ t, get_clock c q1.serial t = Double.nan) ∧
        (∀ pts t0 t, get_clock (set_clock c pts q1.serial t0) q1.serial t =
          if c.paused ≠ 0 then pts
          else pts - Double.val t0 + Double.val t -
            (Double.val t - Double.val t0) * (Double.val 1 - c.speed))) := by
  have hstale : ∀ (c : Clock) (queue_serial : Int) (t : ℚ), queue_serial ≠ c.serial →
      get_clock c queue_serial t = Double.nan := by
    intro c qs t hne
    simp [get_clock, hne]
  refine ⟨hstale, ?_⟩
  intro sz h q a c hlive hab hser
  obtain ⟨h1, q1, hput, hs1, _⟩ := put_private_defined sz h q PktArg.flush_pkt a hlive hab
  rw [if_pos rfl] at hs1
  have hne : q1.serial ≠ q.serial := by
    rw [hs1]
    unfold wrap32
    omega
  refine ⟨h1, q1, hput, hne, ?_, ?_⟩
  · intro t
    exact hstale c q1.serial t (by rw [hser]; exact hne)
  · intro pts t0 t
    simp [get_clock, set_clock, set_clock_at]

/-- C13 at a concrete input: the sample clock, paused at pts 5. -/
theorem C13_paused_clock_reads_pts_witness :
    (∀ t, get_clock sample_clock sample_clock.serial t = sample_clock.pts) ∧
    (∀ pts serial time t,
      get_clock (set_clock_at sample_clock pts serial time) serial t = pts) ∧
    (∀ pts serial t0 t, get_clock (set_clock sample_clock pts serial t0) serial t = pts) :=
  C13_paused_clock_reads_pts sample_clock (by decide)

/-- C14 at a concrete input: the sample clock (serial 1) against a queue whose
serial has moved to 2. -/
theorem C14_stale_clock_reads_nan_witness :
    get_clock sample_clock 2 7 = Double.nan :=
  C14_stale_clock_reads_nan.1 sample_clock 2 7 (by decide)

/-- The reading of an unpaused clock with matching serial and numeric
fields. -/
theorem get_clock_running (c : Clock) (drift lu sp t : ℚ) (hp : c.paused = 0)
    (hd : c.pts_drift = Double.val drift) (hl : c.last_updated = Double.val lu)
    (hs : c.speed = Double.val sp) :
    get_clock c c.serial t = Double.val (drift + t - (t - lu) * (1 - sp)) := by
  simp [get_clock, hp, hd, hl, hs, Double.val_add, Double.val_sub, Double.val_mul]

/-- C15: over exact arithmetic, an unpaused clock with matching serial and
numeric fields reads `pts_drift + t - (t - last_updated) * (1 - speed)` at wall
time `t`; anchored by `set_clock_at(c, pts, serial, t0)` it reads
`pts + speed * (t - t0)`.  So at speed 1 two reads `dt` apart differ by
exactly `dt`, and a read at `t0` returns `pts`. -/
theorem C15_running_clock_formula (c : Clock) (p sp t0 : ℚ) (serial : Int)
    (hp : c.paused = 0) (hs : c.speed = Double.val sp) :
    (∀ t, get_clock (set_clock_at c (Double.val p) serial (Double.val t0)) serial t =
      Double.val (p + sp * (t - t0))) ∧
    (∀ t, get_clock (set_clock_at c (Double.val p) serial (Double.val t0)) serial t =
      (set_clock_at c (Double.val p) serial (Double.val t0)).pts_drift + Double.val t -
        (Double.val t - (set_clock_at c (Double.val p) serial (Double.val t0)).last_updated) *
          (Double.val 1 - (set_clock_at c (Double.val p) serial (Double.val t0)).speed)) ∧
    (∀ (c2 : Clock) (drift lu sp2 t : ℚ), c2.paused = 0 → c2.pts_drift = Double.val drift →
      c2.last_updated = Double.val lu → c2.speed = Double.val sp2 →
      get_clock c2 c2.serial t = Double.val (drift + t - (t - lu) * (1 - sp2))) ∧
    (sp = 1 → ∀ t dt, ∃ x,
      get_clock (set_clock_at c (Double.val p) serial (Double.val t0)) serial t =
        Double.val x ∧
      get_clock (set_clock_at c (Double.val p) serial (Double.val t0)) serial (t + dt) =
        Double.val (x + dt)) ∧
    get_clock (set_clock_at c (Double.val p) serial (Double.val t0)) serial t0 =
      Double.val p := by
  have hform : ∀ t, get_clock (set_clock_at c (Double.val p) serial (Double.val t0)) serial t =
      Double.val (p + sp * (t - t0)) := by
    intro t
    simp only [get_clock, set_clock_at, hp, hs, ne_eq, not_true_eq_false, if_false,
      Double.val_add, Double.val_sub, Double.val_mul]
    congr 1
    ring
  refine ⟨hform, ?_, ?_, ?_, ?_⟩
  · intro t
    simp [get_clock, set_clock_at, hp]
  · intro c2 drift lu sp2 t h1 h2 h3 h4
    exact get_clock_running c2 drift lu sp2 t h1 h2 h3 h4
  · intro h1 t dt
    refine ⟨p + sp * (t - t0), hform t, ?_⟩
    rw [hform (t + dt), h1]
    congr 1
    ring
  · rw [hform t0]
    congr 1
    ring

/-- C15 at a concrete input: the sample clock unpaused, anchored at pts 5
and wall time 2 with speed 1. -/
theorem C15_running_clock_formula_witness :
    get_clock (set_clock_at { sample_clock with paused := 0 } (Double.val 5) 1 (Double.val 2))
      1 2 = Double.val 5 :=
  (C15_running_clock_formula { sample_clock with paused := 0 } 5 1 2 1 rfl rfl).2.2.2.2

/-- C16: `set_clock_speed(c, s)` with both of its wall-time reads at `t` leaves
the reading of the clock at `t` unchanged and leaves `serial` unchanged; the
speed becomes `s`, and from a numeric reading `x` at `t` an unpaused clock
with matching serial then reads `x + s * (u - t)` at wall time `u`. -/
theorem C16_set_clock_speed_no_jump (c : Clock) (queue_serial : Int) (s t : ℚ) :
    get_clock (set_clock_speed c queue_serial (Double.val s) t t) queue_serial t =
      get_clock c queue_serial t ∧
    (set_clock_speed c queue_serial (Double.val s) t t).serial = c.serial ∧
    (set_clock_speed c queue_serial (Double.val s) t t).paused = c.paused ∧
    (set_clock_speed c queue_serial (Double.val s) t t).speed = Double.val s ∧
    (∀ x u, c.paused = 0 → queue_serial = c.serial →
      get_clock c queue_serial t = Double.val x →
      get_clock (set_clock_speed c queue_serial (Double.val s) t t) queue_serial u =
        Double.val (x + s * (u - t))) := by
  have key : ∀ (v : Double) (u : ℚ),
      get_clock { pts := v, pts_drift := v - Double.val t, last_updated := Double.val t,
                  speed := Double.val s, serial := c.serial, paused := c.paused }
        queue_serial u =
      if queue_serial ≠ c.serial then Double.nan
      else if c.paused ≠ 0 then v
      else v - Double.val t + Double.val u -
        (Double.val u - Double.val t) * (Double.val 1 - Double.val s) := by
    intro v u
    rfl
  have hshape : set_clock_speed c queue_serial (Double.val s) t t =
      { pts := get_clock c queue_serial t,
        pts_drift := get_clock c queue_serial t - Double.val t,
        last_updated := Double.val t, speed := Double.val s, serial := c.serial,
        paused := c.paused } := rfl
  refine ⟨?_, rfl, rfl, rfl, ?_⟩
  · rw [hshape, key]
    by_cases hq : queue_serial = c.serial
    · by_cases hp : c.paused = 0
      · rw [if_neg (not_not.2 hq), if_neg (not_not.2 hp)]
        cases get_clock c queue_serial t with
        | nan => rfl
        | inf b => rfl
        | val x =>
          simp only [Double.val_add, Double.val_sub, Double.val_mul]
          congr 1
          ring
      · rw [if_neg (not_not.2 hq), if_pos hp]
    · rw [if_pos hq]
      simp [get_clock, hq]
  · intro x u hp hq hv
    rw [hshape, key, if_neg (not_not.2 hq), if_neg (not_not.2 hp), hv]
    simp only [Double.val_add, Double.val_sub, Double.val_mul]
    congr 1
    ring

/-- C16 at a concrete input: the sample clock unpaused, read at wall time 4
(reading 7), its speed set to 1/2 there; at wall time 6 it then reads 8. -/
theorem C16_set_clock_speed_no_jump_witness :
    get_clock (set_clock_speed { sample_clock with paused := 0 } 1 (Double.val (1 / 2)) 4 4)
      1 6 = Double.val (7 + 1 / 2 * (6 - 4)) :=
  (C16_set_clock_speed_no_jump { sample_clock with paused := 0 } 1 (1 / 2) 4).2.2.2.2
    7 6 rfl rfl (by simp [get_clock, sample_clock, Double.val_add, Double.val_sub,
      Double.val_mul]; norm_num)

/-! ## C17: the master clock -/

/-- C17: `get_master_sync_type` returns `AV_SYNC_VIDEO_MASTER` if `av_sync_type`
is video and `video_st` is present, `AV_SYNC_AUDIO_MASTER` if `av_sync_type` is
video and `video_st` is absent, `AV_SYNC_AUDIO_MASTER` if `av_sync_type` is
audio and `audio_st` is present, `AV_SYNC_EXTERNAL_CLOCK` if `av_sync_type` is
audio and `audio_st` is absent, and `AV_SYNC_EXTERNAL_CLOCK` otherwise.  The
result depends only on `av_sync_type`, `video_st` and `audio_st`, and
`get_master_clock` reads the clock of the type so chosen. -/
theorem C17_master_sync_type (is : VideoState) (t : ℚ) :
    (is.av_sync_type = AV_SYNC_VIDEO_MASTER → is.video_st ≠ none →
      get_master_sync_type is = AV_SYNC_VIDEO_MASTER) ∧
    (is.av_sync_type = AV_SYNC_VIDEO_MASTER → is.video_st = none →
      get_master_sync_type is = AV_SYNC_AUDIO_MASTER) ∧
    (is.av_sync_type = AV_SYNC_AUDIO_MASTER → is.audio_st ≠ none →
      get_master_sync_type is = AV_SYNC_AUDIO_MASTER) ∧
    (is.av_sync_type = AV_SYNC_AUDIO_MASTER → is.audio_st = none →
      get_master_sync_type is = AV_SYNC_EXTERNAL_CLOCK) ∧
    (is.av_sync_type ≠ AV_SYNC_VIDEO_MASTER → is.av_sync_type ≠ AV_SYNC_AUDIO_MASTER →
      get_master_sync_type is = AV_SYNC_EXTERNAL_CLOCK) ∧
    (∀ is2 : VideoState, is2.av_sync_type = is.av_sync_type → is2.video_st = is.video_st →
      is2.audio_st = is.audio_st → get_master_sync_type is2 = get_master_sync_type is) ∧
    (get_master_sync_type is = AV_SYNC_VIDEO_MASTER →
      get_master_clock is t = get_clock is.vidclk is.videoq.serial t) ∧
    (get_master_sync_type is = AV_SYNC_AUDIO_MASTER →
      get_master_clock is t = get_clock is.audclk is.audioq.serial t) ∧
    (get_master_sync_type is = AV_SYNC_EXTERNAL_CLOCK →
      get_master_clock is t = get_clock is.extclk is.extclk.serial t) := by
  refine ⟨?_, ?_, ?_, ?_, ?_, ?_, ?_, ?_, ?_⟩
  · intro h1 h2
    simp [get_master_sync_type, h1, h2]
  · intro h1 h2
    simp [get_master_sync_type, h1, h2]
  · intro h1 h2
    have h3 : ¬ (AV_SYNC_AUDIO_MASTER = AV_SYNC_VIDEO_MASTER) := by decide
    simp [get_master_sync_type, h1, h2, h3]
  · intro h1 h2
    have h3 : ¬ (AV_SYNC_AUDIO_MASTER = AV_SYNC_VIDEO_MASTER) := by decide
    simp [get_master_sync_type, h1, h2, h3]
  · intro h1 h2
    simp [get_master_sync_type, h1, h2]
  · intro is2 h1 h2 h3
    simp [get_master_sync_type, h1, h2, h3]
  · intro h
    simp [get_master_clock, h]
  · intro h
    have h3 : ¬ (AV_SYNC_AUDIO_MASTER = AV_SYNC_VIDEO_MASTER) := by decide
    simp [get_master_clock, h, h3]
  · intro h
    have h3 : ¬ (AV_SYNC_EXTERNAL_CLOCK = AV_SYNC_VIDEO_MASTER) := by decide
    have h4 : ¬ (AV_SYNC_EXTERNAL_CLOCK = AV_SYNC_AUDIO_MASTER) := by decide
    simp [get_master_clock, h, h3, h4]

/-- C17 at a concrete input: video is configured as master but no video
stream is open, so audio is the master and its clock is read. -/
theorem C17_master_sync_type_witness :
    get_master_sync_type { sample_is with av_sync_type := 1, video_st := none } =
      AV_SYNC_AUDIO_MASTER ∧
    get_master_clock { sample_is with av_sync_type := 1, video_st := none } 3 =
      get_clock sample_is.audclk sample_is.audioq.serial 3 :=
  ⟨(C17_master_sync_type { sample_is with av_sync_type := 1, video_st := none } 3).2.1
      rfl rfl,
   (C17_master_sync_type { sample_is with av_sync_type := 1, video_st := none } 3).2.2.2.2.2.2.2.1
      ((C17_master_sync_type { sample_is with av_sync_type := 1, video_st := none } 3).2.1
        rfl rfl)⟩

/-! ## C18, C19: the target delay -/

/-- The value of `compute_target_delay` when video is not the master, the
delay is a number and `diff` is a number below `max_frame_duration` in
absolute value. -/
theorem compute_target_delay_numeric (is : VideoState) (d diff mfd : ℚ) (tv tm : ℚ)
    (hm : get_master_sync_type is ≠ AV_SYNC_VIDEO_MASTER)
    (hdiff : get_clock is.vidclk is.videoq.serial tv - get_master_clock is tm = Double.val diff)
    (hmfd : is.max_frame_duration = Double.val mfd) (habs : |diff| < mfd) :
    compute_target_delay (Double.val d) is tv tm =
      Double.val
        (if diff ≤ -(max AV_SYNC_THRESHOLD_MIN (min AV_SYNC_THRESHOLD_MAX d)) then
          max 0 (d + diff)
        else if max AV_SYNC_THRESHOLD_MIN (min AV_SYNC_THRESHOLD_MAX d) ≤ diff ∧
            AV_SYNC_FRAMEDUP_THRESHOLD < d then d + diff
        else if max AV_SYNC_THRESHOLD_MIN (min AV_SYNC_THRESHOLD_MAX d) ≤ diff then 2 * d
        else d) := by
  unfold compute_target_delay
  simp only [hm, hdiff, hmfd, FFMIN_double_val, FFMAX_double_val, Double.isnan_val,
    Double.fabs_val, Double.lt_val, Double.le_val, Double.neg_val, Double.val_add,
    Double.val_mul, habs, ne_eq, not_false_eq_true, if_true, Bool.not_false, decide_True,
    Bool.and_self]
  by_cases h1 : diff ≤ -(max AV_SYNC_THRESHOLD_MIN (min AV_SYNC_THRESHOLD_MAX d))
  · simp only [h1, decide_True, if_true]
  · by_cases h2 : max AV_SYNC_THRESHOLD_MIN (min AV_SYNC_THRESHOLD_MAX d) ≤ diff
    · by_cases h3 : AV_SYNC_FRAMEDUP_THRESHOLD < d
      · simp [h1, h2, h3]
      · simp [h1, h2, h3]
    · simp [h1, h2]

theorem sync_threshold_pos (d : ℚ) :
    0 < max AV_SYNC_THRESHOLD_MIN (min AV_SYNC_THRESHOLD_MAX d) := by
  have h : (0 : ℚ) < AV_SYNC_THRESHOLD_MIN := by
    unfold AV_SYNC_THRESHOLD_MIN
    norm_num
  exact lt_of_lt_of_le h (le_max_left _ _)

/-- C18 fails as stated, for a negative input delay.  In the sample session
(audio master, video clock 1 s, audio clock 1.05 s, `diff = -0.05`, threshold
0.04) the delay -1 becomes 0, which is not `<= -1`; and with the video clock
at 1.1 s (`diff = 0.05`) the delay -1 becomes -2, which is not `>= -1`. -/
theorem C18_counterexample :
    (get_master_sync_type sample_is ≠ AV_SYNC_VIDEO_MASTER ∧
      get_clock sample_is.vidclk sample_is.videoq.serial 0 - get_master_clock sample_is 0 =
        Double.val (-1 / 20) ∧
      (-1 / 20 : ℚ) ≤ -(max AV_SYNC_THRESHOLD_MIN (min AV_SYNC_THRESHOLD_MAX (-1))) ∧
      compute_target_delay (Double.val (-1)) sample_is 0 0 = Double.val 0 ∧
      ¬ ((0 : ℚ) ≤ -1)) ∧
    (get_clock { sample_clock with pts := Double.val (11 / 10) } sample_is.videoq.serial 0 -
        get_master_clock
          { sample_is with vidclk := { sample_clock with pts := Double.val (11 / 10) } } 0 =
        Double.val (1 / 20) ∧
      max AV_SYNC_THRESHOLD_MIN (min AV_SYNC_THRESHOLD_MAX (-1)) ≤ (1 / 20 : ℚ) ∧
      compute_target_delay (Double.val (-1))
          { sample_is with vidclk := { sample_clock with pts := Double.val (11 / 10) } } 0 0 =
        Double.val (-2) ∧
      ¬ ((-2 : ℚ) ≥ -1)) := by
  have hm : get_master_sync_type sample_is ≠ AV_SYNC_VIDEO_MASTER := by decide
  have hd1 : get_clock sample_is.vidclk sample_is.videoq.serial 0 -
      get_master_clock sample_is 0 = Double.val (-1 / 20) := by
    simp [get_master_clock, get_master_sync_type, get_clock, sample_is, sample_clock,
      packet_queue_init, AV_SYNC_VIDEO_MASTER, AV_SYNC_AUDIO_MASTER, Double.val_sub]
    norm_num
  have hd2 : get_clock { sample_clock with pts := Double.val (11 / 10) }
      sample_is.videoq.serial 0 - get_master_clock
        { sample_is with vidclk := { sample_clock with pts := Double.val (11 / 10) } } 0 =
      Double.val (1 / 20) := by
    simp [get_master_clock, get_master_sync_type, get_clock, sample_is, sample_clock,
      packet_queue_init, AV_SYNC_VIDEO_MASTER, AV_SYNC_AUDIO_MASTER, Double.val_sub]
    norm_num
  have ht : max AV_SYNC_THRESHOLD_MIN (min AV_SYNC_THRESHOLD_MAX (-1 : ℚ)) =
      5764607523034235 / 144115188075855872 := by
    unfold AV_SYNC_THRESHOLD_MIN AV_SYNC_THRESHOLD_MAX
    norm_num
  refine ⟨⟨hm, hd1, ?_, ?_, by norm_num⟩, ⟨hd2, ?_, ?_, by norm_num⟩⟩
  · rw [ht]
    norm_num
  · rw [compute_target_delay_numeric sample_is (-1) (-1 / 20) 10 0 0 hm hd1 rfl (by norm_num [abs_lt]),
      ht]
    norm_num
  · rw [ht]
    norm_num
  · rw [compute_target_delay_numeric _ (-1) (1 / 20) 10 0 0 (by decide) hd2 rfl
      (by norm_num [abs_lt]), ht]
    norm_num [AV_SYNC_FRAMEDUP_THRESHOLD]

/-- C18 (amended): when video is not the sync master and
`diff = get_clock(vidclk) - get_master_clock` is a number with
`|diff| < max_frame_duration`, then for every input delay that is a number and
not negative, with `sync_threshold = max(0.04, min(0.1, delay))`: the result
is a number and not negative; if `diff <= -sync_threshold` it is `<= delay`;
and if `diff >= sync_threshold` it is `>= delay`. -/
theorem C18_correction_sign (is : VideoState) (d diff mfd : ℚ) (tv tm : ℚ)
    (hm : get_master_sync_type is ≠ AV_SYNC_VIDEO_MASTER)
    (hdiff : get_clock is.vidclk is.videoq.serial tv - get_master_clock is tm = Double.val diff)
    (hmfd : is.max_frame_duration = Double.val mfd) (habs : |diff| < mfd) (hd : 0 ≤ d) :
    ∃ r, compute_target_delay (Double.val d) is tv tm = Double.val r ∧ 0 ≤ r ∧
      (diff ≤ -(max AV_SYNC_THRESHOLD_MIN (min AV_SYNC_THRESHOLD_MAX d)) → r ≤ d) ∧
      (diff ≥ max AV_SYNC_THRESHOLD_MIN (min AV_SYNC_THRESHOLD_MAX d) → r ≥ d) := by
  have hpos := sync_threshold_pos d
  refine ⟨_, compute_target_delay_numeric is d diff mfd tv tm hm hdiff hmfd habs, ?_, ?_, ?_⟩
  · split_ifs with h1 h2 h3
    · exact le_max_left _ _
    · linarith [h2.1]
    · linarith
    · exact hd
  · intro h1
    rw [if_pos h1]
    apply max_le hd
    linarith
  · intro h2
    have h1 : ¬ diff ≤ -(max AV_SYNC_THRESHOLD_MIN (min AV_SYNC_THRESHOLD_MAX d)) := by
      intro h
      linarith
    rw [if_neg h1]
    split_ifs with h3
    · linarith [h3.1]
    · linarith

/-- C18 (amended) at a concrete input: the sample session with delay 0.04;
`diff = -0.05`, the result is 0. -/
theorem C18_correction_sign_witness :
    ∃ r, compute_target_delay (Double.val (1 / 25)) sample_is 0 0 = Double.val r ∧ 0 ≤ r ∧
      ((-1 / 20 : ℚ) ≤ -(max AV_SYNC_THRESHOLD_MIN (min AV_SYNC_THRESHOLD_MAX (1 / 25))) →
        r ≤ 1 / 25) ∧
      ((-1 / 20 : ℚ) ≥ max AV_SYNC_THRESHOLD_MIN (min AV_SYNC_THRESHOLD_MAX (1 / 25)) →
        r ≥ 1 / 25) :=
  C18_correction_sign sample_is (1 / 25) (-1 / 20) 10 0 0 (by decide)
    (by
      simp [get_master_clock, get_master_sync_type, get_clock, sample_is, sample_clock,
        packet_queue_init, AV_SYNC_VIDEO_MASTER, AV_SYNC_AUDIO_MASTER, Double.val_sub]
      norm_num)
    rfl (by norm_num [abs_lt]) (by norm_num)

theorem av_clip_range (a amin amax : Int) (h : amin ≤ amax) :
    amin ≤ av_clip a amin amax ∧ av_clip a amin amax ≤ amax := by
  unfold av_clip
  split_ifs <;> omega

theorem min_nb_samples_eq (nb : Int) (h0 : 0 ≤ nb) (hov : nb * 110 ≤ INT_MAX) :
    c_div (wrap32 (nb * wrap32 (100 - SAMPLE_CORRECTION_PERCENT_MAX))) 100 = nb * 90 / 100 := by
  unfold INT_MAX at hov
  have h1 : wrap32 (100 - SAMPLE_CORRECTION_PERCENT_MAX) = 90 := by decide
  rw [h1, wrap32_of_range _ (by omega) (by omega)]
  exact Int.tdiv_eq_ediv (by omega) (by decide)

theorem max_nb_samples_eq (nb : Int) (h0 : 0 ≤ nb) (hov : nb * 110 ≤ INT_MAX) :
    c_div (wrap32 (nb * wrap32 (100 + SAMPLE_CORRECTION_PERCENT_MAX))) 100 =
      nb * 110 / 100 := by
  unfold INT_MAX at hov
  have h1 : wrap32 (100 + SAMPLE_CORRECTION_PERCENT_MAX) = 110 := by decide
  rw [h1, wrap32_of_range _ (by omega) (by omega)]
  exact Int.tdiv_eq_ediv (by omega) (by decide)

/-- C20: for every `nb_samples >= 0` with `nb_samples * 110` inside the `int`
range, and every clock and averaging state, `synchronize_audio` returns a
value `w` with `nb_samples * 90 / 100 <= w <= nb_samples * 110 / 100` (integer
division); and when audio is the sync master it returns exactly `nb_samples`
and changes no state. -/
theorem C20_sample_correction_bounded (is : VideoState) (nb : Int) (ta tm : ℚ)
    (h0 : 0 ≤ nb) (hov : nb * 110 ≤ INT_MAX) :
    nb * 90 / 100 ≤ (synchronize_audio is nb ta tm).2 ∧
    (synchronize_audio is nb ta tm).2 ≤ nb * 110 / 100 ∧
    (get_master_sync_type is = AV_SYNC_AUDIO_MASTER →
      synchronize_audio is nb ta tm = (is, nb)) := by
  have hmin := min_nb_samples_eq nb h0 hov
  have hmax := max_nb_samples_eq nb h0 hov
  have hle : nb * 90 / 100 ≤ nb * 110 / 100 := by omega
  have hnb : nb * 90 / 100 ≤ nb ∧ nb ≤ nb * 110 / 100 := by omega
  have hboth : nb * 90 / 100 ≤ (synchronize_audio is nb ta tm).2 ∧
      (synchronize_audio is nb ta tm).2 ≤ nb * 110 / 100 := by
    unfold synchronize_audio
    simp only [hmin, hmax]
    split_ifs
    · exact hnb
    · exact av_clip_range _ _ _ hle
    · exact hnb
    · exact hnb
    · exact hnb
  refine ⟨hboth.1, hboth.2, ?_⟩
  intro hm
  simp [synchronize_audio, hm]

/-- C20 at a concrete input: the sample session with the external clock as
master and a frame of 1024 samples. -/
theorem C20_sample_correction_bounded_witness :
    (1024 : Int) * 90 / 100 ≤
      (synchronize_audio { sample_is with av_sync_type := 2 } 1024 0 0).2 ∧
    (synchronize_audio { sample_is with av_sync_type := 2 } 1024 0 0).2 ≤
      (1024 : Int) * 110 / 100 ∧
    (get_master_sync_type { sample_is with av_sync_type := 2 } = AV_SYNC_AUDIO_MASTER →
      synchronize_audio { sample_is with av_sync_type := 2 } 1024 0 0 =
        ({ sample_is with av_sync_type := 2 }, 1024)) :=
  C20_sample_correction_bounded { sample_is with av_sync_type := 2 } 1024 0 0
    (by decide) (by decide)

/-! ## Decoder: serials -/

theorem get_serial_keep (sz : Nat) (h : Heap) (q : PacketQueue) (pkt : AVPacket) (block : Int)
    (serial : Option Int) (out : GetOut)
    (hg : packet_queue_get sz h q pkt block serial = Res.ok out) : out.q.serial = q.serial := by
  unfold packet_queue_get at hg
  by_cases hab : q.abort_request ≠ 0
  · rw [if_pos hab] at hg; cases hg; rfl
  · rw [if_neg hab] at hg
    cases hfp : q.first_pkt with
    | none =>
      rw [hfp] at hg
      simp only at hg
      by_cases hb : block = 0
      · rw [if_pos hb] at hg; cases hg; rfl
      · rw [if_neg hb] at hg; cases hg
    | some a =>
      rw [hfp] at hg
      simp only at hg
      cases hh : h a with
      | none => rw [hh] at hg; cases hg
      | some n => rw [hh] at hg; cases hg; rfl

theorem put_serial_mono (sz : Nat) (h : Heap) (q : PacketQueue) (pkt : PktArg)
    (m : Option Nat) (h1 : Heap) (q1 : PacketQueue) (r : Int)
    (hg : pkt = PktArg.flush_pkt → q.serial < INT_MAX)
    (hp : packet_queue_put sz h q pkt m = some (h1, q1, r)) : q.serial ≤ q1.serial := by
  have hmono : q.serial ≤ (if pkt = PktArg.flush_pkt then wrap32 (q.serial + 1) else q.serial) := by
    split_ifs with hf
    · have hlt := hg hf
      unfold INT_MAX at hlt
      by_cases hlo : -2147483648 ≤ q.serial
      · rw [wrap32_of_range _ (by omega) (by omega)]; omega
      · have := (wrap32_range (q.serial + 1)).1
        omega
    · exact le_refl _
  unfold packet_queue_put packet_queue_put_private at hp
  by_cases hab : q.abort_request ≠ 0
  · rw [if_pos hab] at hp; cases hp; exact le_refl _
  · rw [if_neg hab] at hp
    cases m with
    | none => cases hp; exact le_refl _
    | some a =>
      simp only at hp
      cases hl : q.last_pkt with
      | none => rw [hl] at hp; cases hp; exact hmono
      | some last =>
        rw [hl] at hp
        simp only at hp
        split at hp
        · cases hp
        · cases hp; exact hmono

theorem flush_serial_keep (fuel : Nat) (h : Heap) (q : PacketQueue) (h1 : Heap)
    (q1 : PacketQueue) (hf : packet_queue_flush fuel h q = some (h1, q1)) :
    q1.serial = q.serial := by
  unfold packet_queue_flush at hf
  split at hf
  · cases hf
  · cases hf; rfl

theorem decoder_receive_keep {C S : Type} (cx : Codec C S) (ro : Int) (st : DecodeState C S) :
    (decoder_receive cx ro st).queue = st.queue ∧
    (decoder_receive cx ro st).heap = st.heap ∧
    (decoder_receive cx ro st).d.pkt_serial = st.d.pkt_serial := by
  unfold decoder_receive
  split
  · exact ⟨rfl, rfl, rfl⟩
  · simp only
    split_ifs <;> exact ⟨rfl, rfl, rfl⟩
  · exact ⟨rfl, rfl, rfl⟩

theorem decoder_packet_keep {C S : Type} (cx : Codec C S) (st : DecodeState C S)
    (pkt : AVPacket) :
    (decoder_packet cx st pkt).queue = st.queue ∧
    (decoder_packet cx st pkt).heap = st.heap ∧
    (decoder_packet cx st pkt).d.pkt_serial = st.d.pkt_serial := by
  unfold decoder_packet
  simp only
  split_ifs <;> exact ⟨rfl, rfl, rfl⟩

/-- A run of the loops leaves the queue serial as it was; a frame it produces
carries that serial; and it is inside the receive loop only while the two
serials agree. -/
theorem decode_loop_serial {C S : Type} (cx : Codec C S) (sz : Nat) (ro : Int) :
    ∀ (fuel : Nat) (pc : Loc) (st : DecodeState C S),
      (pc = Loc.receive → st.queue.serial = st.d.pkt_serial) →
      ∀ (m1 : Option Loc) (st1 : DecodeState C S) (out : List Int),
        (decode_loop cx sz ro fuel pc st).next = some (m1, st1, out) →
        st1.queue.serial = st.queue.serial ∧ (∀ x ∈ out, x = st1.queue.serial) ∧
        (m1 = some Loc.receive → st1.queue.serial = st1.d.pkt_serial) := by
  intro fuel
  induction fuel with
  | zero =>
    intro pc st hpc m1 st1 out hn
    simp only [decode_loop, DecodeResult.next, Option.some.injEq, Prod.mk.injEq] at hn
    obtain ⟨rfl, rfl, rfl⟩ := hn
    refine ⟨rfl, by simp, ?_⟩
    intro hm
    exact hpc (Option.some.inj hm)
  | succ n ih =>
    intro pc st hpc m1 st1 out hn
    cases pc with
    | top =>
      simp only [decode_loop] at hn
      split_ifs at hn with heq
      · exact ih Loc.receive st (fun _ => heq) m1 st1 out hn
      · exact ih Loc.fetch st (fun hc => by cases hc) m1 st1 out hn
    | receive =>
      have hs := hpc rfl
      obtain ⟨hq, -, hd⟩ := decoder_receive_keep cx ro st
      simp only [decode_loop] at hn
      split_ifs at hn with hab heof hge hne
      · simp only [DecodeResult.next, Option.some.injEq, Prod.mk.injEq] at hn
        obtain ⟨rfl, rfl, rfl⟩ := hn
        refine ⟨rfl, by simp, fun hc => by cases hc⟩
      · simp only [DecodeResult.next, Option.some.injEq, Prod.mk.injEq] at hn
        obtain ⟨rfl, rfl, rfl⟩ := hn
        refine ⟨by simp [hq], by simp, fun hc => by cases hc⟩
      · simp only [DecodeResult.next, Option.some.injEq, Prod.mk.injEq, if_true] at hn
        obtain ⟨rfl, rfl, rfl⟩ := hn
        refine ⟨by rw [hq], ?_, fun hc => by cases hc⟩
        intro x hx
        simp only [List.mem_singleton] at hx
        rw [hx, hd, hq, hs]
      · have := ih Loc.receive (decoder_receive cx ro st) (fun _ => by rw [hq, hd, hs])
          m1 st1 out hn
        rw [hq] at this
        exact this
      · have := ih Loc.fetch (decoder_receive cx ro st) (fun hc => by cases hc) m1 st1 out hn
        rw [hq] at this
        exact this
    | fetch =>
      simp only [decode_loop] at hn
      split_ifs at hn with hpend heq
      · have := ih Loc.top _ (fun hc => by cases hc) m1 st1 out hn
        rw [(decoder_packet_keep cx _ _).1] at this
        exact this
      · have := ih Loc.fetch _ (fun hc => by cases hc) m1 st1 out hn
        exact this
      · split at hn
        · simp [DecodeResult.next] at hn
        · simp only [DecodeResult.next, Option.some.injEq, Prod.mk.injEq] at hn
          obtain ⟨rfl, rfl, rfl⟩ := hn
          refine ⟨rfl, by simp, fun hc => by cases hc⟩
        · rename_i o hget
          have hser := get_serial_keep _ _ _ _ _ _ _ hget
          split_ifs at hn with hret heq
          · simp only [DecodeResult.next, Option.some.injEq, Prod.mk.injEq] at hn
            obtain ⟨rfl, rfl, rfl⟩ := hn
            refine ⟨hser, ?_, fun hc => by cases hc⟩
            intro x hx
            simp at hx
          · have := ih Loc.top _ (fun hc => by cases hc) m1 st1 out hn
            rw [(decoder_packet_keep cx _ _).1] at this
            exact ⟨this.1.trans hser, this.2⟩
          · have := ih Loc.fetch _ (fun hc => by cases hc) m1 st1 out hn
            exact ⟨this.1.trans hser, this.2⟩

/-- Along a history the produced serials never decrease, they lie between the
first and the present queue serial, and the queue serial never decreases. -/
theorem Session_serials {C S : Type} (cx : Codec C S) (sz : Nat) (ro : Int)
    (st0 : DecodeState C S) (m0 m : Option Loc) (st : DecodeState C S) (l : List Int)
    (hs : Session cx sz ro st0 m0 m st l) :
    List.Pairwise (fun a b => a ≤ b) l ∧
    (∀ x ∈ l, st0.queue.serial ≤ x ∧ x ≤ st.queue.serial) ∧
    st0.queue.serial ≤ st.queue.serial ∧
    (m = some Loc.receive → st.queue.serial = st.d.pkt_serial) := by
  have step : ∀ (l : List Int) (out : List Int) (c c1 : Int),
      List.Pairwise (fun a b => a ≤ b) l → (∀ x ∈ l, st0.queue.serial ≤ x ∧ x ≤ c) →
      st0.queue.serial ≤ c → c1 = c → (∀ x ∈ out, x = c1) →
      List.Pairwise (fun a b => a ≤ b) (l ++ out) ∧
      (∀ x ∈ l ++ out, st0.queue.serial ≤ x ∧ x ≤ c1) ∧ st0.queue.serial ≤ c1 := by
    intro l out c c1 hp hb h0 hc ho
    subst hc
    refine ⟨?_, ?_, h0⟩
    · rw [List.pairwise_append]
      refine ⟨hp, ?_, ?_⟩
      · apply List.pairwise_of_forall_mem_list
        intro x hx y hy
        rw [ho x hx, ho y hy]
      · intro x hx y hy
        rw [ho y hy]
        exact (hb x hx).2
    · intro x hx
      rcases List.mem_append.1 hx with hx | hx
      · exact hb x hx
      · rw [ho x hx]; exact ⟨h0, le_refl _⟩
  induction hs with
  | start h => exact ⟨List.Pairwise.nil, by simp, le_refl _, h⟩
  | put pkt av hs hm hg hp ih =>
    have hmono := put_serial_mono _ _ _ _ _ _ _ _ hg hp
    refine ⟨ih.1, ?_, le_trans ih.2.2.1 hmono, fun hc => absurd hc hm⟩
    intro x hx
    exact ⟨(ih.2.1 x hx).1, le_trans (ih.2.1 x hx).2 hmono⟩
  | flush fuel hs hm hf ih =>
    have hk := flush_serial_keep _ _ _ _ _ hf
    refine ⟨ih.1, ?_, ?_, fun hc => absurd hc hm⟩
    · intro x hx
      show _ ∧ x ≤ _
      rw [hk]; exact ih.2.1 x hx
    · show _ ≤ _
      rw [hk]; exact ih.2.2.1
  | call fuel frame sub hs hn ih =>
    have hl := decode_loop_serial cx sz ro fuel Loc.top _ (fun hc => by cases hc) _ _ _ hn
    have := step _ _ _ _ ih.1 ih.2.1 ih.2.2.1 hl.1 hl.2.1
    exact ⟨this.1, this.2.1, this.2.2, hl.2.2⟩
  | resume fuel hs hn ih =>
    rename_i pc st l m1 st1 out
    have hl := decode_loop_serial cx sz ro fuel pc st
      (fun hc => ih.2.2.2 (by rw [hc])) _ _ _ hn
    have := step _ _ _ _ ih.1 ih.2.1 ih.2.2.1 hl.1 hl.2.1
    exact ⟨this.1, this.2.1, this.2.2, hl.2.2⟩

/-- C11: over any history of one decoder and its packet queue (the codec an
arbitrary oracle; puts and flushes between calls or while a call sleeps in
`packet_queue_get`; no sentinel put at serial `INT_MAX`) the serials of the
produced frames never decrease and lie between the first and the present
queue serial; a run that returns 1 leaves `d->pkt_serial` equal to the queue
serial, which it does not change; and a packet whose serial differs from the
queue serial, dequeued or pending, is dropped with the decoder otherwise
untouched, the loop going on to the next packet. -/
theorem C11_frame_serials_monotone {C S : Type} (cx : Codec C S) (sz : Nat) (ro : Int)
    (st0 : DecodeState C S) (m0 m : Option Loc) (st : DecodeState C S) (l : List Int)
    (hs : Session cx sz ro st0 m0 m st l) :
    List.Pairwise (fun a b => a ≤ b) l ∧
    (∀ x ∈ l, st0.queue.serial ≤ x ∧ x ≤ st.queue.serial) ∧
    (∀ (fuel : Nat) (pc : Loc) (stx st1 : DecodeState C S),
      (pc = Loc.receive → stx.queue.serial = stx.d.pkt_serial) →
      decode_loop cx sz ro fuel pc stx = DecodeResult.returned 1 st1 →
      st1.d.pkt_serial = st1.queue.serial ∧ st1.queue.serial = stx.queue.serial) ∧
    (∀ (n : Nat) (stx : DecodeState C S) (out : GetOut), stx.d.packet_pending = 0 →
      packet_queue_get sz stx.heap stx.queue blank_pkt 1 (some stx.d.pkt_serial) = Res.ok out →
      0 ≤ out.ret → out.q.serial ≠ out.serial.getD stx.d.pkt_serial →
      decode_loop cx sz ro (n + 1) Loc.fetch stx =
        decode_loop cx sz ro n Loc.fetch
          { stx with heap := out.heap, queue := out.q,
                     d := { stx.d with pkt_serial := out.serial.getD stx.d.pkt_serial } }) ∧
    (∀ (n : Nat) (stx : DecodeState C S), stx.d.packet_pending ≠ 0 →
      stx.queue.serial ≠ stx.d.pkt_serial →
      decode_loop cx sz ro (n + 1) Loc.fetch stx =
        decode_loop cx sz ro n Loc.fetch
          { stx with d := { stx.d with pkt := blank_pkt, packet_pending := 0 } }) := by
  have hser := Session_serials cx sz ro st0 m0 m st l hs
  refine ⟨hser.1, hser.2.1, ?_, ?_, ?_⟩
  · intro fuel pc stx st1 hpc hr
    have := decode_loop_serial cx sz ro fuel pc stx hpc none st1 [st1.d.pkt_serial]
      (by rw [hr]; simp [DecodeResult.next])
    exact ⟨this.2.1 _ (by simp), this.1⟩
  · intro n stx out hpend hget hret hne
    simp only [decode_loop, hpend, ne_eq, not_true_eq_false, if_false, hget]
    rw [if_neg (not_lt.2 hret), if_neg hne]
  · intro n stx hpend hne
    simp only [decode_loop]
    rw [if_pos hpend, if_neg hne]

/-- The witness of C11: a session of two sentinels, two packets and two calls
that produces frames of serials 1 and 2. -/
theorem C11_frame_serials_monotone_witness :
    ∃ st : DecodeState Nat Unit,
      Session sample_codec 104 (-1) sample_decode_state none none st [1, 2] ∧
      st.queue.serial = 2 ∧
      List.Pairwise (fun a b => a ≤ b) [(1 : Int), 2] ∧
      (∀ x ∈ [(1 : Int), 2], (0 : Int) ≤ x ∧ x ≤ 2) :=
  have s0 : Session sample_codec 104 (-1) sample_decode_state none none sample_decode_state [] :=
    Session.start (fun hc => by cases hc)
  have s1 := Session.put PktArg.flush_pkt (some 10) s0 (by decide) (fun _ => by decide) rfl
  have s2 := Session.put (PktArg.packet sample_packet) (some 11) s1 (by decide)
    (fun hc => by cases hc) rfl
  have s3 := Session.call 7 sample_avframe () s2 rfl
  have s4 := Session.put PktArg.flush_pkt (some 12) s3 (by decide) (fun _ => by decide) rfl
  have s5 := Session.put (PktArg.packet sample_packet) (some 13) s4 (by decide)
    (fun hc => by cases hc) rfl
  have s6 := Session.call 7 sample_avframe () s5 rfl
  have h := C11_frame_serials_monotone _ _ _ _ _ _ _ _ s6
  ⟨_, s6, rfl, h.1, h.2.1⟩

/-! ## C12: the flush sentinel -/

theorem get_head (sz : Nat) (h : Heap) (q : PacketQueue) (pkt : AVPacket) (block x : Int)
    (a : Nat) (n : MyAVPacketList) (hab : q.abort_request = 0)
    (hfirst : q.first_pkt = some a) (hnode : h a = some n) :
    packet_queue_get sz h q pkt block (some x) =
      Res.ok { heap := h.free a,
               q := { q with
                      first_pkt := n.next
                      last_pkt := if n.next = none then none else q.last_pkt
                      nb_packets := wrap32 (q.nb_packets - 1)
                      size := size_sub sz q.size n.pkt.size
                      duration := wrap64 (q.duration - n.pkt.duration) },
               pkt := n.pkt, serial := some n.serial, ret := 1 } := by
  simp [packet_queue_get, hab, hfirst, hnode]

/-- With no packet pending, a pass through the fetch loop that meets the
sentinel of the present queue serial at the head takes that serial, flushes
the codec, clears `finished` and restarts the timestamp extrapolation. -/
theorem fetch_sentinel {C S : Type} (cx : Codec C S) (sz : Nat) (ro : Int)
    (st : DecodeState C S) (a : Nat) (n : MyAVPacketList)
    (hpend : st.d.packet_pending = 0) (hab : st.queue.abort_request = 0)
    (hfirst : st.queue.first_pkt = some a) (hnode : st.heap a = some n)
    (hsent : n.pkt.data = DataPtr.flush_pkt) (htag : n.serial = st.queue.serial) :
    ∃ st1 : DecodeState C S,
      (∀ fuel, decode_loop cx sz ro (fuel + 1) Loc.fetch st =
        decode_loop cx sz ro fuel Loc.top st1) ∧
      st1.d.pkt_serial = st.queue.serial ∧
      st1.d.avctx = cx.avcodec_flush_buffers st.d.avctx ∧
      st1.d.finished = 0 ∧
      st1.d.next_pts = st.d.start_pts ∧ st1.d.next_pts_tb = st.d.start_pts_tb ∧
      st1.d.packet_pending = 0 ∧
      st1.queue.serial = st.queue.serial ∧ st1.queue.first_pkt = n.next ∧
      st1.heap = st.heap.free a := by
  refine ⟨decoder_packet cx
    { st with heap := st.heap.free a,
              queue := { st.queue with
                         first_pkt := n.next
                         last_pkt := if n.next = none then none else st.queue.last_pkt
                         nb_packets := wrap32 (st.queue.nb_packets - 1)
                         size := size_sub sz st.queue.size n.pkt.size
                         duration := wrap64 (st.queue.duration - n.pkt.duration) },
              d := { st.d with pkt_serial := n.serial } } n.pkt, ?_, ?_⟩
  · intro fuel
    simp only [decode_loop]
    rw [if_neg (by simp [hpend]), get_head sz _ _ _ _ _ a n hab hfirst hnode]
    simp [htag]
  · simp [decoder_packet, hsent, htag, hpend]

/-- C12: a decoder with `pkt_serial = s` that is about to fetch, with the
flush sentinel tagged `s + 1` at the head of its queue, whose serial is
`s + 1`: after one pass through the fetch loop (two if a packet was pending,
which is dropped) it is at the head of the outer loop with `pkt_serial = s + 1`,
the codec flushed, `finished = 0`, `next_pts` and `next_pts_tb` reset to
`start_pts` and `start_pts_tb`, and `packet_pending = 0`; from the head of the
outer loop it gets there in one passage more; and every frame produced from
then on, in this call or a later one, carries a serial above `s`. -/
theorem C12_sentinel_resets_decoder {C S : Type} (cx : Codec C S) (sz : Nat) (ro : Int)
    (st : DecodeState C S) (s : Int) (a : Nat) (n : MyAVPacketList)
    (hd : st.d.pkt_serial = s) (hq : st.queue.serial = s + 1)
    (hab : st.queue.abort_request = 0)
    (hfirst : st.queue.first_pkt = some a) (hnode : st.heap a = some n)
    (hsent : n.pkt.data = DataPtr.flush_pkt) (htag : n.serial = s + 1) :
    ∃ (k : Nat) (st1 : DecodeState C S),
      k = (if st.d.packet_pending ≠ 0 then 2 else 1) ∧
      (∀ fuel, decode_loop cx sz ro (fuel + k) Loc.fetch st =
        decode_loop cx sz ro fuel Loc.top st1) ∧
      (∀ fuel, decode_loop cx sz ro (fuel + k + 1) Loc.top st =
        decode_loop cx sz ro fuel Loc.top st1) ∧
      st1.d.pkt_serial = s + 1 ∧
      st1.d.avctx = cx.avcodec_flush_buffers st.d.avctx ∧
      st1.d.finished = 0 ∧
      st1.d.next_pts = st.d.start_pts ∧ st1.d.next_pts_tb = st.d.start_pts_tb ∧
      st1.d.packet_pending = 0 ∧
      st1.queue.serial = s + 1 ∧ st1.queue.first_pkt = n.next ∧
      (∀ (m : Option Loc) (st2 : DecodeState C S) (l : List Int),
        Session cx sz ro st1 (some Loc.top) m st2 l → ∀ x ∈ l, s < x) := by
  have hne : st.queue.serial ≠ st.d.pkt_serial := by rw [hq, hd]; omega
  have later : ∀ st1 : DecodeState C S, st1.queue.serial = s + 1 →
      ∀ (m : Option Loc) (st2 : DecodeState C S) (l : List Int),
        Session cx sz ro st1 (some Loc.top) m st2 l → ∀ x ∈ l, s < x := by
    intro st1 h1 m st2 l hs x hx
    have := ((Session_serials cx sz ro st1 _ m st2 l hs).2.1 x hx).1
    omega
  have top_step : ∀ k : Nat, decode_loop cx sz ro (k + 1) Loc.top st =
      decode_loop cx sz ro k Loc.fetch st := by
    intro k
    simp only [decode_loop]
    rw [if_neg hne]
  by_cases hpend : st.d.packet_pending = 0
  · obtain ⟨st1, hrun, h1, h2, h3, h4, h5, h6, h7, h8, -⟩ :=
      fetch_sentinel cx sz ro st a n hpend hab hfirst hnode hsent (by rw [htag, hq])
    refine ⟨1, st1, by simp [hpend], hrun, ?_, by rw [h1, hq], h2, h3, h4, h5, h6,
      by rw [h7, hq], h8, later st1 (by rw [h7, hq])⟩
    intro fuel
    rw [top_step, hrun]
  · obtain ⟨st1, hrun, h1, h2, h3, h4, h5, h6, h7, h8, -⟩ :=
      fetch_sentinel cx sz ro
        { st with d := { st.d with pkt := blank_pkt, packet_pending := 0 } } a n rfl hab hfirst
        hnode hsent (by rw [htag]; exact hq.symm)
    have hdrop : ∀ k : Nat, decode_loop cx sz ro (k + 1) Loc.fetch st =
        decode_loop cx sz ro k Loc.fetch
          { st with d := { st.d with pkt := blank_pkt, packet_pending := 0 } } := by
      intro k
      simp only [decode_loop]
      rw [if_pos hpend, if_neg hne]
    refine ⟨2, st1, by simp [hpend], ?_, ?_, by rw [h1]; exact hq, h2, h3, h4, h5, h6,
      by rw [h7]; exact hq, h8, later st1 (by rw [h7]; exact hq)⟩
    · intro fuel
      rw [show fuel + 2 = (fuel + 1) + 1 from rfl, hdrop, hrun]
    · intro fuel
      rw [top_step, show fuel + 2 = (fuel + 1) + 1 from rfl, hdrop, hrun]

/-- The witness of C12: the sample decoder at serial 4, a packet pending, and
the sentinel that took the queue serial to 5. -/
theorem C12_sentinel_resets_decoder_witness :
    ∃ (k : Nat) (st1 : DecodeState Nat Unit),
      k = (if sample_sentinel_state.d.packet_pending ≠ 0 then 2 else 1) ∧
      (∀ fuel, decode_loop sample_codec 104 (-1) (fuel + k) Loc.fetch sample_sentinel_state =
        decode_loop sample_codec 104 (-1) fuel Loc.top st1) ∧
      (∀ fuel, decode_loop sample_codec 104 (-1) (fuel + k + 1) Loc.top sample_sentinel_state =
        decode_loop sample_codec 104 (-1) fuel Loc.top st1) ∧
      st1.d.pkt_serial = 4 + 1 ∧
      st1.d.avctx = sample_codec.avcodec_flush_buffers sample_sentinel_state.d.avctx ∧
      st1.d.finished = 0 ∧
      st1.d.next_pts = sample_sentinel_state.d.start_pts ∧
      st1.d.next_pts_tb = sample_sentinel_state.d.start_pts_tb ∧
      st1.d.packet_pending = 0 ∧
      st1.queue.serial = 4 + 1 ∧
      st1.queue.first_pkt = (MyAVPacketList.mk flush_pkt none 5).next ∧
      (∀ (m : Option Loc) (st2 : DecodeState Nat Unit) (l : List Int),
        Session sample_codec 104 (-1) st1 (some Loc.top) m st2 l → ∀ x ∈ l, 4 < x) :=
  C12_sentinel_resets_decoder sample_codec 104 (-1) sample_sentinel_state 4 10
    (MyAVPacketList.mk flush_pkt none 5) rfl rfl rfl rfl rfl rfl rfl

/-! ## C30: compute_mod -/

/-- What `compute_mod(a, b)` returns for `b > 0` (both in the range of `int`):
a value congruent to `a` modulo `b` that lies in `0 .. b - 1`, except that it
is `b` itself when `a` is a negative multiple of `b`. -/
theorem compute_mod_spec (a b : Int) (hb : 0 < b) (hb1 : b ≤ INT_MAX)
    (ha0 : -2147483648 ≤ a) (ha1 : a ≤ INT_MAX) :
    ∃ r, compute_mod a b = some r ∧ (r - a) % b = 0 ∧
      (a < 0 ∧ a % b = 0 → r = b) ∧ (¬ (a < 0 ∧ a % b = 0) → 0 ≤ r ∧ r < b) := by
  unfold INT_MAX at hb1 ha1
  have hc : c_rem a b = some (Int.tmod a b) := by
    unfold c_rem
    rw [if_neg]
    rintro (h | ⟨_, h⟩) <;> omega
  have hdiv : a % b = 0 ↔ Int.tmod a b = 0 := by
    constructor
    · intro h
      exact Int.tmod_eq_zero_of_dvd (Int.dvd_of_emod_eq_zero h)
    · intro h
      exact Int.emod_eq_zero_of_dvd (Int.dvd_of_tmod_eq_zero h)
  have hsum := Int.tmod_add_tdiv a b
  by_cases hneg : a < 0
  · have ht : Int.tmod a b = -((-a) % b) := by
      have h1 : Int.tmod (-a) b = -(Int.tmod a b) := by
        rw [Int.tmod_def, Int.tmod_def, Int.neg_tdiv]
        ring
      rw [← Int.tmod_eq_emod (by omega : 0 ≤ -a) (by omega : 0 ≤ b), h1, neg_neg]
    have hm0 : 0 ≤ (-a) % b := Int.emod_nonneg _ (by omega)
    have hm1 : (-a) % b < b := Int.emod_lt_of_pos _ hb
    have hw : wrap32 (Int.tmod a b + b) = Int.tmod a b + b :=
      wrap32_of_range _ (by omega) (by omega)
    refine ⟨Int.tmod a b + b, ?_, ?_, ?_, ?_⟩
    · simp [compute_mod, hc, hneg, hw]
    · have : Int.tmod a b + b - a = b * (1 - a.tdiv b) := by linarith
      rw [this]
      exact Int.mul_emod_right _ _
    · rintro ⟨_, hz⟩
      rw [hdiv.1 hz]
      simp
    · intro hn
      have hz : Int.tmod a b ≠ 0 := fun h => hn ⟨hneg, hdiv.2 h⟩
      omega
  · have ht : Int.tmod a b = a % b := Int.tmod_eq_emod (by omega) (by omega)
    refine ⟨a % b, ?_, ?_, ?_, ?_⟩
    · simp [compute_mod, hc, hneg, ht]
    · have : a % b - a = b * (-(a / b)) := by
        have := Int.emod_add_ediv a b
        linarith
      rw [this]
      exact Int.mul_emod_right _ _
    · rintro ⟨h, _⟩
      exact absurd h hneg
    · intro _
      exact ⟨Int.emod_nonneg _ (by omega), Int.emod_lt_of_pos _ hb⟩

/-- C30 does not hold of the code: for a negative multiple of `b` the function
`compute_mod` returns `b`, which is not below `b`.  So
`compute_mod(-4, 4)` is 4, and with `sample_array_index = 0`, `delay = 262144`
and two channels the start index `i_start` is `SAMPLE_ARRAY_SIZE`, one past
the last index of `sample_array`. -/
theorem C30_compute_mod_negative_multiple :
    compute_mod (-4) 4 = some 4 ∧ ¬ ((4 : Int) < 4) ∧
    compute_mod (-SAMPLE_ARRAY_SIZE) SAMPLE_ARRAY_SIZE = some SAMPLE_ARRAY_SIZE ∧
    i_start 0 262144 2 = some SAMPLE_ARRAY_SIZE ∧
    ¬ (SAMPLE_ARRAY_SIZE < SAMPLE_ARRAY_SIZE) := by
  decide

/-! ## C29: the loop count -/

theorem loop_test_zero : loop_test 0 = (true, 0) := by decide

theorem loop_test_one : loop_test 1 = (false, 1) := by decide

theorem loop_test_ge_two (n : Int) (h2 : 2 ≤ n) (hmax : n ≤ INT_MAX) :
    loop_test n = (true, n - 1) := by
  unfold INT_MAX at hmax
  have hw : wrap32 (n - 1) = n - 1 := wrap32_of_range _ (by omega) (by omega)
  unfold loop_test
  rw [if_pos (by omega), if_neg (by omega), hw]
  simp
  omega

theorem loop_checks_count : ∀ (k : Nat) (n : Int), 1 ≤ n → n ≤ INT_MAX →
    loop_checks k n = (min k (n - 1).toNat, max 1 (n - k)) := by
  intro k
  induction k with
  | zero =>
    intro n h1 _
    simp only [loop_checks, Prod.mk.injEq]
    constructor <;> omega
  | succ k ih =>
    intro n h1 hmax
    by_cases hn : n = 1
    · subst hn
      simp only [loop_checks, loop_test_one, ih 1 (le_refl _) hmax, Prod.mk.injEq]
      constructor
      · simp
      · push_cast
        omega
    · have h2 : 2 ≤ n := by omega
      have hm1 : n - 1 ≤ INT_MAX := by unfold INT_MAX at *; omega
      simp only [loop_checks, loop_test_ge_two n h2 hmax, ih (n - 1) (by omega) hm1,
        Prod.mk.injEq, if_true]
      constructor
      · omega
      · push_cast
        omega

theorem loop_checks_zero : ∀ k : Nat, loop_checks k 0 = (k, 0) := by
  intro k
  induction k with
  | zero => rfl
  | succ k ih =>
    simp only [loop_checks, loop_test_zero, ih, if_true, Prod.mk.injEq]
    constructor
    · omega
    · trivial

/-- C29: at an end-of-playback check (unpaused, every open audio or video
decoder finished for the serial of its queue and its frame queue drained) the
block calls `stream_seek` for the start position exactly when the test
`loop != 1 && (!loop || --loop)` holds: with `loop = 0` always, `loop` staying
0; with `loop = n >= 2` it does and `loop` becomes `n - 1`; with `loop = 1` it
does not and `loop` stays 1.  `stream_seek` then sets `seek_req` with
`seek_pos` the start position, unless a seek is pending.  Over `k` successive
checks a starting count `n >= 1` gives `min(k, n - 1)` replays, so exactly
`n - 1` from `k = n - 1` on, with `loop` left at 1; a count of 0 gives a
replay at every check. -/
theorem C29_loop_count (is : VideoState) (af vf sr pr autoexit start_time : Int)
    (hend : is.paused = 0 ∧ (is.audio_st = none ∨ (af = is.audioq.serial ∧ sr = 0)) ∧
      (is.video_st = none ∨ (vf = is.videoq.serial ∧ pr = 0))) :
    read_thread_end_of_playback is af vf sr pr 0 autoexit start_time =
      (stream_seek is (if start_time ≠ AV_NOPTS_VALUE then start_time else 0) 0 0, 0, none) ∧
    (∀ n : Int, 2 ≤ n → n ≤ INT_MAX →
      read_thread_end_of_playback is af vf sr pr n autoexit start_time =
        (stream_seek is (if start_time ≠ AV_NOPTS_VALUE then start_time else 0) 0 0,
          n - 1, none)) ∧
    read_thread_end_of_playback is af vf sr pr 1 autoexit start_time =
      (is, 1, if autoexit ≠ 0 then some AVERROR_EOF else none) ∧
    (is.seek_req = 0 →
      (stream_seek is (if start_time ≠ AV_NOPTS_VALUE then start_time else 0) 0 0).seek_req = 1 ∧
      (stream_seek is (if start_time ≠ AV_NOPTS_VALUE then start_time else 0) 0 0).seek_pos =
        (if start_time ≠ AV_NOPTS_VALUE then start_time else 0)) ∧
    (∀ (n : Int) (k : Nat), 1 ≤ n → n ≤ INT_MAX →
      loop_checks k n = (min k (n - 1).toNat, max 1 (n - k))) ∧
    (∀ (n : Int) (k : Nat), 1 ≤ n → n ≤ INT_MAX → (n - 1).toNat ≤ k →
      loop_checks k n = ((n - 1).toNat, 1)) ∧
    (∀ k : Nat, loop_checks k 0 = (k, 0)) := by
  refine ⟨?_, ?_, ?_, ?_, ?_, ?_, loop_checks_zero⟩
  · unfold read_thread_end_of_playback
    rw [if_pos hend, loop_test_zero]
    rfl
  · intro n h2 hmax
    unfold read_thread_end_of_playback
    rw [if_pos hend, loop_test_ge_two n h2 hmax]
    rfl
  · unfold read_thread_end_of_playback
    rw [if_pos hend, loop_test_one]
    by_cases ha : autoexit ≠ 0
    · simp [ha]
    · simp [ha]
  · intro hs
    simp [stream_seek, hs]
  · intro n k h1 hmax
    exact loop_checks_count k n h1 hmax
  · intro n k h1 hmax hk
    rw [loop_checks_count k n h1 hmax]
    simp only [Prod.mk.injEq]
    constructor <;> omega

/-- C29 at a concrete input: the sample session unpaused, both decoders
finished at serial 1 and both frame queues drained, `loop = 3`: a replay is
requested and `loop` becomes 2. -/
theorem C29_loop_count_witness :
    read_thread_end_of_playback { sample_is with paused := 0 } 1 1 0 0 3 0 AV_NOPTS_VALUE =
      (stream_seek { sample_is with paused := 0 } 0 0 0, 2, none) ∧
    loop_checks 5 3 = (2, 1) :=
  ⟨(C29_loop_count { sample_is with paused := 0 } 1 1 0 0 0 AV_NOPTS_VALUE
      ⟨rfl, Or.inr ⟨rfl, rfl⟩, Or.inr ⟨rfl, rfl⟩⟩).2.1 3 (by decide) (by decide),
   (C29_loop_count { sample_is with paused := 0 } 1 1 0 0 0 AV_NOPTS_VALUE
      ⟨rfl, Or.inr ⟨rfl, rfl⟩, Or.inr ⟨rfl, rfl⟩⟩).2.2.2.2.2.1 3 5 (by decide) (by decide)
      (by decide)⟩

/-! ## C28: enough packets -/

theorem Double.val_div (a b : ℚ) (hb : b ≠ 0) :
    Double.val a / Double.val b = Double.val (a / b) := by
  show Double.div _ _ = _
  simp [Double.div, hb]

/-- The duration test of `stream_has_enough_packets` for a time base with
denominator 0: `av_q2d` is `+inf`, `-inf` or NaN, and the product with the
duration is above 1.0 exactly when numerator and duration are both positive or
both negative. -/
theorem av_q2d_zero_den_test (tb : AVRational) (duration : Int) (hden : tb.den = 0) :
    (Double.val 1).lt (av_q2d tb * Double.ofInt duration) = true ↔
      ((0 < tb.num ∧ 0 < duration) ∨ (tb.num < 0 ∧ duration < 0)) := by
  have hdiv : av_q2d tb =
      if (tb.num : ℚ) = 0 then Double.nan else Double.inf (decide ((tb.num : ℚ) < 0)) := by
    show Double.div (Double.val _) (Double.val _) = _
    rw [hden]
    simp [Double.div]
  rw [hdiv]
  by_cases hn : tb.num = 0
  · have hn0 : (tb.num : ℚ) = 0 := by exact_mod_cast hn
    rw [if_pos hn0]
    constructor
    · intro h
      exact absurd h (by simp [Double.nan_mul, Double.lt])
    · rintro (⟨h, _⟩ | ⟨h, _⟩) <;> omega
  · have hn0 : (tb.num : ℚ) ≠ 0 := by exact_mod_cast hn
    rw [if_neg hn0]
    show (Double.val 1).lt (Double.mul (Double.inf _) (Double.val _)) = true ↔ _
    by_cases hd : duration = 0
    · have hd0 : ((duration : Int) : ℚ) = 0 := by exact_mod_cast hd
      simp only [Double.mul, hd0, if_true, Double.lt]
      constructor
      · intro h
        exact absurd h (by decide)
      · rintro (⟨_, h⟩ | ⟨_, h⟩) <;> omega
    · have hd0 : ((duration : Int) : ℚ) ≠ 0 := by exact_mod_cast hd
      simp only [Double.mul, hd0, if_false, Double.lt]
      have e1 : decide ((tb.num : ℚ) < 0) = decide (tb.num < 0) := by
        congr 1
        exact propext (by exact_mod_cast Iff.rfl)
      have e2 : decide (((duration : Int) : ℚ) < 0) = decide (duration < 0) := by
        congr 1
        exact propext (by exact_mod_cast Iff.rfl)
      rw [e1, e2]
      by_cases hnn : tb.num < 0 <;> by_cases hdd : duration < 0 <;>
        simp [hnn, hdd] <;> omega

/-- C28 fails as stated: an open stream with no attached picture whose
non-aborted queue holds 10001 packets of total duration 0 has enough packets,
though `time_base * queue.duration` is 0, not above 1.0. -/
theorem C28_counterexample :
    stream_has_enough_packets (some { disposition := 0, time_base := { num := 1, den := 1000 } })
      0 { packet_queue_init with abort_request := 0, nb_packets := 10001 } = some 1 ∧
    Int.land 0 AV_DISPOSITION_ATTACHED_PIC = 0 ∧
    av_q2d { num := 1, den := 1000 } *
      Double.ofInt ({ packet_queue_init with abort_request := 0, nb_packets := 10001 } :
        PacketQueue).duration = Double.val 0 ∧
    (Double.val 1).lt (Double.val 0) = false := by
  refine ⟨by decide, by decide, ?_, ?_⟩
  · simp [av_q2d, Double.ofInt, packet_queue_init, Double.val_div, Double.val_mul]
  · simp [Double.lt_val]

/-- C28 (amended): for an open stream (`stream_id >= 0`) with a non-aborted
queue `stream_has_enough_packets` returns 1 exactly when the stream carries an
attached picture, or its queue holds more than `MIN_FRAMES` packets and has
either a total duration of 0 or more than 1.0 second of buffered duration
(`av_q2d(time_base) * queue.duration > 1.0`); otherwise it returns 0.  The
test `av_q2d(time_base) * queue.duration > 1.0` is `num / den * duration > 1`
for a non-zero denominator; for a zero denominator `av_q2d` is an infinity or
NaN and the test holds exactly when `num` and `duration` are both positive or
both negative.  The function returns 1 for an absent stream and for an aborted
queue. -/
theorem C28_enough_packets (s : AVStream) (stream_id : Int) (queue : PacketQueue) :
    (0 ≤ stream_id → queue.abort_request = 0 →
      ∃ r, stream_has_enough_packets (some s) stream_id queue = some r ∧ (r = 0 ∨ r = 1) ∧
        (r = 1 ↔ (Int.land s.disposition AV_DISPOSITION_ATTACHED_PIC ≠ 0 ∨
          (queue.nb_packets > MIN_FRAMES ∧ (queue.duration = 0 ∨
            (Double.val 1).lt (av_q2d s.time_base * Double.ofInt queue.duration) = true))))) ∧
    (s.time_base.den ≠ 0 →
      ((Double.val 1).lt (av_q2d s.time_base * Double.ofInt queue.duration) = true ↔
        (1 : ℚ) < (s.time_base.num : ℚ) / (s.time_base.den : ℚ) * (queue.duration : ℚ))) ∧
    (s.time_base.den = 0 →
      ((Double.val 1).lt (av_q2d s.time_base * Double.ofInt queue.duration) = true ↔
        ((0 < s.time_base.num ∧ 0 < queue.duration) ∨
          (s.time_base.num < 0 ∧ queue.duration < 0)))) ∧
    (∀ st, stream_id < 0 → stream_has_enough_packets st stream_id queue = some 1) ∧
    (∀ st, queue.abort_request ≠ 0 → stream_has_enough_packets st stream_id queue = some 1) := by
  refine ⟨?_, ?_, ?_, ?_, ?_⟩
  · intro hid hab
    unfold stream_has_enough_packets
    rw [if_neg (fun h => h.elim (fun h1 => absurd hid (not_le.2 h1)) (fun h2 => h2 hab))]
    by_cases h1 : queue.nb_packets > MIN_FRAMES ∧ queue.duration = 0
    · rw [if_pos h1]
      exact ⟨1, rfl, Or.inr rfl, ⟨fun _ => Or.inr ⟨h1.1, Or.inl h1.2⟩, fun _ => rfl⟩⟩
    · rw [if_neg h1]
      simp only
      by_cases h2 : queue.nb_packets > MIN_FRAMES ∧
          (Double.val 1).lt (av_q2d s.time_base * Double.ofInt queue.duration) = true
      · rw [if_pos h2]
        exact ⟨1, rfl, Or.inr rfl, ⟨fun _ => Or.inr ⟨h2.1, Or.inr h2.2⟩, fun _ => rfl⟩⟩
      · rw [if_neg h2]
        by_cases h3 : Int.land s.disposition AV_DISPOSITION_ATTACHED_PIC ≠ 0
        · rw [if_pos h3]
          exact ⟨1, rfl, Or.inr rfl, ⟨fun _ => Or.inl h3, fun _ => rfl⟩⟩
        · rw [if_neg h3]
          refine ⟨0, rfl, Or.inl rfl, ⟨fun h => absurd h (by decide), ?_⟩⟩
          rintro (h | ⟨hn, hd | hd⟩)
          · exact absurd h h3
          · exact absurd ⟨hn, hd⟩ h1
          · exact absurd ⟨hn, hd⟩ h2
  · intro hden
    have hq : ((s.time_base.den : Int) : ℚ) ≠ 0 := by exact_mod_cast hden
    simp [av_q2d, Double.ofInt, Double.val_div _ _ hq, Double.val_mul, Double.lt_val]
  · intro hden
    exact av_q2d_zero_den_test s.time_base queue.duration hden
  · intro st hid
    unfold stream_has_enough_packets
    rw [if_pos (Or.inl hid)]
  · intro st hab
    unfold stream_has_enough_packets
    rw [if_pos (Or.inr hab)]

/-- C28 (amended) at concrete inputs: an open stream with time base 1/1000
whose queue holds 10001 packets of total duration 1500; and an open stream with
time base 1/0 whose queue holds 10001 packets of total duration 5, for which
the function returns 1. -/
theorem C28_enough_packets_witness :
    (∃ r, stream_has_enough_packets
        (some { disposition := 0, time_base := { num := 1, den := 1000 } }) 0
        { packet_queue_init with abort_request := 0, nb_packets := 10001, duration := 1500 } =
          some r ∧ (r = 0 ∨ r = 1) ∧
      (r = 1 ↔ (Int.land 0 AV_DISPOSITION_ATTACHED_PIC ≠ 0 ∨
        ((10001 : Int) > MIN_FRAMES ∧ ((1500 : Int) = 0 ∨
          (Double.val 1).lt (av_q2d { num := 1, den := 1000 } * Double.ofInt 1500) = true))))) ∧
    stream_has_enough_packets
        (some { disposition := 0, time_base := { num := 1, den := 0 } }) 0
        { packet_queue_init with abort_request := 0, nb_packets := 10001, duration := 5 } =
      some 1 := by
  refine ⟨(C28_enough_packets { disposition := 0, time_base := { num := 1, den := 1000 } } 0
    { packet_queue_init with abort_request := 0, nb_packets := 10001, duration := 1500 }).1
    (by decide) rfl, ?_⟩
  obtain ⟨h1, -, h3, -, -⟩ :=
    C28_enough_packets { disposition := 0, time_base := { num := 1, den := 0 } } 0
      { packet_queue_init with abort_request := 0, nb_packets := 10001, duration := 5 }
  obtain ⟨r, hr, -, hiff⟩ := h1 (by decide) rfl
  have h1 : r = 1 :=
    hiff.2 (Or.inr ⟨by decide, Or.inr ((h3 rfl).2 (Or.inl ⟨by decide, by decide⟩))⟩)
  rw [hr, h1]

/-! ## C24: the duration of a frame -/

/-- The speed that `check_external_clock_speed` leaves in the external clock,
for a numeric speed `s`. -/
theorem check_external_clock_speed_speed (is : VideoState) (s : ℚ) (t1 t2 : ℚ)
    (hs : is.extclk.speed = Double.val s) :
    (check_external_clock_speed is t1 t2).extclk.speed =
      Double.val
        (if (is.video_stream ≥ 0 ∧ is.videoq.nb_packets ≤ EXTERNAL_CLOCK_MIN_FRAMES) ∨
            (is.audio_stream ≥ 0 ∧ is.audioq.nb_packets ≤ EXTERNAL_CLOCK_MIN_FRAMES) then
          max EXTERNAL_CLOCK_SPEED_MIN (s - EXTERNAL_CLOCK_SPEED_STEP)
        else if (is.video_stream < 0 ∨ is.videoq.nb_packets > EXTERNAL_CLOCK_MAX_FRAMES) ∧
            (is.audio_stream < 0 ∨ is.audioq.nb_packets > EXTERNAL_CLOCK_MAX_FRAMES) then
          min EXTERNAL_CLOCK_SPEED_MAX (s + EXTERNAL_CLOCK_SPEED_STEP)
        else if s ≠ 1 then s + EXTERNAL_CLOCK_SPEED_STEP * (1 - s) / |1 - s|
        else s) := by
  unfold check_external_clock_speed
  by_cases hlow : (is.video_stream ≥ 0 ∧ is.videoq.nb_packets ≤ EXTERNAL_CLOCK_MIN_FRAMES) ∨
      (is.audio_stream ≥ 0 ∧ is.audioq.nb_packets ≤ EXTERNAL_CLOCK_MIN_FRAMES)
  · rw [if_pos hlow, if_pos hlow]
    show FFMAX_double _ _ = _
    rw [hs, Double.val_sub, FFMAX_double_val]
  · rw [if_neg hlow, if_neg hlow]
    by_cases hhigh : (is.video_stream < 0 ∨ is.videoq.nb_packets > EXTERNAL_CLOCK_MAX_FRAMES) ∧
        (is.audio_stream < 0 ∨ is.audioq.nb_packets > EXTERNAL_CLOCK_MAX_FRAMES)
    · rw [if_pos hhigh, if_pos hhigh]
      show FFMIN_double _ _ = _
      rw [hs, Double.val_add, FFMIN_double_val]
    · rw [if_neg hhigh, if_neg hhigh]
      by_cases h1 : s = 1
      · have : ¬ is.extclk.speed ≠ Double.val 1 := by rw [hs, h1]; simp
        rw [if_neg this, if_neg (not_not.2 h1)]
        exact hs
      · have : is.extclk.speed ≠ Double.val 1 := by
          rw [hs]
          intro h
          injection h with h
          exact h1 h
        rw [if_pos this, if_pos h1]
        show is.extclk.speed + _ = _
        have habs : |1 - s| ≠ 0 := by
          rw [abs_ne_zero]
          intro h
          apply h1
          linarith
        rw [hs, Double.val_sub, Double.fabs_val, Double.val_mul, Double.val_div _ _ habs,
          Double.val_add]

/-- C26 fails as stated for a speed within 0.0005 of 1.0: in the sample
session with video open and 5 packets queued, audio closed and external clock
speed 1.0002, the speed becomes 0.9992, at distance 0.0008 from 1.0 where it
was at distance 0.0002. -/
theorem C26_counterexample :
    (check_external_clock_speed
      { sample_is with
        audio_stream := -1
        videoq := { sample_is.videoq with nb_packets := 5 }
        extclk := { sample_clock with speed := Double.val (5001 / 5000) } } 0 0).extclk.speed =
      Double.val (1249 / 1250) ∧
    (9 / 10 : ℚ) ≤ 5001 / 5000 ∧ (5001 / 5000 : ℚ) ≤ 101 / 100 ∧
    ¬ (|1 - (1249 / 1250 : ℚ)| < |1 - (5001 / 5000 : ℚ)|) := by
  refine ⟨?_, by norm_num, by norm_num, ?_⟩
  · rw [check_external_clock_speed_speed _ (5001 / 5000) 0 0 rfl]
    rw [if_neg (by decide), if_neg (by decide)]
    congr 1
    rw [if_pos (by norm_num)]
    have h : |1 - (5001 / 5000 : ℚ)| = 1 / 5000 := by
      rw [abs_of_neg (by norm_num)]
      norm_num
    rw [h]
    norm_num [EXTERNAL_CLOCK_SPEED_STEP]
  · rw [abs_of_pos (by norm_num), abs_of_neg (by norm_num)]
    norm_num

/-- C26 (amended): over exact arithmetic `check_external_clock_speed` keeps a
numeric external clock speed inside [0.900, 1.010] when it starts there: if an
open audio or video stream has at most 2 queued packets the speed becomes
`max(0.900, speed - 0.001)`; else if every open audio and video stream has
more than 10 queued packets it becomes `min(1.010, speed + 0.001)`; otherwise
a speed different from 1.0 moves by 0.001 toward 1.0, its distance from 1.0
strictly decreasing when that distance was more than 0.0005, and a speed equal
to 1.0 leaves the whole state unchanged. -/
theorem C26_external_clock_speed (is : VideoState) (s : ℚ) (t1 t2 : ℚ)
    (hs : is.extclk.speed = Double.val s)
    (hlo : EXTERNAL_CLOCK_SPEED_MIN ≤ s) (hhi : s ≤ EXTERNAL_CLOCK_SPEED_MAX) :
    ∃ s1 : ℚ, (check_external_clock_speed is t1 t2).extclk.speed = Double.val s1 ∧
      EXTERNAL_CLOCK_SPEED_MIN ≤ s1 ∧ s1 ≤ EXTERNAL_CLOCK_SPEED_MAX ∧
      ((is.video_stream ≥ 0 ∧ is.videoq.nb_packets ≤ EXTERNAL_CLOCK_MIN_FRAMES) ∨
        (is.audio_stream ≥ 0 ∧ is.audioq.nb_packets ≤ EXTERNAL_CLOCK_MIN_FRAMES) →
        s1 = max EXTERNAL_CLOCK_SPEED_MIN (s - EXTERNAL_CLOCK_SPEED_STEP)) ∧
      (¬ ((is.video_stream ≥ 0 ∧ is.videoq.nb_packets ≤ EXTERNAL_CLOCK_MIN_FRAMES) ∨
          (is.audio_stream ≥ 0 ∧ is.audioq.nb_packets ≤ EXTERNAL_CLOCK_MIN_FRAMES)) →
        ((is.video_stream < 0 ∨ is.videoq.nb_packets > EXTERNAL_CLOCK_MAX_FRAMES) ∧
          (is.audio_stream < 0 ∨ is.audioq.nb_packets > EXTERNAL_CLOCK_MAX_FRAMES) →
          s1 = min EXTERNAL_CLOCK_SPEED_MAX (s + EXTERNAL_CLOCK_SPEED_STEP)) ∧
        (¬ ((is.video_stream < 0 ∨ is.videoq.nb_packets > EXTERNAL_CLOCK_MAX_FRAMES) ∧
            (is.audio_stream < 0 ∨ is.audioq.nb_packets > EXTERNAL_CLOCK_MAX_FRAMES)) →
          (s < 1 → s1 = s + EXTERNAL_CLOCK_SPEED_STEP) ∧
          (1 < s → s1 = s - EXTERNAL_CLOCK_SPEED_STEP) ∧
          (1 / 2000 < |1 - s| → |1 - s1| < |1 - s|) ∧
          (s = 1 → check_external_clock_speed is t1 t2 = is))) := by
  have hmin : EXTERNAL_CLOCK_SPEED_MIN = 9 / 10 := by unfold EXTERNAL_CLOCK_SPEED_MIN; norm_num
  have hmax : EXTERNAL_CLOCK_SPEED_MAX = 101 / 100 := by
    unfold EXTERNAL_CLOCK_SPEED_MAX; norm_num
  have hstep : EXTERNAL_CLOCK_SPEED_STEP = 1 / 1000 := by
    unfold EXTERNAL_CLOCK_SPEED_STEP; norm_num
  have hlo1 : 9 / 10 ≤ s := by rw [← hmin]; exact hlo
  have hhi1 : s ≤ 101 / 100 := by rw [← hmax]; exact hhi
  have hmid : s ≠ 1 → (s < 1 → s + EXTERNAL_CLOCK_SPEED_STEP * (1 - s) / |1 - s| =
        s + EXTERNAL_CLOCK_SPEED_STEP) ∧
      (1 < s → s + EXTERNAL_CLOCK_SPEED_STEP * (1 - s) / |1 - s| =
        s - EXTERNAL_CLOCK_SPEED_STEP) := by
    intro _
    constructor
    · intro hlt
      have hpos : 0 < 1 - s := by linarith
      rw [abs_of_pos hpos, mul_div_assoc, div_self (ne_of_gt hpos), mul_one]
    · intro hgt
      have hneg : 1 - s < 0 := by linarith
      rw [abs_of_neg hneg, mul_div_assoc, div_neg, div_self (ne_of_lt hneg), mul_neg, mul_one]
      ring
  refine ⟨_, check_external_clock_speed_speed is s t1 t2 hs, ?_, ?_, ?_, ?_⟩
  · split_ifs with h1 h2 h3
    · exact le_max_left _ _
    · exact le_min (by rw [hmin, hmax]; norm_num) (by rw [hmin, hstep]; linarith)
    · rcases lt_or_gt_of_ne h3 with h | h
      · rw [(hmid h3).1 h, hstep]; linarith
      · rw [(hmid h3).2 h, hmin, hstep]; linarith
    · exact hlo
  · split_ifs with h1 h2 h3
    · exact max_le (by rw [hmin, hmax]; norm_num) (by rw [hmax, hstep]; linarith)
    · exact min_le_left _ _
    · rcases lt_or_gt_of_ne h3 with h | h
      · rw [(hmid h3).1 h, hmax, hstep]; linarith
      · rw [(hmid h3).2 h, hstep]; linarith
    · exact hhi
  · intro h1
    rw [if_pos h1]
  · intro h1
    rw [if_neg h1]
    refine ⟨fun h2 => by rw [if_pos h2], fun h2 => ?_⟩
    rw [if_neg h2]
    refine ⟨?_, ?_, ?_, ?_⟩
    · intro h
      rw [if_pos (ne_of_lt h), (hmid (ne_of_lt h)).1 h]
    · intro h
      rw [if_pos (ne_of_gt h), (hmid (ne_of_gt h)).2 h]
    · intro hd
      have hne : s ≠ 1 := by
        intro h
        rw [h] at hd
        norm_num at hd
      rw [if_pos hne]
      rcases lt_or_gt_of_ne hne with h | h
      · rw [(hmid hne).1 h, hstep]
        rw [abs_of_pos (by linarith : (0 : ℚ) < 1 - s)] at hd ⊢
        rw [abs_lt]
        constructor <;> linarith
      · rw [(hmid hne).2 h, hstep]
        rw [abs_of_neg (by linarith : 1 - s < 0)] at hd ⊢
        rw [abs_lt]
        constructor <;> linarith
    · intro h
      unfold check_external_clock_speed
      rw [if_neg h1, if_neg h2, if_neg]
      rw [hs, h]
      simp

/-- C26 (amended) at a concrete input: the sample session with video open and
5 packets queued, audio closed and external clock speed 0.95. -/
theorem C26_external_clock_speed_witness :
    ∃ s1 : ℚ, (check_external_clock_speed
        { sample_is with
          audio_stream := -1
          videoq := { sample_is.videoq with nb_packets := 5 }
          extclk := { sample_clock with speed := Double.val (19 / 20) } } 0 0).extclk.speed =
        Double.val s1 ∧
      EXTERNAL_CLOCK_SPEED_MIN ≤ s1 ∧ s1 ≤ EXTERNAL_CLOCK_SPEED_MAX :=
  Exists.imp (fun _ hx => ⟨hx.1, hx.2.1, hx.2.2.1⟩)
    (C26_external_clock_speed
      { sample_is with
        audio_stream := -1
        videoq := { sample_is.videoq with nb_packets := 5 }
        extclk := { sample_clock with speed := Double.val (19 / 20) } } (19 / 20) 0 0 rfl
      (by unfold EXTERNAL_CLOCK_SPEED_MIN; norm_num)
      (by unfold EXTERNAL_CLOCK_SPEED_MAX; norm_num))

/-! ## The seek block of the read loop -/

/-- A chain is the same chain in every heap that agrees on its addresses. -/
theorem Linked_agree {h h1 : Heap} :
    ∀ {l : List (Nat × AVPacket × Int)} {p : Option Nat},
    Linked h p l → (∀ b, b ∈ addrs l → h1 b = h b) → Linked h1 p l := by
  intro l
  induction l with
  | nil => intro p hl _; exact hl
  | cons x rest ih =>
    obtain ⟨b, pk, s⟩ := x
    intro p hl hag
    obtain ⟨hp, n, hn, hpk, hs, hrest⟩ := (Linked_cons h p b pk s rest).1 hl
    refine (Linked_cons _ p b pk s rest).2 ⟨hp, n, ?_, hpk, hs, ?_⟩
    · rw [hag b (by rw [addrs_cons]; exact List.mem_cons_self _ _)]
      exact hn
    · exact ih hrest (fun c hc => hag c (by rw [addrs_cons]; exact List.mem_cons_of_mem _ hc))

theorem Queued_agree {h h1 : Heap} {q : PacketQueue} {l : List (Nat × AVPacket × Int)}
    (hq : Queued h q l) (hag : ∀ b, b ∈ addrs l → h1 b = h b) : Queued h1 q l :=
  ⟨Linked_agree hq.1 hag, hq.2.1, hq.2.2⟩

/-- One stream of the seek block: if the stream is open its queue is flushed
and given the sentinel, else nothing happens.  The queue stays a listed queue,
and the heap changes only at the queue's old nodes and the new node. -/
theorem seek_queue_step (sz : Nat) {h : Heap} {q : PacketQueue}
    {l : List (Nat × AVPacket × Int)} (op : Prop) [Decidable op] (hq : Queued h q l)
    (hab : op → q.abort_request = 0) (fuel : Nat) (hfuel : l.length ≤ fuel) (a : Nat)
    (ha : op → ∀ n, h a = some n → a ∈ addrs l) :
    ∃ h1 q1 l1,
      (if op then flush_and_put_sentinel sz fuel h q (some a) else some (h, q)) =
        some (h1, q1) ∧
      Queued h1 q1 l1 ∧
      (∀ b, b ∉ addrs l → (op → b ≠ a) → h1 b = h b) ∧
      (∀ b, b ∈ addrs l → op → b ≠ a → h1 b = none) ∧
      (op → l1 = [(a, flush_pkt, wrap32 (q.serial + 1))] ∧ Counted sz q1 l1 ∧
        q1.nb_packets = 1 ∧ q1.serial = wrap32 (q.serial + 1) ∧ q1.abort_request = 0) ∧
      (¬ op → h1 = h ∧ q1 = q ∧ l1 = l) := by
  by_cases hop : op
  · obtain ⟨h0, q0, hflush, hq0, hc0, hser0, hab0, hout, hin⟩ := flush_spec sz hq fuel hfuel
    have ha0 : h0 a = none := by
      by_cases hmem : a ∈ addrs l
      · exact hin a hmem
      · rw [hout a hmem]
        cases hh : h a with
        | none => rfl
        | some n => exact absurd (ha hop n hh) hmem
    obtain ⟨h1, q1, hput, hq1, hc1, hser1, hab1, hframe⟩ :=
      put_private_spec sz hq0 hc0 (by rw [hab0]; exact hab hop) PktArg.flush_pkt ha0
    rw [if_pos rfl, hser0] at hq1 hc1 hser1
    refine ⟨h1, q1, _, ?_, hq1, ?_, ?_, ?_, fun hn => absurd hop hn⟩
    · rw [if_pos hop]
      simp only [flush_and_put_sentinel, hflush, packet_queue_put, hput]
    · intro b hbl hba
      rw [hframe b (hba hop) (by simp [addrs]), hout b hbl]
    · intro b hbl _ hba
      rw [hframe b hba (by simp [addrs]), hin b hbl]
    · intro _
      refine ⟨rfl, hc1, ?_, hser1, hab1⟩
      rw [hc1.1]
      show wrap32 1 = 1
      decide
  · refine ⟨h, q, l, by rw [if_neg hop], hq, fun _ _ _ => rfl, fun _ _ ho => absurd ho hop,
      fun ho => absurd ho hop, fun _ => ⟨rfl, rfl, rfl⟩⟩

/-- The seek block on an accepted seek: with the three queues listed on
pairwise disjoint nodes, the queues of the open streams not aborted, enough
fuel, and each allocation returning an address that holds no live node at
that moment, the block completes.  Each open stream's queue then holds the
sentinel alone with the incremented serial, a closed stream's queue is as it
was, and the state is the one written out below. -/
theorem read_thread_seek_spec (sz : Nat) (f : Int → Int → Int → Int → Int) (fuel : Nat)
    (h : Heap) (is : VideoState) (av aa as : Nat) (time : Nat → ℚ)
    (lv la ls : List (Nat × AVPacket × Int))
    (hreq : is.seek_req ≠ 0)
    (hret : 0 ≤ f (seek_min is) is.seek_pos (seek_max is) is.seek_flags)
    (hqv : Queued h is.videoq lv) (hqa : Queued h is.audioq la)
    (hqs : Queued h is.subtitleq ls)
    (hdva : ∀ b, b ∈ addrs lv → b ∉ addrs la) (hdvs : ∀ b, b ∈ addrs lv → b ∉ addrs ls)
    (hdas : ∀ b, b ∈ addrs la → b ∉ addrs ls)
    (habv : is.video_stream ≥ 0 → is.videoq.abort_request = 0)
    (haba : is.audio_stream ≥ 0 → is.audioq.abort_request = 0)
    (habs : is.subtitle_stream ≥ 0 → is.subtitleq.abort_request = 0)
    (hfuel : lv.length ≤ fuel ∧ la.length ≤ fuel ∧ ls.length ≤ fuel)
    (hfv : is.video_stream ≥ 0 → ∀ n, h av = some n → av ∈ addrs lv)
    (hfa : is.audio_stream ≥ 0 → (is.video_stream ≥ 0 → aa ≠ av) ∧
      ∀ n, h aa = some n → (is.video_stream ≥ 0 ∧ aa ∈ addrs lv) ∨ aa ∈ addrs la)
    (hfs : is.subtitle_stream ≥ 0 → (is.video_stream ≥ 0 → as ≠ av) ∧
      (is.audio_stream ≥ 0 → as ≠ aa) ∧
      ∀ n, h as = some n → (is.video_stream ≥ 0 ∧ as ∈ addrs lv) ∨
        (is.audio_stream ≥ 0 ∧ as ∈ addrs la) ∨ as ∈ addrs ls) :
    ∃ h3 vq aq sq lv1 la1 ls1 is5,
      is5 =
        { is with
          videoq := vq
          audioq := aq
          subtitleq := sq
          extclk := set_clock is.extclk
            (if Int.land is.seek_flags AVSEEK_FLAG_BYTE ≠ 0 then Double.nan
             else Double.ofInt is.seek_pos / Double.ofInt AV_TIME_BASE) 0 (time 0)
          seek_req := 0
          queue_attachments_req := 1
          eof := 0 } ∧
      read_thread_seek sz f fuel h is (some av) (some aa) (some as) time =
        some (h3,
          if is5.paused ≠ 0 then step_to_next_frame is5 (fun i => time (i + 1)) else is5) ∧
      Queued h3 vq lv1 ∧ Queued h3 aq la1 ∧ Queued h3 sq ls1 ∧
      (is.video_stream ≥ 0 → lv1 = [(av, flush_pkt, wrap32 (is.videoq.serial + 1))] ∧
        Counted sz vq lv1 ∧ vq.nb_packets = 1 ∧ vq.serial = wrap32 (is.videoq.serial + 1) ∧
        vq.abort_request = 0) ∧
      (is.audio_stream ≥ 0 → la1 = [(aa, flush_pkt, wrap32 (is.audioq.serial + 1))] ∧
        Counted sz aq la1 ∧ aq.nb_packets = 1 ∧ aq.serial = wrap32 (is.audioq.serial + 1) ∧
        aq.abort_request = 0) ∧
      (is.subtitle_stream ≥ 0 →
        ls1 = [(as, flush_pkt, wrap32 (is.subtitleq.serial + 1))] ∧
        Counted sz sq ls1 ∧ sq.nb_packets = 1 ∧
        sq.serial = wrap32 (is.subtitleq.serial + 1) ∧ sq.abort_request = 0) ∧
      (¬ is.video_stream ≥ 0 → vq = is.videoq ∧ lv1 = lv) ∧
      (¬ is.audio_stream ≥ 0 → aq = is.audioq ∧ la1 = la) ∧
      (¬ is.subtitle_stream ≥ 0 → sq = is.subtitleq ∧ ls1 = ls) := by
  -- the new nodes are off the other queues
  have live : ∀ {q : PacketQueue} {l : List (Nat × AVPacket × Int)}, Queued h q l →
      ∀ b, b ∈ addrs l → ∃ n, h b = some n := fun hq b hb => Linked_live hq.1 b hb
  have av_la : is.video_stream ≥ 0 → av ∉ addrs la := by
    intro ov hmem
    obtain ⟨n, hn⟩ := live hqa av hmem
    exact hdva av (hfv ov n hn) hmem
  have av_ls : is.video_stream ≥ 0 → av ∉ addrs ls := by
    intro ov hmem
    obtain ⟨n, hn⟩ := live hqs av hmem
    exact hdvs av (hfv ov n hn) hmem
  have aa_ls : is.audio_stream ≥ 0 → aa ∉ addrs ls := by
    intro oa hmem
    obtain ⟨n, hn⟩ := live hqs aa hmem
    rcases (hfa oa).2 n hn with ⟨_, h1⟩ | h1
    · exact hdvs aa h1 hmem
    · exact hdas aa h1 hmem
  have aa_lv : is.audio_stream ≥ 0 → ¬ is.video_stream ≥ 0 → aa ∉ addrs lv := by
    intro oa nov hmem
    obtain ⟨n, hn⟩ := live hqv aa hmem
    rcases (hfa oa).2 n hn with ⟨ov, _⟩ | h1
    · exact nov ov
    · exact hdva aa hmem h1
  have as_lv : is.subtitle_stream ≥ 0 → ¬ is.video_stream ≥ 0 → as ∉ addrs lv := by
    intro os nov hmem
    obtain ⟨n, hn⟩ := live hqv as hmem
    rcases (hfs os).2.2 n hn with ⟨ov, _⟩ | ⟨_, h1⟩ | h1
    · exact nov ov
    · exact hdva as hmem h1
    · exact hdvs as hmem h1
  have as_la : is.subtitle_stream ≥ 0 → ¬ is.audio_stream ≥ 0 → as ∉ addrs la := by
    intro os noa hmem
    obtain ⟨n, hn⟩ := live hqa as hmem
    rcases (hfs os).2.2 n hn with ⟨_, h1⟩ | ⟨oa, _⟩ | h1
    · exact hdva as h1 hmem
    · exact noa oa
    · exact hdas as hmem h1
  -- video
  obtain ⟨h1, vq, lv1, e1, hqv1, hout1, hin1, hopv, hclv⟩ :=
    seek_queue_step sz (is.video_stream ≥ 0) hqv habv fuel hfuel.1 av hfv
  have hqa1 : Queued h1 is.audioq la :=
    Queued_agree hqa (fun b hb => hout1 b (fun hc => hdva b hc hb)
      (fun ov e => av_la ov (e ▸ hb)))
  have hqs1 : Queued h1 is.subtitleq ls :=
    Queued_agree hqs (fun b hb => hout1 b (fun hc => hdvs b hc hb)
      (fun ov e => av_ls ov (e ▸ hb)))
  have hfa1 : is.audio_stream ≥ 0 → ∀ n, h1 aa = some n → aa ∈ addrs la := by
    intro oa n hn
    by_cases hmem : aa ∈ addrs lv
    · by_cases ov : is.video_stream ≥ 0
      · rw [hin1 aa hmem ov ((hfa oa).1 ov)] at hn
        exact Option.noConfusion hn
      · exact absurd hmem (aa_lv oa ov)
    · rw [hout1 aa hmem (hfa oa).1] at hn
      rcases (hfa oa).2 n hn with ⟨_, h2⟩ | h2
      · exact absurd h2 hmem
      · exact h2
  -- audio
  obtain ⟨h2, aq, la1, e2, hqa2, hout2, hin2, hopa, hcla⟩ :=
    seek_queue_step sz (is.audio_stream ≥ 0) hqa1 haba fuel hfuel.2.1 aa hfa1
  have hqs2 : Queued h2 is.subtitleq ls :=
    Queued_agree hqs1 (fun b hb => hout2 b (fun hc => hdas b hc hb)
      (fun oa e => aa_ls oa (e ▸ hb)))
  have hfs2 : is.subtitle_stream ≥ 0 → ∀ n, h2 as = some n → as ∈ addrs ls := by
    intro os n hn
    have hv : (is.video_stream ≥ 0 → as ≠ av) := (hfs os).1
    have ha : (is.audio_stream ≥ 0 → as ≠ aa) := (hfs os).2.1
    by_cases hmla : as ∈ addrs la
    · by_cases oa : is.audio_stream ≥ 0
      · rw [hin2 as hmla oa (ha oa)] at hn
        exact Option.noConfusion hn
      · exact absurd hmla (as_la os oa)
    · rw [hout2 as hmla ha] at hn
      by_cases hmlv : as ∈ addrs lv
      · by_cases ov : is.video_stream ≥ 0
        · rw [hin1 as hmlv ov (hv ov)] at hn
          exact Option.noConfusion hn
        · exact absurd hmlv (as_lv os ov)
      · rw [hout1 as hmlv hv] at hn
        rcases (hfs os).2.2 n hn with ⟨_, h3⟩ | ⟨_, h3⟩ | h3
        · exact absurd h3 hmlv
        · exact absurd h3 hmla
        · exact h3
  -- subtitle
  obtain ⟨h3, sq, ls1, e3, hqs3, hout3, hin3, hops, hcls⟩ :=
    seek_queue_step sz (is.subtitle_stream ≥ 0) hqs2 habs fuel hfuel.2.2 as hfs2
  -- the video and audio queues in the last heap
  have mem_lv1 : ∀ b, b ∈ addrs lv1 →
      (is.video_stream ≥ 0 ∧ b = av) ∨ (¬ is.video_stream ≥ 0 ∧ b ∈ addrs lv) := by
    intro b hb
    by_cases ov : is.video_stream ≥ 0
    · rw [(hopv ov).1] at hb
      simp [addrs] at hb
      exact Or.inl ⟨ov, hb⟩
    · rw [(hclv ov).2.2] at hb
      exact Or.inr ⟨ov, hb⟩
  have mem_la1 : ∀ b, b ∈ addrs la1 →
      (is.audio_stream ≥ 0 ∧ b = aa) ∨ (¬ is.audio_stream ≥ 0 ∧ b ∈ addrs la) := by
    intro b hb
    by_cases oa : is.audio_stream ≥ 0
    · rw [(hopa oa).1] at hb
      simp [addrs] at hb
      exact Or.inl ⟨oa, hb⟩
    · rw [(hcla oa).2.2] at hb
      exact Or.inr ⟨oa, hb⟩
  have hqa3 : Queued h3 aq la1 := by
    refine Queued_agree hqa2 (fun b hb => ?_)
    rcases mem_la1 b hb with ⟨oa, e⟩ | ⟨noa, hm⟩
    · subst e
      exact hout3 b (aa_ls oa) (fun os e => (hfs os).2.1 oa e.symm)
    · exact hout3 b (fun hc => hdas b hm hc) (fun os e => as_la os noa (e ▸ hm))
  have hqv3 : Queued h3 vq lv1 := by
    refine Queued_agree hqv1 (fun b hb => ?_)
    rcases mem_lv1 b hb with ⟨ov, e⟩ | ⟨nov, hm⟩
    · subst e
      rw [hout3 b (av_ls ov) (fun os e => (hfs os).1 ov e.symm)]
      exact hout2 b (av_la ov) (fun oa e => (hfa oa).1 ov e.symm)
    · rw [hout3 b (fun hc => hdvs b hm hc) (fun os e => as_lv os nov (e ▸ hm))]
      exact hout2 b (fun hc => hdva b hm hc) (fun oa e => aa_lv oa nov (e ▸ hm))
  refine ⟨h3, vq, aq, sq, lv1, la1, ls1, _, rfl, ?_, hqv3, hqa3, hqs3, hopv, hopa, hops,
    fun n => ⟨(hclv n).2.1, (hclv n).2.2⟩, fun n => ⟨(hcla n).2.1, (hcla n).2.2⟩,
    fun n => ⟨(hcls n).2.1, (hcls n).2.2⟩⟩
  unfold read_thread_seek
  rw [if_pos hreq]
  simp only
  rw [if_neg (not_lt.2 hret), e1]
  simp only
  rw [e2]
  simp only
  rw [e3]

/-- What the pause step at the end of the seek block keeps. -/
theorem seek_pause_step_keeps (is : VideoState) (time : Nat → ℚ) :
    (if is.paused ≠ 0 then step_to_next_frame is time else is).seek_req = is.seek_req ∧
    (if is.paused ≠ 0 then step_to_next_frame is time else is).videoq = is.videoq ∧
    (if is.paused ≠ 0 then step_to_next_frame is time else is).audioq = is.audioq ∧
    (if is.paused ≠ 0 then step_to_next_frame is time else is).subtitleq = is.subtitleq ∧
    (if is.paused ≠ 0 then step_to_next_frame is time else is).vidclk.serial =
      is.vidclk.serial ∧
    (if is.paused ≠ 0 then step_to_next_frame is time else is).audclk.serial =
      is.audclk.serial := by
  by_cases hp : is.paused ≠ 0
  · rw [if_pos hp]
    by_cases hr : is.read_pause_return ≠ AVERROR_ENOSYS
    · simp [step_to_next_frame, stream_toggle_pause, hp, hr, set_clock, set_clock_at]
    · simp [step_to_next_frame, stream_toggle_pause, hp, hr, set_clock, set_clock_at]
  · rw [if_neg hp]
    exact ⟨rfl, rfl, rfl, rfl, rfl, rfl⟩

theorem Double.nan_sub_add_sub (a b c : Double) :
    Double.nan - a + b - c = Double.nan := by
  rw [Double.nan_sub, Double.nan_add, Double.nan_sub]

/-- The external clock after the seek block has set it to `pts` at wall time
`t0` and run its pause step. -/
theorem seek_pause_step_extclk (is : VideoState) (c : Clock) (pts : Double) (t0 : ℚ)
    (time : Nat → ℚ) (hext : is.extclk = set_clock c pts 0 t0) :
    (pts = Double.nan → ∀ t,
      get_clock (if is.paused ≠ 0 then step_to_next_frame is time else is).extclk
        (if is.paused ≠ 0 then step_to_next_frame is time else is).extclk.serial t =
        Double.nan) ∧
    (∀ x sp : ℚ, pts = Double.val x → c.speed = Double.val sp →
      (is.paused = 0 → ∀ t,
        get_clock (if is.paused ≠ 0 then step_to_next_frame is time else is).extclk
          (if is.paused ≠ 0 then step_to_next_frame is time else is).extclk.serial t =
          if c.paused ≠ 0 then Double.val x else Double.val (x + sp * (t - t0))) ∧
      (is.paused ≠ 0 → c.paused ≠ 0 → ∀ t,
        get_clock (if is.paused ≠ 0 then step_to_next_frame is time else is).extclk
          (if is.paused ≠ 0 then step_to_next_frame is time else is).extclk.serial t =
          Double.val (x + sp * (t - time 4)))) := by
  refine ⟨?_, ?_⟩
  · intro hnan t
    subst hnan
    by_cases hp : is.paused ≠ 0
    · rw [if_pos hp]
      simp only [step_to_next_frame, stream_toggle_pause, if_pos hp, hext]
      by_cases hc : c.paused ≠ 0
      · simp [get_clock, set_clock, set_clock_at, hp, hc, Double.nan_sub_add_sub]
      · simp [get_clock, set_clock, set_clock_at, hp, hc, Double.nan_sub_add_sub]
    · rw [if_neg hp, hext]
      by_cases hc : c.paused ≠ 0
      · simp [get_clock, set_clock, set_clock_at, hc]
      · simp [get_clock, set_clock, set_clock_at, hc, Double.nan_sub_add_sub]
  · intro x sp hx hsp
    subst hx
    refine ⟨?_, ?_⟩
    · intro hp t
      rw [if_neg (not_not.2 hp), hext]
      by_cases hc : c.paused ≠ 0
      · simp [get_clock, set_clock, set_clock_at, hc]
      · simp only [get_clock, set_clock, set_clock_at, hc, hsp, ne_eq, not_true_eq_false,
          if_false, Double.val_add, Double.val_sub, Double.val_mul]
        congr 1
        ring
    · intro hp hc t
      rw [if_pos hp]
      simp only [step_to_next_frame, stream_toggle_pause, if_pos hp, hext]
      simp only [get_clock, set_clock, set_clock_at, hc, hsp, hp, ne_eq, not_true_eq_false,
        not_false_eq_true, if_true, if_false, Double.val_add, Double.val_sub, Double.val_mul]
      congr 1
      ring

/-! ## C21: the queues after a seek -/

/-- A flush of a listed queue, with enough fuel, empties it and zeroes the
counters; `serial` and `abort_request` stay. -/
theorem flush_fields (h : Heap) (q : PacketQueue) (l : List (Nat × AVPacket × Int))
    (hq : Queued h q l) (fuel : Nat) (hfuel : l.length ≤ fuel) :
    ∃ hf qf, packet_queue_flush fuel h q = some (hf, qf) ∧ Queued hf qf [] ∧
      qf.first_pkt = none ∧ qf.last_pkt = none ∧ qf.nb_packets = 0 ∧ qf.size = 0 ∧
      qf.duration = 0 ∧ qf.serial = q.serial ∧ qf.abort_request = q.abort_request := by
  obtain ⟨h1, hrun, _, _⟩ := flush_loop_spec hq.1 hq.2.1 fuel hfuel
  obtain ⟨hf, qf, hflush, hqf, _, _, _, _, _⟩ := flush_spec 0 hq fuel hfuel
  refine ⟨hf, qf, hflush, hqf, ?_⟩
  simp only [packet_queue_flush, hrun, Option.some.injEq, Prod.mk.injEq] at hflush
  obtain ⟨_, rfl⟩ := hflush
  exact ⟨rfl, rfl, rfl, rfl, rfl, rfl, rfl⟩

/-- C21: the seek block of the read loop, run on a pending seek that the
external seek accepts, with the three streams open and their queues started
(listed on pairwise disjoint nodes, whatever they hold; enough fuel for the
flush loops; each allocation succeeding at an address that holds no live node
at that moment): the block completes, and afterwards each of `videoq`,
`audioq` and `subtitleq` holds exactly one node, the flush sentinel, with
`nb_packets = 1`, and its serial is the `int` value of the old serial plus
one, which is the old serial plus one below `INT_MAX`.  A flush alone empties
the queue and sets `nb_packets`, `size` and `duration` to 0, leaving `serial`
and `abort_request` as they were. -/
theorem C21_seek_flushes_queues (sz : Nat) (f : Int → Int → Int → Int → Int) (fuel : Nat)
    (h : Heap) (is : VideoState) (av aa as : Nat) (time : Nat → ℚ)
    (lv la ls : List (Nat × AVPacket × Int))
    (hreq : is.seek_req ≠ 0)
    (hret : 0 ≤ f (seek_min is) is.seek_pos (seek_max is) is.seek_flags)
    (hov : is.video_stream ≥ 0) (hoa : is.audio_stream ≥ 0) (hos : is.subtitle_stream ≥ 0)
    (hqv : Queued h is.videoq lv) (hqa : Queued h is.audioq la)
    (hqs : Queued h is.subtitleq ls)
    (hdva : ∀ b, b ∈ addrs lv → b ∉ addrs la) (hdvs : ∀ b, b ∈ addrs lv → b ∉ addrs ls)
    (hdas : ∀ b, b ∈ addrs la → b ∉ addrs ls)
    (habv : is.videoq.abort_request = 0) (haba : is.audioq.abort_request = 0)
    (habs : is.subtitleq.abort_request = 0)
    (hfuel : lv.length ≤ fuel ∧ la.length ≤ fuel ∧ ls.length ≤ fuel)
    (hfv : ∀ n, h av = some n → av ∈ addrs lv)
    (hfa : aa ≠ av ∧ ∀ n, h aa = some n → aa ∈ addrs lv ∨ aa ∈ addrs la)
    (hfs : as ≠ av ∧ as ≠ aa ∧
      ∀ n, h as = some n → as ∈ addrs lv ∨ as ∈ addrs la ∨ as ∈ addrs ls) :
    (∃ h1 is1,
      read_thread_seek sz f fuel h is (some av) (some aa) (some as) time = some (h1, is1) ∧
      (Queued h1 is1.videoq [(av, flush_pkt, is1.videoq.serial)] ∧
        is1.videoq.nb_packets = 1 ∧ is1.videoq.serial = wrap32 (is.videoq.serial + 1) ∧
        (-2147483648 ≤ is.videoq.serial → is.videoq.serial < INT_MAX →
          is1.videoq.serial = is.videoq.serial + 1) ∧
        is1.videoq.abort_request = 0) ∧
      (Queued h1 is1.audioq [(aa, flush_pkt, is1.audioq.serial)] ∧
        is1.audioq.nb_packets = 1 ∧ is1.audioq.serial = wrap32 (is.audioq.serial + 1) ∧
        (-2147483648 ≤ is.audioq.serial → is.audioq.serial < INT_MAX →
          is1.audioq.serial = is.audioq.serial + 1) ∧
        is1.audioq.abort_request = 0) ∧
      (Queued h1 is1.subtitleq [(as, flush_pkt, is1.subtitleq.serial)] ∧
        is1.subtitleq.nb_packets = 1 ∧
        is1.subtitleq.serial = wrap32 (is.subtitleq.serial + 1) ∧
        (-2147483648 ≤ is.subtitleq.serial → is.subtitleq.serial < INT_MAX →
          is1.subtitleq.serial = is.subtitleq.serial + 1) ∧
        is1.subtitleq.abort_request = 0)) ∧
    (∀ (q : PacketQueue) (l : List (Nat × AVPacket × Int)), Queued h q l → l.length ≤ fuel →
      ∃ hf qf, packet_queue_flush fuel h q = some (hf, qf) ∧ Queued hf qf [] ∧
        qf.first_pkt = none ∧ qf.last_pkt = none ∧ qf.nb_packets = 0 ∧ qf.size = 0 ∧
        qf.duration = 0 ∧ qf.serial = q.serial ∧ qf.abort_request = q.abort_request) := by
  refine ⟨?_, fun q l hq hl => flush_fields h q l hq fuel hl⟩
  obtain ⟨h3, vq, aq, sq, lv1, la1, ls1, is5, his5, hrun, hqv3, hqa3, hqs3, hv, ha, hs,
      _, _, _⟩ :=
    read_thread_seek_spec sz f fuel h is av aa as time lv la ls hreq hret hqv hqa hqs
      hdva hdvs hdas (fun _ => habv) (fun _ => haba) (fun _ => habs) hfuel (fun _ => hfv)
      (fun _ => ⟨fun _ => hfa.1, fun n hn => (hfa.2 n hn).imp (fun x => ⟨hov, x⟩) id⟩)
      (fun _ => ⟨fun _ => hfs.1, fun _ => hfs.2.1,
        fun n hn => (hfs.2.2 n hn).imp (fun x => ⟨hov, x⟩)
          (fun y => y.imp (fun x => ⟨hoa, x⟩) id)⟩)
  have hstep : ∀ s : Int, -2147483648 ≤ s → s < INT_MAX → wrap32 (s + 1) = s + 1 := by
    intro s h0 h1
    unfold INT_MAX at h1
    exact wrap32_of_range _ (by omega) (by omega)
  obtain ⟨hlv, _, hnv, hsv, hav⟩ := hv hov
  obtain ⟨hla, _, hna, hsa, haa⟩ := ha hoa
  obtain ⟨hls, _, hns, hss, has⟩ := hs hos
  subst hlv hla hls
  refine ⟨h3, _, hrun, ?_, ?_, ?_⟩
  · rw [(seek_pause_step_keeps _ _).2.1, his5]
    exact ⟨by rw [hsv]; exact hqv3, hnv, hsv, fun h0 h1 => by rw [hsv, hstep _ h0 h1], hav⟩
  · rw [(seek_pause_step_keeps _ _).2.2.1, his5]
    exact ⟨by rw [hsa]; exact hqa3, hna, hsa, fun h0 h1 => by rw [hsa, hstep _ h0 h1], haa⟩
  · rw [(seek_pause_step_keeps _ _).2.2.2.1, his5]
    exact ⟨by rw [hss]; exact hqs3, hns, hss, fun h0 h1 => by rw [hss, hstep _ h0 h1], has⟩

/-- C21 at a concrete input: the sample state with a seek pending, each queue
holding one packet; the allocator returns the address 1, just released by the
flush of `videoq`, then 10 and 11. -/
theorem C21_seek_flushes_queues_witness :
    ∃ h1 is1,
      read_thread_seek 104 (fun _ _ _ _ => 0) 1 sample_seek_heap sample_seek_is (some 1)
        (some 10) (some 11) (fun _ => 7) = some (h1, is1) ∧
      Queued h1 is1.videoq [(1, flush_pkt, 2)] ∧ is1.videoq.nb_packets = 1 ∧
      Queued h1 is1.audioq [(10, flush_pkt, 2)] ∧ is1.audioq.nb_packets = 1 ∧
      Queued h1 is1.subtitleq [(11, flush_pkt, 2)] ∧ is1.subtitleq.nb_packets = 1 := by
  obtain ⟨h1, is1, hrun, hv, ha, hs⟩ := (C21_seek_flushes_queues 104 (fun _ _ _ _ => 0) 1
    sample_seek_heap sample_seek_is 1 10 11 (fun _ => 7) [(1, sample_packet, 1)]
    [(2, sample_packet, 1)] [(3, sample_packet, 1)] (by decide) (by decide) (by decide)
    (by decide) (by decide)
    ⟨⟨rfl, _, rfl, rfl, rfl, rfl⟩, by decide, rfl⟩
    ⟨⟨rfl, _, rfl, rfl, rfl, rfl⟩, by decide, rfl⟩
    ⟨⟨rfl, _, rfl, rfl, rfl, rfl⟩, by decide, rfl⟩
    (by decide) (by decide) (by decide) rfl rfl rfl (by decide)
    (fun _ _ => by decide)
    ⟨by decide, fun n hn => by simp [sample_seek_heap, Heap.store, Heap.empty] at hn⟩
    ⟨by decide, by decide,
      fun n hn => by simp [sample_seek_heap, Heap.store, Heap.empty] at hn⟩).1
  have ev : is1.videoq.serial = 2 := hv.2.2.2.1 (by decide) (by decide)
  have ea : is1.audioq.serial = 2 := ha.2.2.2.1 (by decide) (by decide)
  have es : is1.subtitleq.serial = 2 := hs.2.2.2.1 (by decide) (by decide)
  refine ⟨h1, is1, hrun, ?_, hv.2.1, ?_, ha.2.1, ?_, hs.2.1⟩
  · rw [← ev]; exact hv.1
  · rw [← ea]; exact ha.1
  · rw [← es]; exact hs.1

/-! ## C22: the clocks after a seek -/

theorem seek_target_val (pos : Int) :
    Double.ofInt pos / Double.ofInt AV_TIME_BASE = Double.val ((pos : ℚ) / 1000000) := by
  unfold Double.ofInt AV_TIME_BASE
  rw [Double.val_div _ _ (by norm_num)]
  norm_num

/-- The clocks after the seek block on an accepted seek, video and audio
open.  A video or audio clock that does not carry the new serial of its queue
reads NaN.  The external clock reads NaN after a byte seek; after a time seek
it is anchored to the target. -/
theorem read_thread_seek_clocks (sz : Nat) (f : Int → Int → Int → Int → Int) (fuel : Nat)
    (h : Heap) (is : VideoState) (av aa as : Nat) (time : Nat → ℚ)
    (lv la ls : List (Nat × AVPacket × Int))
    (hreq : is.seek_req ≠ 0)
    (hret : 0 ≤ f (seek_min is) is.seek_pos (seek_max is) is.seek_flags)
    (hov : is.video_stream ≥ 0) (hoa : is.audio_stream ≥ 0)
    (hqv : Queued h is.videoq lv) (hqa : Queued h is.audioq la)
    (hqs : Queued h is.subtitleq ls)
    (hdva : ∀ b, b ∈ addrs lv → b ∉ addrs la) (hdvs : ∀ b, b ∈ addrs lv → b ∉ addrs ls)
    (hdas : ∀ b, b ∈ addrs la → b ∉ addrs ls)
    (habv : is.videoq.abort_request = 0) (haba : is.audioq.abort_request = 0)
    (habs : is.subtitle_stream ≥ 0 → is.subtitleq.abort_request = 0)
    (hfuel : lv.length ≤ fuel ∧ la.length ≤ fuel ∧ ls.length ≤ fuel)
    (hfv : ∀ n, h av = some n → av ∈ addrs lv)
    (hfa : aa ≠ av ∧ ∀ n, h aa = some n → aa ∈ addrs lv ∨ aa ∈ addrs la)
    (hfs : is.subtitle_stream ≥ 0 → as ≠ av ∧ as ≠ aa ∧
      ∀ n, h as = some n → as ∈ addrs lv ∨ as ∈ addrs la ∨ as ∈ addrs ls)
    (hvc : is.vidclk.serial ≠ wrap32 (is.videoq.serial + 1))
    (hac : is.audclk.serial ≠ wrap32 (is.audioq.serial + 1)) :
    ∃ h1 is1,
      read_thread_seek sz f fuel h is (some av) (some aa) (some as) time = some (h1, is1) ∧
      (∀ t, get_clock is1.vidclk is1.videoq.serial t = Double.nan) ∧
      (∀ t, get_clock is1.audclk is1.audioq.serial t = Double.nan) ∧
      (Int.land is.seek_flags AVSEEK_FLAG_BYTE ≠ 0 →
        ∀ t, get_clock is1.extclk is1.extclk.serial t = Double.nan) ∧
      (Int.land is.seek_flags AVSEEK_FLAG_BYTE = 0 → ∀ sp : ℚ,
        is.extclk.speed = Double.val sp →
        (is.paused = 0 → ∀ t, get_clock is1.extclk is1.extclk.serial t =
          if is.extclk.paused ≠ 0 then Double.val ((is.seek_pos : ℚ) / 1000000)
          else Double.val ((is.seek_pos : ℚ) / 1000000 + sp * (t - time 0))) ∧
        (is.paused ≠ 0 → is.extclk.paused ≠ 0 → ∀ t,
          get_clock is1.extclk is1.extclk.serial t =
            Double.val ((is.seek_pos : ℚ) / 1000000 + sp * (t - time 5)))) := by
  obtain ⟨h3, vq, aq, sq, lv1, la1, ls1, is5, his5, hrun, _, _, _, hv, ha, _, _, _, _⟩ :=
    read_thread_seek_spec sz f fuel h is av aa as time lv la ls hreq hret hqv hqa hqs
      hdva hdvs hdas (fun _ => habv) (fun _ => haba) habs hfuel (fun _ => hfv)
      (fun _ => ⟨fun _ => hfa.1, fun n hn => (hfa.2 n hn).imp (fun x => ⟨hov, x⟩) id⟩)
      (fun os => ⟨fun _ => (hfs os).1, fun _ => (hfs os).2.1,
        fun n hn => ((hfs os).2.2 n hn).imp (fun x => ⟨hov, x⟩)
          (fun y => y.imp (fun x => ⟨hoa, x⟩) id)⟩)
  have hp5 : is5.paused = is.paused := by rw [his5]
  have hkeep := seek_pause_step_keeps is5 (fun i => time (i + 1))
  refine ⟨h3, _, hrun, ?_, ?_, ?_, ?_⟩
  · intro t
    have hne : (if is5.paused ≠ 0 then step_to_next_frame is5 (fun i => time (i + 1))
        else is5).videoq.serial ≠ (if is5.paused ≠ 0 then
          step_to_next_frame is5 (fun i => time (i + 1)) else is5).vidclk.serial := by
      rw [hkeep.2.1, hkeep.2.2.2.2.1, his5]
      show vq.serial ≠ is.vidclk.serial
      rw [(hv hov).2.2.2.1]
      exact fun e => hvc e.symm
    unfold get_clock
    rw [if_pos hne]
  · intro t
    have hne : (if is5.paused ≠ 0 then step_to_next_frame is5 (fun i => time (i + 1))
        else is5).audioq.serial ≠ (if is5.paused ≠ 0 then
          step_to_next_frame is5 (fun i => time (i + 1)) else is5).audclk.serial := by
      rw [hkeep.2.2.1, hkeep.2.2.2.2.2, his5]
      show aq.serial ≠ is.audclk.serial
      rw [(ha hoa).2.2.2.1]
      exact fun e => hac e.symm
    unfold get_clock
    rw [if_pos hne]
  · intro hbyte t
    have hext : is5.extclk = set_clock is.extclk Double.nan 0 (time 0) := by
      rw [his5]
      show set_clock _ _ _ _ = _
      rw [if_pos hbyte]
    exact (seek_pause_step_extclk is5 is.extclk Double.nan (time 0) (fun i => time (i + 1))
      hext).1 rfl t
  · intro htime sp hsp
    have hext : is5.extclk =
        set_clock is.extclk (Double.val ((is.seek_pos : ℚ) / 1000000)) 0 (time 0) := by
      rw [his5]
      show set_clock _ _ _ _ = _
      rw [if_neg (not_not.2 htime), seek_target_val]
    have hx := (seek_pause_step_extclk is5 is.extclk _ (time 0) (fun i => time (i + 1))
      hext).2 _ sp rfl hsp
    exact ⟨fun hp t => hx.1 (hp5.trans hp) t, fun hp hc t => hx.2 (by rw [hp5]; exact hp) hc t⟩

/-- C22 fails as stated: after a time seek to 3 s on the sample state (all three
streams open) the video clock and the audio clock read NaN at every wall
time, not the seek target. -/
theorem C22_counterexample :
    ∃ h1 is1,
      read_thread_seek 104 (fun _ _ _ _ => 0) 1 sample_seek_heap sample_seek_is (some 1)
        (some 10) (some 11) (fun _ => 7) = some (h1, is1) ∧
      Int.land sample_seek_is.seek_flags AVSEEK_FLAG_BYTE = 0 ∧
      (∀ t, get_clock is1.vidclk is1.videoq.serial t = Double.nan) ∧
      (∀ t, get_clock is1.audclk is1.audioq.serial t = Double.nan) ∧
      Double.nan ≠ Double.val ((sample_seek_is.seek_pos : ℚ) / 1000000) := by
  obtain ⟨h1, is1, hrun, hv, ha, _, _⟩ := read_thread_seek_clocks 104 (fun _ _ _ _ => 0) 1
    sample_seek_heap sample_seek_is 1 10 11 (fun _ => 7) [(1, sample_packet, 1)]
    [(2, sample_packet, 1)] [(3, sample_packet, 1)] (by decide) (by decide) (by decide)
    (by decide)
    ⟨⟨rfl, _, rfl, rfl, rfl, rfl⟩, by decide, rfl⟩
    ⟨⟨rfl, _, rfl, rfl, rfl, rfl⟩, by decide, rfl⟩
    ⟨⟨rfl, _, rfl, rfl, rfl, rfl⟩, by decide, rfl⟩
    (by decide) (by decide) (by decide) rfl rfl (fun _ => rfl) (by decide)
    (fun _ _ => by decide)
    ⟨by decide, fun n hn => by simp [sample_seek_heap, Heap.store, Heap.empty] at hn⟩
    (fun _ => ⟨by decide, by decide,
      fun n hn => by simp [sample_seek_heap, Heap.store, Heap.empty] at hn⟩)
    (by decide) (by decide)
  exact ⟨h1, is1, hrun, by decide, hv, ha, fun e => Double.noConfusion e⟩

/-- C22 (amended): the seek block of the read loop, run on a pending seek that
the external seek accepts, with the video and audio streams open and the
queues started (listed on pairwise disjoint nodes, allocations succeeding),
the video and audio clocks not carrying the new serial of their queues (as
when they carry the old one).  Afterwards the video clock and the audio clock
read NaN at every wall time, after a byte seek and after a time seek alike.
The external clock reads NaN after a byte seek.  After a time seek it is
anchored to the target `seek_pos / AV_TIME_BASE`: it reads the target at the
wall time of its last `set_clock` (`time 0`, or `time 5` when the paused
player is stepped) and while it is paused, and from there it advances at its
speed. -/
theorem C22_clocks_after_seek (sz : Nat) (f : Int → Int → Int → Int → Int) (fuel : Nat)
    (h : Heap) (is : VideoState) (av aa as : Nat) (time : Nat → ℚ)
    (lv la ls : List (Nat × AVPacket × Int))
    (hreq : is.seek_req ≠ 0)
    (hret : 0 ≤ f (seek_min is) is.seek_pos (seek_max is) is.seek_flags)
    (hov : is.video_stream ≥ 0) (hoa : is.audio_stream ≥ 0)
    (hqv : Queued h is.videoq lv) (hqa : Queued h is.audioq la)
    (hqs : Queued h is.subtitleq ls)
    (hdva : ∀ b, b ∈ addrs lv → b ∉ addrs la) (hdvs : ∀ b, b ∈ addrs lv → b ∉ addrs ls)
    (hdas : ∀ b, b ∈ addrs la → b ∉ addrs ls)
    (habv : is.videoq.abort_request = 0) (haba : is.audioq.abort_request = 0)
    (habs : is.subtitle_stream ≥ 0 → is.subtitleq.abort_request = 0)
    (hfuel : lv.length ≤ fuel ∧ la.length ≤ fuel ∧ ls.length ≤ fuel)
    (hfv : ∀ n, h av = some n → av ∈ addrs lv)
    (hfa : aa ≠ av ∧ ∀ n, h aa = some n → aa ∈ addrs lv ∨ aa ∈ addrs la)
    (hfs : is.subtitle_stream ≥ 0 → as ≠ av ∧ as ≠ aa ∧
      ∀ n, h as = some n → as ∈ addrs lv ∨ as ∈ addrs la ∨ as ∈ addrs ls)
    (hvc : is.vidclk.serial ≠ wrap32 (is.videoq.serial + 1))
    (hac : is.audclk.serial ≠ wrap32 (is.audioq.serial + 1)) :
    (∀ s : Int, s ≠ wrap32 (s + 1)) ∧
    ∃ h1 is1,
      read_thread_seek sz f fuel h is (some av) (some aa) (some as) time = some (h1, is1) ∧
      (∀ t, get_clock is1.vidclk is1.videoq.serial t = Double.nan) ∧
      (∀ t, get_clock is1.audclk is1.audioq.serial t = Double.nan) ∧
      (Int.land is.seek_flags AVSEEK_FLAG_BYTE ≠ 0 →
        ∀ t, get_clock is1.extclk is1.extclk.serial t = Double.nan) ∧
      (Int.land is.seek_flags AVSEEK_FLAG_BYTE = 0 → ∀ sp : ℚ,
        is.extclk.speed = Double.val sp →
        (is.paused = 0 →
          get_clock is1.extclk is1.extclk.serial (time 0) =
            Double.val ((is.seek_pos : ℚ) / 1000000) ∧
          ∀ t, get_clock is1.extclk is1.extclk.serial t =
            if is.extclk.paused ≠ 0 then Double.val ((is.seek_pos : ℚ) / 1000000)
            else Double.val ((is.seek_pos : ℚ) / 1000000 + sp * (t - time 0))) ∧
        (is.paused ≠ 0 → is.extclk.paused ≠ 0 →
          get_clock is1.extclk is1.extclk.serial (time 5) =
            Double.val ((is.seek_pos : ℚ) / 1000000) ∧
          ∀ t, get_clock is1.extclk is1.extclk.serial t =
            Double.val ((is.seek_pos : ℚ) / 1000000 + sp * (t - time 5)))) := by
  refine ⟨fun s => by unfold wrap32; omega, ?_⟩
  obtain ⟨h1, is1, hrun, hv, ha, hbyte, htime⟩ := read_thread_seek_clocks sz f fuel h is
    av aa as time lv la ls hreq hret hov hoa hqv hqa hqs hdva hdvs hdas habv haba habs hfuel
    hfv hfa hfs hvc hac
  refine ⟨h1, is1, hrun, hv, ha, hbyte, ?_⟩
  intro hflag sp hsp
  obtain ⟨h0, h5⟩ := htime hflag sp hsp
  refine ⟨fun hp => ⟨?_, h0 hp⟩, fun hp hc => ⟨?_, h5 hp hc⟩⟩
  · rw [h0 hp]
    split_ifs
    · rfl
    · congr 1
      ring
  · rw [h5 hp hc]
    congr 1
    ring

/-- C22 (amended) at a concrete input: the sample state with a time seek to 3 s
pending, paused; every wall-time reading is 7. -/
theorem C22_clocks_after_seek_witness :
    ∃ h1 is1,
      read_thread_seek 104 (fun _ _ _ _ => 0) 1 sample_seek_heap sample_seek_is (some 1)
        (some 10) (some 11) (fun _ => 7) = some (h1, is1) ∧
      get_clock is1.vidclk is1.videoq.serial 7 = Double.nan ∧
      get_clock is1.audclk is1.audioq.serial 7 = Double.nan ∧
      get_clock is1.extclk is1.extclk.serial 7 = Double.val 3 := by
  obtain ⟨h1, is1, hrun, hv, ha, _, htime⟩ := (C22_clocks_after_seek 104 (fun _ _ _ _ => 0) 1
    sample_seek_heap sample_seek_is 1 10 11 (fun _ => 7) [(1, sample_packet, 1)]
    [(2, sample_packet, 1)] [(3, sample_packet, 1)] (by decide) (by decide) (by decide)
    (by decide)
    ⟨⟨rfl, _, rfl, rfl, rfl, rfl⟩, by decide, rfl⟩
    ⟨⟨rfl, _, rfl, rfl, rfl, rfl⟩, by decide, rfl⟩
    ⟨⟨rfl, _, rfl, rfl, rfl, rfl⟩, by decide, rfl⟩
    (by decide) (by decide) (by decide) rfl rfl (fun _ => rfl) (by decide)
    (fun _ _ => by decide)
    ⟨by decide, fun n hn => by simp [sample_seek_heap, Heap.store, Heap.empty] at hn⟩
    (fun _ => ⟨by decide, by decide,
      fun n hn => by simp [sample_seek_heap, Heap.store, Heap.empty] at hn⟩)
    (by decide) (by decide)).2
  refine ⟨h1, is1, hrun, hv 7, ha 7, ?_⟩
  have h5 := ((htime (by decide) 1 rfl).2 (by decide) (by decide)).1
  rw [h5]
  congr 1
  simp [sample_seek_is]
  norm_num

/-! ## C23: seek requests -/

theorem testBit_AVSEEK_FLAG_BYTE (k : Nat) :
    Int.testBit AVSEEK_FLAG_BYTE k = decide (k = 1) := by
  have h : AVSEEK_FLAG_BYTE = ((2 ^ 1 : Nat) : Int) := by unfold AVSEEK_FLAG_BYTE; norm_num
  rw [h]
  show Nat.testBit (2 ^ 1) k = _
  rw [Nat.testBit_two_pow]
  by_cases hk : k = 1
  · simp [hk]
  · simp [hk, Ne.symm hk]

/-- Whenever the seek block completes, `seek_req` is 0. -/
theorem read_thread_seek_clears (sz : Nat) (f : Int → Int → Int → Int → Int) (fuel : Nat)
    (h : Heap) (is : VideoState) (mv ma ms : Option Nat) (time : Nat → ℚ) (h1 : Heap)
    (is1 : VideoState)
    (hres : read_thread_seek sz f fuel h is mv ma ms time = some (h1, is1)) :
    is1.seek_req = 0 := by
  unfold read_thread_seek at hres
  by_cases hreq : is.seek_req ≠ 0
  · rw [if_pos hreq] at hres
    simp only at hres
    split at hres
    · exact Option.noConfusion hres
    · rename_i flushed h4 is4 heq
      simp only [Option.some.injEq, Prod.mk.injEq] at hres
      rw [← hres.2]
      exact (seek_pause_step_keeps
        { is4 with seek_req := 0, queue_attachments_req := 1, eof := 0 }
        (fun i => time (i + 1))).1
  · rw [if_neg hreq] at hres
    simp only [Option.some.injEq, Prod.mk.injEq] at hres
    rw [← hres.2]
    exact not_not.1 hreq

/-- C23: `stream_seek` never overwrites a pending seek: with `seek_req` set it
leaves the whole state as it is; with `seek_req` clear it sets `seek_req = 1`,
`seek_pos = pos`, `seek_rel = rel`, sets the `AVSEEK_FLAG_BYTE` bit (bit 1) of
`seek_flags` exactly when `seek_by_bytes` is not 0, leaves the other bits of
`seek_flags` and every other field as they are.  The seek block of the read
loop ends with `seek_req = 0`: whenever it completes; it completes with the
queues untouched when the external seek fails; and it completes when the
external seek succeeds, the queues being listed on pairwise disjoint nodes,
those of the open streams not aborted, with enough fuel and each allocation
returning an address that holds no live node at that moment. -/
theorem C23_seek_request (is : VideoState) (pos rel seek_by_bytes : Int) :
    (is.seek_req ≠ 0 → stream_seek is pos rel seek_by_bytes = is) ∧
    (is.seek_req = 0 →
      (stream_seek is pos rel seek_by_bytes).seek_req = 1 ∧
      (stream_seek is pos rel seek_by_bytes).seek_pos = pos ∧
      (stream_seek is pos rel seek_by_bytes).seek_rel = rel ∧
      Int.testBit (stream_seek is pos rel seek_by_bytes).seek_flags 1 =
        decide (seek_by_bytes ≠ 0) ∧
      (∀ k : Nat, k ≠ 1 → Int.testBit (stream_seek is pos rel seek_by_bytes).seek_flags k =
        Int.testBit is.seek_flags k) ∧
      stream_seek is pos rel seek_by_bytes =
        { is with
          seek_req := 1
          seek_pos := pos
          seek_rel := rel
          seek_flags := (stream_seek is pos rel seek_by_bytes).seek_flags }) ∧
    (∀ (sz : Nat) (f : Int → Int → Int → Int → Int) (fuel : Nat) (h : Heap)
      (mv ma ms : Option Nat) (time : Nat → ℚ) (h1 : Heap) (is1 : VideoState),
      read_thread_seek sz f fuel h is mv ma ms time = some (h1, is1) → is1.seek_req = 0) ∧
    (∀ (sz : Nat) (f : Int → Int → Int → Int → Int) (fuel : Nat) (h : Heap)
      (mv ma ms : Option Nat) (time : Nat → ℚ), is.seek_req ≠ 0 →
      f (seek_min is) is.seek_pos (seek_max is) is.seek_flags < 0 →
      ∃ is1, read_thread_seek sz f fuel h is mv ma ms time = some (h, is1) ∧
        is1.seek_req = 0 ∧ is1.videoq = is.videoq ∧ is1.audioq = is.audioq ∧
        is1.subtitleq = is.subtitleq) ∧
    (∀ (sz : Nat) (f : Int → Int → Int → Int → Int) (fuel : Nat) (h : Heap)
      (av aa as : Nat) (time : Nat → ℚ) (lv la ls : List (Nat × AVPacket × Int)),
      is.seek_req ≠ 0 →
      0 ≤ f (seek_min is) is.seek_pos (seek_max is) is.seek_flags →
      Queued h is.videoq lv → Queued h is.audioq la → Queued h is.subtitleq ls →
      (∀ b, b ∈ addrs lv → b ∉ addrs la) → (∀ b, b ∈ addrs lv → b ∉ addrs ls) →
      (∀ b, b ∈ addrs la → b ∉ addrs ls) →
      (is.video_stream ≥ 0 → is.videoq.abort_request = 0) →
      (is.audio_stream ≥ 0 → is.audioq.abort_request = 0) →
      (is.subtitle_stream ≥ 0 → is.subtitleq.abort_request = 0) →
      lv.length ≤ fuel ∧ la.length ≤ fuel ∧ ls.length ≤ fuel →
      (is.video_stream ≥ 0 → ∀ n, h av = some n → av ∈ addrs lv) →
      (is.audio_stream ≥ 0 → (is.video_stream ≥ 0 → aa ≠ av) ∧
        ∀ n, h aa = some n → (is.video_stream ≥ 0 ∧ aa ∈ addrs lv) ∨ aa ∈ addrs la) →
      (is.subtitle_stream ≥ 0 → (is.video_stream ≥ 0 → as ≠ av) ∧
        (is.audio_stream ≥ 0 → as ≠ aa) ∧
        ∀ n, h as = some n → (is.video_stream ≥ 0 ∧ as ∈ addrs lv) ∨
          (is.audio_stream ≥ 0 ∧ as ∈ addrs la) ∨ as ∈ addrs ls) →
      ∃ h1 is1, read_thread_seek sz f fuel h is (some av) (some aa) (some as) time =
        some (h1, is1) ∧ is1.seek_req = 0) := by
  refine ⟨?_, ?_, ?_, ?_, ?_⟩
  · intro hreq
    unfold stream_seek
    rw [if_neg hreq]
  · intro hreq
    have hflags : (stream_seek is pos rel seek_by_bytes).seek_flags =
        if seek_by_bytes ≠ 0 then
          Int.lor (Int.land is.seek_flags (Int.lnot AVSEEK_FLAG_BYTE)) AVSEEK_FLAG_BYTE
        else Int.land is.seek_flags (Int.lnot AVSEEK_FLAG_BYTE) := by
      unfold stream_seek
      rw [if_pos hreq]
    refine ⟨?_, ?_, ?_, ?_, ?_, ?_⟩
    · unfold stream_seek
      rw [if_pos hreq]
    · unfold stream_seek
      rw [if_pos hreq]
    · unfold stream_seek
      rw [if_pos hreq]
    · rw [hflags]
      by_cases hb : seek_by_bytes ≠ 0
      · rw [if_pos hb, Int.testBit_lor, Int.testBit_land, Int.testBit_lnot,
          testBit_AVSEEK_FLAG_BYTE]
        simp [hb]
      · rw [if_neg hb, Int.testBit_land, Int.testBit_lnot, testBit_AVSEEK_FLAG_BYTE]
        simp [hb]
    · intro k hk
      rw [hflags]
      by_cases hb : seek_by_bytes ≠ 0
      · rw [if_pos hb, Int.testBit_lor, Int.testBit_land, Int.testBit_lnot,
          testBit_AVSEEK_FLAG_BYTE]
        simp [hk]
      · rw [if_neg hb, Int.testBit_land, Int.testBit_lnot, testBit_AVSEEK_FLAG_BYTE]
        simp [hk]
    · unfold stream_seek
      rw [if_pos hreq]
  · intro sz f fuel h mv ma ms time h1 is1 hres
    exact read_thread_seek_clears sz f fuel h is mv ma ms time h1 is1 hres
  · intro sz f fuel h mv ma ms time hreq hlt
    refine ⟨if ({ is with seek_req := 0, queue_attachments_req := 1, eof := 0 } :
        VideoState).paused ≠ 0 then
        step_to_next_frame { is with seek_req := 0, queue_attachments_req := 1, eof := 0 }
          (fun i => time (i + 1))
      else { is with seek_req := 0, queue_attachments_req := 1, eof := 0 }, ?_, ?_⟩
    · unfold read_thread_seek
      rw [if_pos hreq]
      simp only
      rw [if_pos hlt]
    · have hk := seek_pause_step_keeps
        { is with seek_req := 0, queue_attachments_req := 1, eof := 0 }
        (fun i => time (i + 1))
      exact ⟨hk.1, hk.2.1, hk.2.2.1, hk.2.2.2.1⟩
  · intro sz f fuel h av aa as time lv la ls hreq hret hqv hqa hqs hdva hdvs hdas habv haba
      habs hfuel hfv hfa hfs
    obtain ⟨h3, _, _, _, _, _, _, is5, his5, hrun, _⟩ :=
      read_thread_seek_spec sz f fuel h is av aa as time lv la ls hreq hret hqv hqa hqs
        hdva hdvs hdas habv haba habs hfuel hfv hfa hfs
    refine ⟨h3, _, hrun, ?_⟩
    rw [(seek_pause_step_keeps _ _).1, his5]

/-- C23 at a concrete input: a byte seek requested on the sample session, which
has no seek pending, and a second request made while the first is pending. -/
theorem C23_seek_request_witness :
    (stream_seek sample_is 5000000 1000000 1).seek_req = 1 ∧
    (stream_seek sample_is 5000000 1000000 1).seek_pos = 5000000 ∧
    Int.testBit (stream_seek sample_is 5000000 1000000 1).seek_flags 1 = true ∧
    stream_seek (stream_seek sample_is 5000000 1000000 1) 7000000 0 0 =
      stream_seek sample_is 5000000 1000000 1 :=
  ⟨((C23_seek_request sample_is 5000000 1000000 1).2.1 rfl).1,
   ((C23_seek_request sample_is 5000000 1000000 1).2.1 rfl).2.1,
   ((C23_seek_request sample_is 5000000 1000000 1).2.1 rfl).2.2.2.1,
   (C23_seek_request (stream_seek sample_is 5000000 1000000 1) 7000000 0 0).1 (by decide)⟩

/-! ## C27: the seek window -/

/-- C27 fails as stated: for a target 100 and `seek_rel = 10` the window the
external seek is given starts at 92, not at 100 - 10 - 2, and is unbounded
above, `INT64_MAX`, not 100 + 10 + 2; and for `seek_rel = 1` it starts at 101,
above the target. -/
theorem C27_counterexample :
    seek_min { sample_is with seek_req := 1, seek_pos := 100, seek_rel := 10 } = 92 ∧
    seek_max { sample_is with seek_req := 1, seek_pos := 100, seek_rel := 10 } = INT64_MAX ∧
    (92 : Int) ≠ 100 - 10 - 2 ∧ INT64_MAX ≠ 100 + 10 + 2 ∧
    seek_min { sample_is with seek_req := 1, seek_pos := 100, seek_rel := 1 } = 101 ∧
    ¬ ((101 : Int) ≤ 100) := by
  decide

/-- C27 (amended): the window `[seek_min, seek_max]` that the seek block passes
to the external seek, with the target `seek_pos`, is bounded on one side
only: for `seek_rel > 0` it is `[target - rel + 2, INT64_MAX]`, for
`seek_rel < 0` it is `[INT64_MIN, target - rel - 2]` (the `int64_t` values of
these expressions, which are the expressions themselves when they do not
overflow), and for `seek_rel = 0` it is `[INT64_MIN, INT64_MAX]`.  It contains
the target when `seek_rel` is 0, at least 2 or at most -2.  The outcome of the
block depends on the external seek only through its value at this window, the
target and `seek_flags`. -/
theorem C27_seek_window (is : VideoState) :
    (is.seek_rel > 0 →
      seek_min is = wrap64 (wrap64 (is.seek_pos - is.seek_rel) + 2) ∧
      seek_max is = INT64_MAX ∧
      (INT64_MIN ≤ is.seek_pos - is.seek_rel → is.seek_pos - is.seek_rel + 2 ≤ INT64_MAX →
        seek_min is = is.seek_pos - is.seek_rel + 2)) ∧
    (is.seek_rel < 0 →
      seek_min is = INT64_MIN ∧
      seek_max is = wrap64 (wrap64 (is.seek_pos - is.seek_rel) - 2) ∧
      (INT64_MIN ≤ is.seek_pos - is.seek_rel - 2 → is.seek_pos - is.seek_rel ≤ INT64_MAX →
        seek_max is = is.seek_pos - is.seek_rel - 2)) ∧
    (is.seek_rel = 0 → seek_min is = INT64_MIN ∧ seek_max is = INT64_MAX) ∧
    (INT64_MIN ≤ is.seek_pos → is.seek_pos ≤ INT64_MAX →
      INT64_MIN ≤ is.seek_pos - is.seek_rel - 2 → is.seek_pos - is.seek_rel + 2 ≤ INT64_MAX →
      is.seek_rel = 0 ∨ 2 ≤ is.seek_rel ∨ is.seek_rel ≤ -2 →
      seek_min is ≤ is.seek_pos ∧ is.seek_pos ≤ seek_max is) ∧
    (∀ (sz : Nat) (f g : Int → Int → Int → Int → Int) (fuel : Nat) (h : Heap)
      (mv ma ms : Option Nat) (time : Nat → ℚ),
      f (seek_min is) is.seek_pos (seek_max is) is.seek_flags =
        g (seek_min is) is.seek_pos (seek_max is) is.seek_flags →
      read_thread_seek sz f fuel h is mv ma ms time =
        read_thread_seek sz g fuel h is mv ma ms time) := by
  have hw : ∀ x : Int, INT64_MIN ≤ x → x ≤ INT64_MAX → wrap64 x = x := by
    intro x h0 h1
    unfold INT64_MIN at h0
    unfold INT64_MAX at h1
    exact wrap64_of_range x h0 h1
  have hmin : is.seek_rel > 0 → INT64_MIN ≤ is.seek_pos - is.seek_rel →
      is.seek_pos - is.seek_rel + 2 ≤ INT64_MAX →
      seek_min is = is.seek_pos - is.seek_rel + 2 := by
    intro hpos h0 h1
    unfold seek_min
    rw [if_pos hpos, hw (is.seek_pos - is.seek_rel) h0 (by omega), hw _ (by omega) h1]
  have hmax : is.seek_rel < 0 → INT64_MIN ≤ is.seek_pos - is.seek_rel - 2 →
      is.seek_pos - is.seek_rel ≤ INT64_MAX →
      seek_max is = is.seek_pos - is.seek_rel - 2 := by
    intro hneg h0 h1
    unfold seek_max
    rw [if_pos hneg, hw (is.seek_pos - is.seek_rel) (by omega) h1, hw _ h0 (by omega)]
  refine ⟨?_, ?_, ?_, ?_, ?_⟩
  · intro hpos
    refine ⟨by unfold seek_min; rw [if_pos hpos], ?_, hmin hpos⟩
    unfold seek_max
    rw [if_neg (by omega)]
  · intro hneg
    refine ⟨?_, by unfold seek_max; rw [if_pos hneg], hmax hneg⟩
    unfold seek_min
    rw [if_neg (by omega)]
  · intro hz
    constructor
    · unfold seek_min
      rw [if_neg (by omega)]
    · unfold seek_max
      rw [if_neg (by omega)]
  · intro hp0 hp1 h0 h1 hrel
    by_cases hpos : is.seek_rel > 0
    · rw [hmin hpos (by omega) h1]
      have : seek_max is = INT64_MAX := by unfold seek_max; rw [if_neg (by omega)]
      rw [this]
      constructor <;> omega
    · by_cases hneg : is.seek_rel < 0
      · rw [hmax hneg h0 (by omega)]
        have : seek_min is = INT64_MIN := by unfold seek_min; rw [if_neg (by omega)]
        rw [this]
        constructor <;> omega
      · have h1 : seek_min is = INT64_MIN := by unfold seek_min; rw [if_neg hpos]
        have h2 : seek_max is = INT64_MAX := by unfold seek_max; rw [if_neg hneg]
        rw [h1, h2]
        exact ⟨hp0, hp1⟩
  · intro sz f g fuel h mv ma ms time hfg
    unfold read_thread_seek
    rw [hfg]

/-- C27 (amended) at a concrete input: the sample state with the seek to 3 s
pending, `seek_rel` being 10 s. -/
theorem C27_seek_window_witness :
    seek_min sample_seek_is = 3000000 - 10000000 + 2 ∧ seek_max sample_seek_is = INT64_MAX :=
  ⟨((C27_seek_window sample_seek_is).1 (by decide)).2.2 (by decide) (by decide),
   ((C27_seek_window sample_seek_is).1 (by decide)).2.1⟩

/-! ## C25: the retry loop of video_refresh -/

/-- In a frame queue used as the program uses it, the number of remaining
frames is `size - rindex_shown` and is not negative. -/
theorem nb_remaining_eq {α σ : Type} (sub0 : σ) (av_frame_unref : α → α)
    (avsubtitle_free : σ → σ) (f : FrameQueue α σ)
    (hr : FQReach sub0 av_frame_unref avsubtitle_free
      (fun m => 1 ≤ m ∧ m ≤ FRAME_QUEUE_SIZE) writable remaining f) :
    frame_queue_nb_remaining f = f.size - f.rindex_shown ∧ 0 ≤ frame_queue_nb_remaining f := by
  obtain ⟨hm1, hm16, hlen, hr0, hr1, hw0, hw1, hs0, hs1, hshown, hshle, hwin⟩ :=
    FQReach_indices sub0 av_frame_unref avsubtitle_free f hr
  have : frame_queue_nb_remaining f = f.size - f.rindex_shown := by
    unfold frame_queue_nb_remaining
    exact wrap32_of_range _ (by omega) (by omega)
  rw [this]
  exact ⟨rfl, by omega⟩

/-- With a frame remaining, the slots that `frame_queue_peek_last`,
`frame_queue_peek` and `frame_queue_peek_next` point to are inside the array,
and `frame_queue_next` is defined, keeps the queue inside the reachable
states and takes exactly one from the number of remaining frames. -/
theorem frame_queue_next_remaining {α σ : Type} (sub0 : σ) (av_frame_unref : α → α)
    (avsubtitle_free : σ → σ) (f : FrameQueue α σ)
    (hr : FQReach sub0 av_frame_unref avsubtitle_free
      (fun m => 1 ≤ m ∧ m ≤ FRAME_QUEUE_SIZE) writable remaining f) :
    (∃ lastvp, frame_queue_at f (frame_queue_peek_last f) = some lastvp) ∧
    (∃ vp, (frame_queue_peek f).bind (frame_queue_at f) = some vp) ∧
    (∃ nextvp, (frame_queue_peek_next f).bind (frame_queue_at f) = some nextvp) ∧
    (frame_queue_nb_remaining f ≠ 0 →
      ∃ f1, frame_queue_next av_frame_unref avsubtitle_free f = some f1 ∧
        FQReach sub0 av_frame_unref avsubtitle_free
          (fun m => 1 ≤ m ∧ m ≤ FRAME_QUEUE_SIZE) writable remaining f1 ∧
        frame_queue_nb_remaining f1 = frame_queue_nb_remaining f - 1 ∧
        0 < frame_queue_nb_remaining f) := by
  obtain ⟨hm1, hm16, hlen, hr0, hr1, hw0, hw1, hs0, hs1, hshown, hshle, hwin⟩ :=
    FQReach_indices sub0 av_frame_unref avsubtitle_free f hr
  have hat : ∀ i : Int, 0 ≤ i → i < f.max_size → ∃ x, frame_queue_at f i = some x := by
    intro i h0 h1
    have hlt : i.toNat < f.queue.length := by omega
    exact ⟨f.queue[i.toNat], by unfold frame_queue_at; rw [if_pos h0, List.getElem?_eq_getElem hlt]⟩
  have hwr : wrap32 (f.rindex + f.rindex_shown) = f.rindex + f.rindex_shown :=
    wrap32_of_range _ (by omega) (by omega)
  have hwr1 : wrap32 (f.rindex + f.rindex_shown + 1) = f.rindex + f.rindex_shown + 1 :=
    wrap32_of_range _ (by omega) (by omega)
  obtain ⟨i, hi, _, hi0, hi1⟩ := c_rem_pos (f.rindex + f.rindex_shown) f.max_size
    (by omega) hm1
  obtain ⟨j, hj, _, hj0, hj1⟩ := c_rem_pos (f.rindex + f.rindex_shown + 1) f.max_size
    (by omega) hm1
  refine ⟨hat _ hr0 hr1, ?_, ?_, ?_⟩
  · obtain ⟨x, hx⟩ := hat i hi0 hi1
    refine ⟨x, ?_⟩
    unfold frame_queue_peek
    rw [hwr, hi]
    exact hx
  · obtain ⟨x, hx⟩ := hat j hj0 hj1
    refine ⟨x, ?_⟩
    unfold frame_queue_peek_next
    rw [hwr, hwr1, hj]
    exact hx
  · intro hne
    obtain ⟨hrem, hnn⟩ := nb_remaining_eq sub0 av_frame_unref avsubtitle_free f hr
    have hpos : 0 < frame_queue_nb_remaining f := by omega
    have hnext : ∃ f1, frame_queue_next av_frame_unref avsubtitle_free f = some f1 := by
      by_cases hc : f.keep_last ≠ 0 ∧ f.rindex_shown = 0
      · exact ⟨_, frame_queue_next_keep av_frame_unref avsubtitle_free f hc.1 hc.2⟩
      · refine ⟨_, frame_queue_next_release av_frame_unref avsubtitle_free f ?_ hr0
          (by omega)⟩
        by_cases hk : f.keep_last = 0
        · exact Or.inl hk
        · exact Or.inr (fun h => hc ⟨hk, h⟩)
    obtain ⟨f1, hf1⟩ := hnext
    have hr1 := FQReach.next hr hpos hf1
    refine ⟨f1, hf1, hr1, ?_, hpos⟩
    rw [(nb_remaining_eq sub0 av_frame_unref avsubtitle_free f1 hr1).1, hrem]
    by_cases hc : f.keep_last ≠ 0 ∧ f.rindex_shown = 0
    · rw [frame_queue_next_keep av_frame_unref avsubtitle_free f hc.1 hc.2] at hf1
      cases hf1
      show f.size - 1 = f.size - f.rindex_shown - 1
      rw [hc.2]
      omega
    · have hcc : f.keep_last = 0 ∨ f.rindex_shown ≠ 0 := by
        by_cases hk : f.keep_last = 0
        · exact Or.inl hk
        · exact Or.inr (fun h => hc ⟨hk, h⟩)
      rw [frame_queue_next_release av_frame_unref avsubtitle_free f hcc hr0 (by omega)] at hf1
      cases hf1
      show wrap32 (f.size - 1) - f.rindex_shown = f.size - f.rindex_shown - 1
      rw [wrap32_of_range _ (by omega) (by omega)]
      omega

/-- The subtitle loop completes on a reachable queue, given more fuel than
frames remain. -/
theorem video_refresh_subtitles_defined {α σ : Type} (sub0 : σ) (av_frame_unref : α → α)
    (avsubtitle_free : σ → σ) (sdt edt : σ → Int) (is : VideoState) :
    ∀ (fuel : Nat) (subpq : FrameQueue α σ),
      FQReach sub0 av_frame_unref avsubtitle_free
        (fun m => 1 ≤ m ∧ m ≤ FRAME_QUEUE_SIZE) writable remaining subpq →
      frame_queue_nb_remaining subpq < (fuel : Int) →
      ∃ subpq1, video_refresh_subtitles av_frame_unref avsubtitle_free sdt edt is fuel subpq =
        some subpq1 := by
  intro fuel
  induction fuel with
  | zero =>
    intro subpq hr h
    have := (nb_remaining_eq sub0 av_frame_unref avsubtitle_free subpq hr).2
    simp only [Nat.cast_zero] at h
    omega
  | succ n ih =>
    intro subpq hr hfuel
    obtain ⟨_, ⟨sp, hsp⟩, ⟨nx, hnx⟩, hnext⟩ :=
      frame_queue_next_remaining sub0 av_frame_unref avsubtitle_free subpq hr
    unfold video_refresh_subtitles
    by_cases hpos : frame_queue_nb_remaining subpq > 0
    · rw [if_pos hpos, hsp, hnx]
      obtain ⟨f1, hf1, hr1, hdec, _⟩ := hnext (by omega)
      obtain ⟨r, hr2⟩ := ih f1 hr1 (by push_cast at hfuel; omega)
      by_cases h1 : frame_queue_nb_remaining subpq > 1
      · rw [if_pos h1, Option.map_some']
        dsimp only
        split
        · rw [hf1]
          exact ⟨r, hr2⟩
        · exact ⟨_, rfl⟩
      · rw [if_neg h1]
        dsimp only
        split
        · rw [hf1]
          exact ⟨r, hr2⟩
        · exact ⟨_, rfl⟩
    · rw [if_neg hpos]
      exact ⟨_, rfl⟩

theorem video_refresh_show_sound {α σ : Type} (sub0 : σ) (av_frame_unref : α → α)
    (avsubtitle_free : σ → σ) (sdt edt : σ → Int) (framedrop : Int) (sub_fuel : Nat)
    (time : Nat → ℚ) (st : RefreshState α σ) (vp : Frame α σ) (is : VideoState)
    (hp : FQReach sub0 av_frame_unref avsubtitle_free
      (fun m => 1 ≤ m ∧ m ≤ FRAME_QUEUE_SIZE) writable remaining st.pictq)
    (hs : FQReach sub0 av_frame_unref avsubtitle_free
      (fun m => 1 ≤ m ∧ m ≤ FRAME_QUEUE_SIZE) writable remaining st.subpq)
    (hsf : frame_queue_nb_remaining st.subpq < (sub_fuel : Int))
    (hz : frame_queue_nb_remaining st.pictq ≠ 0) :
    (video_refresh_show av_frame_unref avsubtitle_free sdt edt framedrop sub_fuel time st vp
      is).sound av_frame_unref avsubtitle_free st := by
  obtain ⟨_, _, ⟨nextvp, hnextvp⟩, hnext⟩ :=
    frame_queue_next_remaining sub0 av_frame_unref avsubtitle_free st.pictq hp
  obtain ⟨f1, hf1, _, _, hpos⟩ := hnext hz
  obtain ⟨s1, hs1⟩ := video_refresh_subtitles_defined sub0 av_frame_unref avsubtitle_free
    sdt edt is sub_fuel st.subpq hs hsf
  unfold video_refresh_show
  rw [hnextvp, hf1, hs1, Option.map_some']
  split
  · rename_i heq
    split at heq <;> exact Option.noConfusion heq
  · exact ⟨hf1, rfl, hpos⟩
  · split
    · rename_i heq1 heq2
      injection heq2 with heq2
      subst heq2
      exact ⟨hf1, hpos⟩
    · rename_i hnone
      exfalso
      by_cases hsub : is.subtitle_st ≠ none
      · rw [if_pos hsub] at hnone
        exact hnone s1 f1 rfl rfl
      · rw [if_neg hsub] at hnone
        exact hnone st.subpq f1 rfl rfl


theorem video_refresh_frame_sound {α σ : Type} (sub0 : σ) (av_frame_unref : α → α)
    (avsubtitle_free : σ → σ) (sdt edt : σ → Int) (framedrop : Int) (sub_fuel : Nat)
    (time : Nat → ℚ) (st : RefreshState α σ) (lastvp vp : Frame α σ) (is : VideoState)
    (hp : FQReach sub0 av_frame_unref avsubtitle_free
      (fun m => 1 ≤ m ∧ m ≤ FRAME_QUEUE_SIZE) writable remaining st.pictq)
    (hs : FQReach sub0 av_frame_unref avsubtitle_free
      (fun m => 1 ≤ m ∧ m ≤ FRAME_QUEUE_SIZE) writable remaining st.subpq)
    (hsf : frame_queue_nb_remaining st.subpq < (sub_fuel : Int))
    (hz : frame_queue_nb_remaining st.pictq ≠ 0) :
    (video_refresh_frame av_frame_unref avsubtitle_free sdt edt framedrop sub_fuel time st
      lastvp vp is).sound av_frame_unref avsubtitle_free st := by
  have hpos : 0 < frame_queue_nb_remaining st.pictq := by
    have := (nb_remaining_eq sub0 av_frame_unref avsubtitle_free st.pictq hp).2
    omega
  unfold video_refresh_frame
  split
  · exact ⟨rfl, hpos⟩
  · split
    · exact ⟨rfl, hpos⟩
    · split
      · exact video_refresh_show_sound sub0 av_frame_unref avsubtitle_free sdt edt framedrop
          sub_fuel time st vp _ hp hs hsf hz
      · exact video_refresh_show_sound sub0 av_frame_unref avsubtitle_free sdt edt framedrop
          sub_fuel time st vp _ hp hs hsf hz

/-- A passage from `retry` on reachable queues, the subtitle loop having more
fuel than subtitles remain, ends in one of the sound ways. -/
theorem video_refresh_pass_sound {α σ : Type} (sub0 : σ) (av_frame_unref : α → α)
    (avsubtitle_free : σ → σ) (sdt edt : σ → Int) (framedrop : Int) (sub_fuel : Nat)
    (time : Nat → ℚ) (st : RefreshState α σ)
    (hp : FQReach sub0 av_frame_unref avsubtitle_free
      (fun m => 1 ≤ m ∧ m ≤ FRAME_QUEUE_SIZE) writable remaining st.pictq)
    (hs : FQReach sub0 av_frame_unref avsubtitle_free
      (fun m => 1 ≤ m ∧ m ≤ FRAME_QUEUE_SIZE) writable remaining st.subpq)
    (hsf : frame_queue_nb_remaining st.subpq < (sub_fuel : Int)) :
    (video_refresh_pass av_frame_unref avsubtitle_free sdt edt framedrop sub_fuel time
      st).sound av_frame_unref avsubtitle_free st := by
  obtain ⟨⟨lastvp, hlast⟩, ⟨vp, hvp⟩, _, hnext⟩ :=
    frame_queue_next_remaining sub0 av_frame_unref avsubtitle_free st.pictq hp
  unfold video_refresh_pass
  by_cases hz : frame_queue_nb_remaining st.pictq = 0
  · rw [if_pos hz]
    exact ⟨rfl, hz⟩
  · obtain ⟨f1, hf1, _, _, hpos⟩ := hnext hz
    rw [if_neg hz, hlast, hvp]
    dsimp only
    split
    · rw [hf1]
      exact ⟨hf1, rfl, hpos⟩
    · split
      · exact video_refresh_frame_sound sub0 av_frame_unref avsubtitle_free sdt edt framedrop
          sub_fuel time st lastvp vp _ hp hs hsf hz
      · exact video_refresh_frame_sound sub0 av_frame_unref avsubtitle_free sdt edt framedrop
          sub_fuel time st lastvp vp _ hp hs hsf hz

/-- The retry loop on reachable queues, with more fuel than frames remain in
`pictq`. -/
theorem video_refresh_retry_spec {α σ : Type} (sub0 : σ) (av_frame_unref : α → α)
    (avsubtitle_free : σ → σ) (sdt edt : σ → Int) (framedrop : Int) (sub_fuel : Nat)
    (time : Nat → Nat → ℚ) :
    ∀ (fuel n : Nat) (st : RefreshState α σ),
      FQReach sub0 av_frame_unref avsubtitle_free
        (fun m => 1 ≤ m ∧ m ≤ FRAME_QUEUE_SIZE) writable remaining st.pictq →
      FQReach sub0 av_frame_unref avsubtitle_free
        (fun m => 1 ≤ m ∧ m ≤ FRAME_QUEUE_SIZE) writable remaining st.subpq →
      frame_queue_nb_remaining st.subpq < (sub_fuel : Int) →
      frame_queue_nb_remaining st.pictq < (fuel : Int) →
      ∃ st1 retries calls,
        video_refresh_retry av_frame_unref avsubtitle_free sdt edt framedrop sub_fuel time
          fuel n st = some (st1, retries, calls) ∧
        (retries : Int) ≤ frame_queue_nb_remaining st.pictq ∧
        (calls.length = retries ∨ calls.length = retries + 1) ∧
        (∀ r, r ∈ calls → 0 < r) ∧
        frame_queue_nb_remaining st1.pictq =
          frame_queue_nb_remaining st.pictq - (calls.length : Int) := by
  intro fuel
  induction fuel with
  | zero =>
    intro n st hp _ _ h
    have := (nb_remaining_eq sub0 av_frame_unref avsubtitle_free st.pictq hp).2
    simp only [Nat.cast_zero] at h
    omega
  | succ k ih =>
    intro n st hp hs hsf hfuel
    have hsound := video_refresh_pass_sound sub0 av_frame_unref avsubtitle_free sdt edt
      framedrop sub_fuel (time n) st hp hs hsf
    have hnn := (nb_remaining_eq sub0 av_frame_unref avsubtitle_free st.pictq hp).2
    obtain ⟨_, _, _, hnext⟩ :=
      frame_queue_next_remaining sub0 av_frame_unref avsubtitle_free st.pictq hp
    unfold video_refresh_retry
    cases hpass : video_refresh_pass av_frame_unref avsubtitle_free sdt edt framedrop sub_fuel
      (time n) st with
    | fault =>
      rw [hpass] at hsound
      exact hsound.elim
    | nothing st1 =>
      rw [hpass] at hsound
      obtain ⟨h1, _⟩ := hsound
      subst h1
      exact ⟨_, 0, [], rfl, by simpa using hnn, Or.inl rfl, by simp, by simp⟩
    | display st1 =>
      rw [hpass] at hsound
      obtain ⟨h1, _⟩ := hsound
      exact ⟨_, 0, [], rfl, by simpa using hnn, Or.inl rfl, by simp, by simp [h1]⟩
    | shown st1 =>
      rw [hpass] at hsound
      obtain ⟨h1, hpos⟩ := hsound
      obtain ⟨f1, hf1, _, hdec, _⟩ := hnext (by omega)
      rw [h1] at hf1
      injection hf1 with hf1
      refine ⟨_, 0, [_], rfl, by simpa using hnn, Or.inr rfl, ?_, ?_⟩
      · intro r hr
        simp only [List.mem_singleton] at hr
        rw [hr]
        exact hpos
      · rw [hf1, hdec]
        simp
    | retry st1 =>
      rw [hpass] at hsound
      obtain ⟨h1, hsub, hpos⟩ := hsound
      obtain ⟨f1, hf1, hr1, hdec, _⟩ := hnext (by omega)
      rw [h1] at hf1
      injection hf1 with hf1
      rw [← hf1] at hr1 hdec
      obtain ⟨st2, retries, calls, hrun, hle, hlen, hcalls, hfin⟩ :=
        ih (n + 1) st1 hr1 (by rw [hsub]; exact hs) (by rw [hsub]; exact hsf)
          (by push_cast at hfuel; omega)
      dsimp only
      rw [hrun]
      refine ⟨st2, retries + 1, _, rfl, ?_, ?_, ?_, ?_⟩
      · push_cast
        omega
      · rcases hlen with h | h
        · exact Or.inl (by simp [h])
        · exact Or.inr (by simp [h])
      · intro r hr
        rcases List.mem_cons.1 hr with h | h
        · rw [h]; exact hpos
        · exact hcalls r h
      · rw [hfin, hdec]
        simp only [List.length_cons]
        push_cast
        omega

/-- C25: the retry loop of `video_refresh` terminates.  On frame queues used
as the program uses them (no frame is pushed during the call), with more fuel
than frames remain in `pictq` (and, for the subtitle loop, in `subpq`), the
block `if (is->video_st) { retry: … }` reaches `display`: the number of jumps
back to `retry` is at most the number of frames that remained, every call of
`frame_queue_next(&is->pictq)` finds `frame_queue_nb_remaining` above 0, there
is one such call before each jump back and at most one more, and the number
of remaining frames has gone down by the number of these calls.  Every
passage that jumps back to `retry` has called `frame_queue_next` on `pictq`,
which took exactly one from `frame_queue_nb_remaining`. -/
theorem C25_retry_terminates {α σ : Type} (sub0 : σ) (av_frame_unref : α → α)
    (avsubtitle_free : σ → σ) (sdt edt : σ → Int) (framedrop : Int) (sub_fuel : Nat)
    (time : Nat → Nat → ℚ) (fuel : Nat) (st : RefreshState α σ)
    (hp : FQReach sub0 av_frame_unref avsubtitle_free
      (fun m => 1 ≤ m ∧ m ≤ FRAME_QUEUE_SIZE) writable remaining st.pictq)
    (hs : FQReach sub0 av_frame_unref avsubtitle_free
      (fun m => 1 ≤ m ∧ m ≤ FRAME_QUEUE_SIZE) writable remaining st.subpq)
    (hsf : frame_queue_nb_remaining st.subpq < (sub_fuel : Int))
    (hfuel : frame_queue_nb_remaining st.pictq < (fuel : Int)) :
    (∃ st1 retries calls,
      video_refresh_video av_frame_unref avsubtitle_free sdt edt framedrop sub_fuel time
        fuel st = some (st1, retries, calls) ∧
      (retries : Int) ≤ frame_queue_nb_remaining st.pictq ∧
      (calls.length = retries ∨ calls.length = retries + 1) ∧
      (∀ r, r ∈ calls → 0 < r) ∧
      frame_queue_nb_remaining st1.pictq =
        frame_queue_nb_remaining st.pictq - (calls.length : Int)) ∧
    (∀ (t : Nat → ℚ) (st0 st1 : RefreshState α σ),
      FQReach sub0 av_frame_unref avsubtitle_free
        (fun m => 1 ≤ m ∧ m ≤ FRAME_QUEUE_SIZE) writable remaining st0.pictq →
      FQReach sub0 av_frame_unref avsubtitle_free
        (fun m => 1 ≤ m ∧ m ≤ FRAME_QUEUE_SIZE) writable remaining st0.subpq →
      frame_queue_nb_remaining st0.subpq < (sub_fuel : Int) →
      video_refresh_pass av_frame_unref avsubtitle_free sdt edt framedrop sub_fuel t st0 =
        RefreshPass.retry st1 →
      frame_queue_next av_frame_unref avsubtitle_free st0.pictq = some st1.pictq ∧
      frame_queue_nb_remaining st1.pictq = frame_queue_nb_remaining st0.pictq - 1 ∧
      0 < frame_queue_nb_remaining st0.pictq) := by
  refine ⟨?_, ?_⟩
  · unfold video_refresh_video
    by_cases hv : st.is.video_st ≠ none
    · rw [if_pos hv]
      exact video_refresh_retry_spec sub0 av_frame_unref avsubtitle_free sdt edt framedrop
        sub_fuel time fuel 0 st hp hs hsf hfuel
    · rw [if_neg hv]
      have hnn := (nb_remaining_eq sub0 av_frame_unref avsubtitle_free st.pictq hp).2
      exact ⟨st, 0, [], rfl, by simpa using hnn, Or.inl rfl, by simp, by simp⟩
  · intro t st0 st1 hp0 hs0 hsf0 hpass
    have hsound := video_refresh_pass_sound sub0 av_frame_unref avsubtitle_free sdt edt
      framedrop sub_fuel t st0 hp0 hs0 hsf0
    rw [hpass] at hsound
    obtain ⟨h1, _, hpos⟩ := hsound
    obtain ⟨_, _, _, hnext⟩ :=
      frame_queue_next_remaining sub0 av_frame_unref avsubtitle_free st0.pictq hp0
    obtain ⟨f1, hf1, _, hdec, _⟩ := hnext (by omega)
    rw [h1] at hf1
    injection hf1 with hf1
    rw [← hf1] at hdec
    exact ⟨h1, hdec, hpos⟩

/-- C25 at a concrete input: the sample picture queue with two frames of
serial 0 pushed, the video queue having serial 1: both frames are stale, the
loop jumps back twice and stops with nothing remaining. -/
theorem C25_retry_terminates_witness :
    (∃ st1 retries calls,
      video_refresh_video (fun (x : Nat) => x) (fun (x : Nat) => x) (fun _ => 0)
        (fun _ => 0) (-1) 1 (fun _ _ => 0) 3 sample_refresh_state =
          some (st1, retries, calls) ∧
      (retries : Int) ≤ frame_queue_nb_remaining sample_refresh_state.pictq ∧
      (calls.length = retries ∨ calls.length = retries + 1) ∧
      (∀ r, r ∈ calls → 0 < r) ∧
      frame_queue_nb_remaining st1.pictq =
        frame_queue_nb_remaining sample_refresh_state.pictq - (calls.length : Int)) ∧
    frame_queue_nb_remaining sample_refresh_state.pictq = 2 ∧
    (∃ st1, video_refresh_video (fun (x : Nat) => x) (fun (x : Nat) => x) (fun _ => 0)
      (fun _ => 0) (-1) 1 (fun _ _ => 0) 3 sample_refresh_state = some (st1, 2, [2, 1])) :=
  ⟨(C25_retry_terminates (0 : Nat) (fun (x : Nat) => x) (fun (x : Nat) => x) (fun _ => 0)
      (fun _ => 0) (-1) 1 (fun _ _ => 0) 3 sample_refresh_state
      (FQReach.push
        (FQReach.push (FQReach.init (fun i => some i) 3 1 sample_pictq (by decide) rfl)
          ⟨{ packet_queue_init with abort_request := 0 }, 0, rfl⟩)
        ⟨{ packet_queue_init with abort_request := 0 }, 1, rfl⟩)
      (FQReach.init (fun i => some i) 16 0 _ (by decide) rfl) (by decide) (by decide)).1,
    by decide, ⟨_, rfl⟩⟩

end FFplay
